import Mathlib

/-!
# ChineseCalendar: time utilities, delta-T and the lunisolar month rules

A shallow embedding of `astronomy.h` and `calendar.cpp`.

* `REAL` (`long double`) is interpreted in exact arithmetic as `ℚ`.
* A C `int` is an `Int`; C integer division is `Int.tdiv`; the conversion
  `(int)(x)` is `to_int` (truncation toward zero).
* Array indices (`nm_idx`, `leap`, loop counters) only ever count upwards
  from `0`, so they are `Nat`; a table of day offsets (`MyDayTime::ofst`) is a
  function from the index to the offset.
* A `for`/`while` loop is a structurally recursive function on the number of
  iterations that are left.
-/

/-! ## Part 1: definitions -/

namespace astronomy

/-- `typedef long double REAL`, read in exact arithmetic. -/
abbrev REAL := ℚ

/-- `JD2000`: the Julian Day of 2000-01-01 12:00:00. -/
def JD2000 : REAL := 2451545

/-- `struct daytime_t`. -/
structure daytime_t where
  year : Int
  month : Int
  day : Int
  hour : Int
  minute : Int
  second : REAL
deriving DecidableEq

/-- The C conversion `(int)(x)` of a `REAL`: truncation toward zero. -/
def to_int (x : REAL) : Int := if 0 ≤ x then ⌊x⌋ else ⌈x⌉

/-- `struct delta_time_t`. -/
structure delta_time_t where
  y : Int
  a0 : REAL
  a1 : REAL
  a2 : REAL
  a3 : REAL
deriving DecidableEq

namespace impl

/-- `impl::D`, the table of delta-T segments; the last entry `{ 6000 }` has its
coefficients value-initialised to zero. -/
def D : List delta_time_t :=
  [ ⟨-4000, 108371.7, -13036.80, 392.000,  0.0000⟩,
    ⟨ -500,  17201.0,   -627.82,  16.170, -0.3413⟩,
    ⟨ -150,  12200.6,   -346.41,   5.403, -0.1593⟩,
    ⟨  150,   9113.8,   -328.13,  -1.647,  0.0377⟩,
    ⟨  500,   5707.5,   -391.41,   0.915,  0.3145⟩,
    ⟨  900,   2203.4,   -283.45,  13.034, -0.1778⟩,
    ⟨ 1300,    490.1,    -57.35,   2.085, -0.0072⟩,
    ⟨ 1600,    120.0,     -9.81,  -1.532,  0.1403⟩,
    ⟨ 1700,     10.2,     -0.91,   0.510, -0.0370⟩,
    ⟨ 1800,     13.4,     -0.72,   0.202, -0.0193⟩,
    ⟨ 1830,      7.8,     -1.81,   0.416, -0.0247⟩,
    ⟨ 1860,      8.3,     -0.13,  -0.406,  0.0292⟩,
    ⟨ 1880,     -5.4,      0.32,  -0.183,  0.0173⟩,
    ⟨ 1900,     -2.3,      2.06,   0.169, -0.0135⟩,
    ⟨ 1920,     21.2,      1.69,  -0.304,  0.0167⟩,
    ⟨ 1940,     24.2,      1.22,  -0.064,  0.0031⟩,
    ⟨ 1960,     33.2,      0.51,   0.231, -0.0109⟩,
    ⟨ 1980,     51.0,      1.29,  -0.026,  0.0032⟩,
    ⟨ 2000,     64.7,     -1.66,   5.224, -0.2905⟩,
    ⟨ 2150,    279.4,    732.95, 429.579,  0.0158⟩,
    ⟨ 6000,        0,         0,       0,       0⟩ ]

/-- `D[i]`. -/
def D_at (i : Nat) : delta_time_t := D.getD i ⟨0, 0, 0, 0, 0⟩

/-- The scan `for (i = 0; i + 1 < length; ++i) { p = D + i; if (y < p[1].y) break; }`
of `impl::calc_delta_t`. `n` counts the iterations that are left, `i` is the
loop counter and `p` the index the pointer `p` holds on entry; the result is
the index `p` holds when the loop is left. -/
def scan_segment (y : REAL) : Nat → Nat → Nat → Nat
  | 0, _, p => p
  | n + 1, i, p =>
    if i + 1 < D.length then
      if y < ((D_at (i + 1)).y : REAL) then i else scan_segment y n (i + 1) i
    else p

/-- The segment `p - D` that `impl::calc_delta_t` evaluates for the fractional
year `y`. -/
def segment_index (y : REAL) : Nat := scan_segment y D.length 0 0

/-- `impl::calc_delta_t(t)`, `t` in days from `JD2000`. -/
def calc_delta_t (t : REAL) : REAL :=
  let y : REAL := t / 365.2425 + 2000
  let p : delta_time_t := D_at (segment_index y)
  let p1 : delta_time_t := D_at (segment_index y + 1)
  let t1 : REAL := (y - (p.y : REAL)) / ((p1.y : REAL) - (p.y : REAL) - 0.0) * 10
  let d : REAL := p.a0 + (p.a1 + (p.a2 + p.a3 * t1) * t1) * t1
  d / 86400

end impl

/-- `astronomy::make_julian_day`. -/
def make_julian_day (year month day hour minute : Int) (second : REAL) : REAL :=
  let month1 : Int := if month ≤ 2 then month + 12 else month
  let year1 : Int := if month ≤ 2 then year - 1 else year
  let B : Int := Int.tdiv year1 400 - Int.tdiv year1 100
  let a : REAL := 365.25 * (year1 : REAL)
  let b : REAL := 30.6001 * ((month1 + 1 : Int) : REAL)
  (⌊a⌋ : REAL) + (⌊b⌋ : REAL) + (B : REAL) + 1720996.5 + (day : REAL)
    + (hour : REAL) / 24.0 + (minute : REAL) / 1440.0 + second / 86400.0

/-- `astronomy::calc_delta_t(jd)`. -/
def calc_delta_t (jd : REAL) : REAL := impl.calc_delta_t (jd - JD2000)

/-- `astronomy::daytime_from_julian_day`, returning the record it fills. -/
def daytime_from_julian_day (jd : REAL) : daytime_t :=
  let jdf : REAL := jd + 0.5
  let a0 : Int := to_int jdf
  let f : REAL := jdf - (a0 : REAL)
  let a1 : Int :=
    if a0 > 2299161 then
      let cnd : Int := to_int (((a0 : REAL) - 1867216.25) / 36524.25)
      a0 + 1 + cnd - Int.tdiv cnd 4
    else a0
  let a : Int := a1 + 1524
  let year0 : Int := to_int (((a : REAL) - 122.1) / 365.25)
  let cnd : Int := a - to_int (365.25 * (year0 : REAL))
  let month0 : Int := to_int ((cnd : REAL) / 30.6001)
  let day : Int := cnd - to_int ((month0 : REAL) * 30.6001)
  let year1 : Int := year0 - 4716
  let month1 : Int := month0 - 1
  let month2 : Int := if month1 > 12 then month1 - 12 else month1
  let year2 : Int := if month2 ≤ 2 then year1 + 1 else year1
  let year3 : Int := if year2 < 1 then year2 - 1 else year2
  let f1 : REAL := f * 24.0
  let hour : Int := to_int f1
  let f2 : REAL := (f1 - (hour : REAL)) * 60.0
  let minute : Int := to_int f2
  let f3 : REAL := f2 - (minute : REAL)
  { year := year3, month := month2, day := day, hour := hour, minute := minute,
    second := f3 * 60.0 }

end astronomy

namespace calendar

/-- The loop of the first branch of the leap search of `calc_chn_cal`
(`ms_idx` starts at `2`): `n` iterations are left, `i` is the loop counter. The
result is the value of `leap` after the loop (`0` when the loop ends without
a `break`). -/
def leap_loop_first (solar_terms new_moons : Nat → Int) (nm_idx : Nat) : Nat → Nat → Nat → Nat
  | 0, _, _ => 0
  | n + 1, i, ms_idx =>
    if new_moons (nm_idx + i + 1) ≤ solar_terms ms_idx then nm_idx + i
    else leap_loop_first solar_terms new_moons nm_idx n (i + 1) (ms_idx + 2)

/-- The loop of the second branch of the leap search of `calc_chn_cal`
(`ms_idx` starts at `26`). -/
def leap_loop_second (solar_terms new_moons : Nat → Int) (nm_idx : Nat) : Nat → Nat → Nat → Nat
  | 0, _, _ => 0
  | n + 1, i, ms_idx =>
    if new_moons (nm_idx + i + 13) ≤ solar_terms ms_idx then nm_idx + i + 12
    else leap_loop_second solar_terms new_moons nm_idx n (i + 1) (ms_idx + 2)

/-- The leap search of `calc_chn_cal`: the value of `leap` it ends with, from
the day offsets `solar_terms[i].ofst`, `new_moons[i].ofst` and `nm_idx`. -/
def leap_search (solar_terms new_moons : Nat → Int) (nm_idx : Nat) : Nat :=
  if solar_terms 26 ≥ new_moons (nm_idx + 13) then
    leap_loop_first solar_terms new_moons nm_idx 13 0 2
  else if solar_terms 50 ≥ new_moons (nm_idx + 25) then
    leap_loop_second solar_terms new_moons nm_idx 13 0 26
  else 0

/-- The ordinal `readable` that the month loop of `calc_chn_cal` gives to the
month at index `nm_idx`. -/
def readable (leap nm_idx : Nat) : Nat :=
  if leap = 0 ∨ nm_idx < leap then (nm_idx + 9) % 12 + 1 else (nm_idx + 8) % 12 + 1

/-- The month at index `nm_idx` is printed as the leap month: the test
`leap == 0 || nm_idx != leap` of the month loop fails. -/
def is_flagged_leap (leap nm_idx : Nat) : Prop := ¬ (leap = 0 ∨ nm_idx ≠ leap)

instance (leap nm_idx : Nat) : Decidable (is_flagged_leap leap nm_idx) := by
  unfold is_flagged_leap; infer_instance

end calendar

/-! ### The Gregorian calendar, as the specification speaks of it -/

namespace Gregorian

/-- Leap years of the Gregorian calendar. -/
def is_leap_year (y : Int) : Prop := y % 4 = 0 ∧ (y % 100 ≠ 0 ∨ y % 400 = 0)

instance (y : Int) : Decidable (is_leap_year y) := by
  unfold is_leap_year; infer_instance

/-- Number of days of month `m` of year `y`. -/
def days_in_month (y m : Int) : Int :=
  if m = 2 then (if is_leap_year y then 29 else 28)
  else if m = 4 ∨ m = 6 ∨ m = 9 ∨ m = 11 then 30
  else 31

/-- A valid Gregorian date. -/
def valid_date (y m d : Int) : Prop :=
  1 ≤ m ∧ m ≤ 12 ∧ 1 ≤ d ∧ d ≤ days_in_month y m

instance (y m d : Int) : Decidable (valid_date y m d) := by
  unfold valid_date; infer_instance

/-- A valid time of day with a whole number of seconds. -/
def valid_time (h mi s : Int) : Prop :=
  0 ≤ h ∧ h ≤ 23 ∧ 0 ≤ mi ∧ mi ≤ 59 ∧ 0 ≤ s ∧ s ≤ 59

instance (h mi s : Int) : Decidable (valid_time h mi s) := by
  unfold valid_time; infer_instance

/-- The civil day that follows `(y, m, d)`. -/
def next_day (y m d : Int) : Int × Int × Int :=
  if d < days_in_month y m then (y, m, d + 1)
  else if m < 12 then (y, m + 1, 1)
  else (y + 1, 1, 1)

/-- The date `(y, m, d)` is 1582-10-16 or later. -/
def from_1582_10_16 (y m d : Int) : Prop :=
  1582 < y ∨ (y = 1582 ∧ (10 < m ∨ (m = 10 ∧ 16 ≤ d)))

instance (y m d : Int) : Decidable (from_1582_10_16 y m d) := by
  unfold from_1582_10_16; infer_instance

end Gregorian

/-! ### Integer forms of the two conversions

`make_julian_day` and `daytime_from_julian_day` only take the floor of
rationals with a fixed denominator; the definitions below are the same
computations written with integer division. They are proved equal to the
source functions in Part 2 and serve the proofs only. -/

namespace astronomy

/-- The year after the shift `if (month <= 2) { month += 12; --year; }`. -/
def march_year (y m : Int) : Int := if m ≤ 2 then y - 1 else y

/-- The month after the shift `if (month <= 2) { month += 12; --year; }`. -/
def march_month (m : Int) : Int := if m ≤ 2 then m + 12 else m

/-- The integer `make_julian_day(y, m, d, 0, 0, 0) + 0.5`, for a shifted year
that is not negative. -/
def day_number (y m d : Int) : Int :=
  (1461 * march_year y m) / 4 + (306001 * (march_month m + 1)) / 10000
    + (march_year y m / 400 - march_year y m / 100) + 1720997 + d

/-- The value of `a` after the block `if (a > 2299161) { ... }` of
`daytime_from_julian_day`. -/
def julian_shift (a0 : Int) : Int :=
  if a0 > 2299161 then a0 + 1 + (4 * a0 - 7468865) / 146097 - (4 * a0 - 7468865) / 146097 / 4
  else a0

/-- The value `(int)((a - 122.1) / 365.25)` of `year`. -/
def tail_year (a : Int) : Int := (20 * a - 2442) / 7305

/-- The value `a - (int)(365.25 * year)` of `cnd`. -/
def tail_rest (a : Int) : Int := a - (1461 * tail_year a) / 4

/-- The value `(int)(cnd / 30.6001)` of `month`. -/
def tail_month (a : Int) : Int := (10000 * tail_rest a) / 306001

/-- The value `cnd - (int)(month * 30.6001)` stored in `p->day`. -/
def tail_day (a : Int) : Int := tail_rest a - (306001 * tail_month a) / 10000

/-- The value stored in `p->month`. -/
def civil_month (a : Int) : Int :=
  if tail_month a - 1 > 12 then tail_month a - 1 - 12 else tail_month a - 1

/-- The value stored in `p->year`. -/
def civil_year (a : Int) : Int :=
  let y := if civil_month a ≤ 2 then tail_year a - 4716 + 1 else tail_year a - 4716
  if y < 1 then y - 1 else y

end astronomy

/-! ### The event solvers, the day count and the solar-term table -/

namespace astronomy
namespace impl

/-- The cubic `p->a0 + (p->a1 + (p->a2 + p->a3 * t1) * t1) * t1` that
`impl::calc_delta_t` evaluates on the segment `p`. -/
def segment_cubic (p : delta_time_t) (t1 : REAL) : REAL :=
  p.a0 + (p.a1 + (p.a2 + p.a3 * t1) * t1) * t1

end impl
end astronomy

namespace calendar
open astronomy

/-- `estimate_solar_term`. -/
def estimate_solar_term (year angle : Int) : REAL :=
  let month0 : Int := Int.tdiv (angle + 105) 30
  let month : Int := if month0 > 12 then month0 - 12 else month0
  if Int.tmod angle 30 = 0 then
    make_julian_day year month (if month < 8 then 20 else 22) 0 0 0.0
  else
    make_julian_day year month (if month < 8 then 4 else 7) 0 0 0.0

/-- The constant `step` of both Newton loops. -/
def step : REAL := 0.000005

/-- The constant `step2 = step * 2`. -/
def step2 : REAL := step * 2

/-- What a loop that has no iteration limit in the source has done after a
given number of iterations: it has returned `r`, or it has divided by the
slope `Dp = 0` at `JD0` (no value in exact arithmetic), or it is still
iterating. -/
inductive newton_outcome where
  | converged (r : REAL)
  | zero_slope (JD0 : REAL)
  | unfinished
deriving DecidableEq

/-- The loop `do { JD0 = JD1; ...; JD1 = JD0 - residual / Dp; } while (fabs(JD1 - JD0) > 1e-8); return JD0;`
shared by `calc_solar_term` and `calc_new_moon_nearby`; `residual JD0` and
`slope JD0` are the values of the numerator and of `Dp` at `JD0`, `n` bounds
the number of iterations looked at. -/
def newton_loop (residual slope : REAL → REAL) : Nat → REAL → newton_outcome
  | 0, _ => newton_outcome.unfinished
  | n + 1, JD1 =>
    let JD0 : REAL := JD1
    if slope JD0 = 0 then newton_outcome.zero_slope JD0
    else
      let JD1 : REAL := JD0 - residual JD0 / slope JD0
      if |JD1 - JD0| > 1e-8 then newton_loop residual slope n JD1
      else newton_outcome.converged JD0

/-- The numerator `D - angle` of `calc_solar_term` at `JD0`, for the Sun
longitude function `sun` (`astronomy::get_sun_ecliptic_longitude`). -/
def solar_term_residual (sun : REAL → REAL) (angle : Int) (JD0 : REAL) : REAL :=
  let D : REAL := sun JD0
  let D : REAL := if angle = 0 ∧ D > 345.0 then D - 360.0 else D
  D - (angle : REAL)

/-- The slope `Dp` of `calc_solar_term` at `JD0`. -/
def solar_term_slope (sun : REAL → REAL) (JD0 : REAL) : REAL :=
  (sun (JD0 + step) - sun (JD0 - step)) / step2

/-- `calc_solar_term(year, idx)` for the Sun longitude function `sun`, looked at
for `n` iterations. -/
def calc_solar_term (sun : REAL → REAL) (n : Nat) (year idx : Int) : newton_outcome :=
  newton_loop (solar_term_residual sun (idx * 15)) (solar_term_slope sun) n
    (estimate_solar_term year (idx * 15))

/-- The numerator `D` of `calc_new_moon_nearby` at `JD0`, for the elongation
function `eld` (`ecliptic_longitude_diff`). -/
def new_moon_residual (eld : REAL → REAL) (JD0 : REAL) : REAL :=
  let D : REAL := eld JD0
  if D > 345.0 then D - 360.0 else D

/-- The slope `Dp` of `calc_new_moon_nearby` at `JD0`. -/
def new_moon_slope (eld : REAL → REAL) (JD0 : REAL) : REAL :=
  (eld (JD0 + step) - eld (JD0 - step)) / step2

/-- `calc_new_moon_nearby(jd)` for the elongation function `eld`, looked at for
`n` iterations. -/
def calc_new_moon_nearby (eld : REAL → REAL) (n : Nat) (jd : REAL) : newton_outcome :=
  newton_loop (new_moon_residual eld) (new_moon_slope eld) n jd

/-- The Newton iterate reached from `x` after `k` updates
`JD1 = JD0 - residual / Dp`. -/
def newton_iterate (residual slope : REAL → REAL) : Nat → REAL → REAL
  | 0, x => x
  | k + 1, x => newton_iterate residual slope k (x - residual x / slope x)

/-- The exit test of the Newton loops at `JD0`: the step taken there is within
the tolerance, `fabs(JD1 - JD0) > 1e-8` fails. -/
def within_tolerance (residual slope : REAL → REAL) (JD0 : REAL) : Prop :=
  |residual JD0 / slope JD0| ≤ 1e-8

instance (residual slope : REAL → REAL) (JD0 : REAL) :
    Decidable (within_tolerance residual slope JD0) := by
  unfold within_tolerance; infer_instance

/-- The iterate `k` from `x` is the first at which the Newton loop can stop:
the earlier iterates have a non-zero slope and miss the tolerance, iterate `k`
has a non-zero slope and meets it. -/
def first_within (residual slope : REAL → REAL) (x : REAL) (k : Nat) : Prop :=
  (∀ m < k, slope (newton_iterate residual slope m x) ≠ 0
      ∧ ¬ within_tolerance residual slope (newton_iterate residual slope m x))
    ∧ slope (newton_iterate residual slope k x) ≠ 0
    ∧ within_tolerance residual slope (newton_iterate residual slope k x)

instance (residual slope : REAL → REAL) (x : REAL) (k : Nat) :
    Decidable (first_within residual slope x k) := by
  unfold first_within; infer_instance

/-- The loop `for (i = 1; i < 30; ++i)` of `estimate_new_moon_forward`: `n`
iterations are left, `jd` and `D0` are the current values. -/
def forward_loop (eld : REAL → REAL) : Nat → REAL → REAL → REAL
  | 0, jd, _ => jd
  | n + 1, jd, D0 =>
    let jd : REAL := jd + 1
    let D1 : REAL := eld jd
    if D1 < D0 then jd - 1 else forward_loop eld n jd D1

/-- `estimate_new_moon_forward`. -/
def estimate_new_moon_forward (eld : REAL → REAL) (jd : REAL) : REAL :=
  forward_loop eld 29 jd (eld jd)

/-- `ONE_DAY = 360.0 / 29.53`. -/
def ONE_DAY : REAL := 360.0 / 29.53

/-- `ONE_DAY_RVS = 1 / ONE_DAY`. -/
def ONE_DAY_RVS : REAL := 1 / ONE_DAY

/-- The walk `do { jd += 1; D1 = eld(jd); } while (D1 > D0); return jd - 1;` of
`estimate_new_moon_backward`, looked at for `n` iterations (`none`: still
walking). -/
def walk_forward (eld : REAL → REAL) (D0 : REAL) : Nat → REAL → Option REAL
  | 0, _ => none
  | n + 1, jd =>
    let jd : REAL := jd + 1
    if eld jd > D0 then walk_forward eld D0 n jd else some (jd - 1)

/-- The walk `do { jd -= 1; D1 = eld(jd); } while (D1 < D0); return jd;` of
`estimate_new_moon_backward`, looked at for `n` iterations. -/
def walk_backward (eld : REAL → REAL) (D0 : REAL) : Nat → REAL → Option REAL
  | 0, _ => none
  | n + 1, jd =>
    let jd : REAL := jd - 1
    if eld jd < D0 then walk_backward eld D0 n jd else some jd

/-- The loop `for (i = 1; i < 30; ++i)` at the end of
`estimate_new_moon_backward`. -/
def backward_loop (eld : REAL → REAL) : Nat → REAL → REAL → REAL
  | 0, jd, _ => jd
  | n + 1, jd, D0 =>
    let jd : REAL := jd - 1
    let D1 : REAL := eld jd
    if D1 > D0 then jd else backward_loop eld n jd D1

/-- `estimate_new_moon_backward`, its two walks looked at for `n` iterations. -/
def estimate_new_moon_backward (eld : REAL → REAL) (n : Nat) (jd : REAL) : Option REAL :=
  let D0 : REAL := eld jd
  if D0 > ONE_DAY then
    let jd : REAL := jd - D0 * ONE_DAY_RVS
    let D1 : REAL := eld jd
    if D1 > D0 then walk_forward eld D0 n jd
    else if D1 < D0 then walk_backward eld D1 n jd
    else some jd
  else some (backward_loop eld 29 jd D0)

/-- `days_offset`. -/
def days_offset (dt : daytime_t) : Int :=
  let m : Int := if dt.month < 3 then dt.month + 12 else dt.month
  let y : Int := if dt.month < 3 then dt.year - 1 else dt.year
  y * 365 + (y >>> (2 : Nat)) - Int.tdiv y 100 + Int.tdiv y 400 + (m - 3) * 30
    + (((m - 2) * 19) >>> (5 : Nat)) + dt.day

/-- The record `{year, month, day, 0, 0, 0}`. -/
def civil_date (y m d : Int) : daytime_t :=
  { year := y, month := m, day := d, hour := 0, minute := 0, second := 0 }

/-- `WINTER_SOLSTICE_INDEX = 23 - 5`. -/
def WINTER_SOLSTICE_INDEX : Nat := 23 - 5

/-- The index expression `i >= 5 ? i - 5 : i + 19` that pairs the position `i`
of a term in the civil year (and in `solar_terms_names`) with the argument
`idx` of `calc_solar_term`. -/
def year_term_index (i : Nat) : Nat := if i ≥ 5 then i - 5 else i + 19

/-- The arguments `(year, idx)` of the call of `calc_solar_term` whose result
`calc_chn_cal(y)` stores in `solar_terms[s]`. -/
def solar_term_request (y : Int) (s : Nat) : Int × Nat :=
  if s < 2 then (y - 1, (WINTER_SOLSTICE_INDEX + 22 + s) % 24)
  else if s = 2 then (y - 1, WINTER_SOLSTICE_INDEX)
  else if s < 27 then (y, year_term_index (s - 3))
  else (y + 1, year_term_index (s - 27))

/-- The ecliptic longitude `angle = idx * 15` of the term stored in slot `s`. -/
def slot_longitude (s : Nat) : Nat := (solar_term_request 0 s).2 * 15

/-- `solar_terms_names`. -/
def solar_terms_names : List String :=
  ["小寒", "大寒", "立春", "雨水", "驚蟄", "春分", "清明", "穀雨", "立夏", "小滿", "芒種", "夏至",
   "小暑", "大暑", "立秋", "處暑", "白露", "秋分", "寒露", "霜降", "立冬", "小雪", "大雪", "冬至"]

/-- The index `(st_idx + 21) % 24` into `solar_terms_names` used for slot `s`. -/
def slot_name_index (s : Nat) : Nat := (s + 21) % 24

/-- Values of `enum solar_term_t` used below. -/
def minor_snow : Nat := 240

/-- The value `major_snow` of `enum solar_term_t`. -/
def major_snow : Nat := 255

/-- The value `winter_solstice` of `enum solar_term_t`. -/
def winter_solstice : Nat := 270

/-- The entries `new_moons[0..2].ofst` and `nm_idx` after step 1 of
`calc_chn_cal` and the first round of the loop that fills `new_moons[2..27]`. -/
structure anchor_state where
  nm_idx : Nat
  nm0 : Int
  nm1 : Int
  nm2 : Int
deriving DecidableEq

/-- Step 1 of `calc_chn_cal` on day offsets. `st` is `solar_terms[2].ofst`, `c`
the offset of the new moon found first (`jd_nm`), `p` that of
`calc_new_moon_nearby(jd_nm - 29.53)`, `n` that of
`calc_new_moon_nearby(jd_nm + 29.53)` and `n2` that of the new moon found from
`n` plus 29.53 days. `new_moons[0]` stays zero when it is not set. -/
def anchor_step (st c p n n2 : Int) : anchor_state :=
  if c > st then
    { nm_idx := if p < st then 0 else 1, nm0 := p, nm1 := c, nm2 := n }
  else if n = st then
    { nm_idx := 1, nm0 := 0, nm1 := n, nm2 := n2 }
  else
    { nm_idx := 1, nm0 := 0, nm1 := c, nm2 := n }

/-- The entry `new_moons[i].ofst`, `i ≤ 2`, of an `anchor_state`. -/
def anchor_state.ofst (a : anchor_state) (i : Nat) : Int :=
  if i = 0 then a.nm0 else if i = 1 then a.nm1 else a.nm2

end calendar

namespace calendar

/-- The integer `make_julian_day(y, m, d, 0, 0, 0) + 0.5` for any year, with
the C division of `B = year / 400 - year / 100`. -/
def midnight_number (y m d : Int) : Int :=
  (1461 * astronomy.march_year y m) / 4 + (306001 * (astronomy.march_month m + 1)) / 10000
    + (Int.tdiv (astronomy.march_year y m) 400 - Int.tdiv (astronomy.march_year y m) 100)
    + 1720997 + d

/-- The month of the estimate of the term of longitude `angle`, in the words
of the specification: `(angle + 105) / 30`, reduced by 12 when above 12. -/
def estimate_month (angle : Int) : Int :=
  if (angle + 105) / 30 > 12 then (angle + 105) / 30 - 12 else (angle + 105) / 30

/-- The day of the estimate, in the words of the specification: 20 (22 when
the month is 8 or later) for a multiple of 30, else 4 (7 when the month is 8
or later). -/
def estimate_day (angle : Int) : Int :=
  if angle % 30 = 0 then (if estimate_month angle ≥ 8 then 22 else 20)
  else (if estimate_month angle ≥ 8 then 7 else 4)

end calendar

namespace Gregorian

/-- The civil day that follows a date given as a triple. -/
def next_date (t : Int × Int × Int) : Int × Int × Int := next_day t.1 t.2.1 t.2.2

/-- The place `k` of a term in the order minor cold, ..., winter solstice of
one civil year: the term index `(19 + k) mod 24`. -/
def term_in_year_order (k : Nat) : Nat := (19 + k) % 24

end Gregorian

/-! ### Angle wrapping, the latitude series and the nutation of the Sun -/

namespace astronomy

/-- The functions `std::cos`, `std::sin` and the constant `M_PI` of `<cmath>`.
They are not part of the repository and are parameters of the embedding. -/
structure cmath where
  cos : REAL → REAL
  sin : REAL → REAL
  M_PI : REAL

/-- `struct ecliptic_position_t`. -/
structure ecliptic_position_t where
  longitude : REAL
  latitude : REAL
deriving DecidableEq

/-- `struct vsop87_coefficient_t`. -/
structure vsop87_coefficient_t where
  a : REAL
  b : REAL
  c : REAL
deriving DecidableEq

/-- `struct nutation_coefficient_t`. -/
structure nutation_coefficient_t where
  a0 : REAL
  a1 : REAL
  a2 : REAL
  a3 : REAL
  a4 : REAL
  sin1 : REAL
  sin2 : REAL
  cos1 : REAL
  cos2 : REAL
deriving DecidableEq

namespace detail

/-- `RADIAN_PER_DEGREE = M_PI / 180.0`. -/
def RADIAN_PER_DEGREE (m : cmath) : REAL := m.M_PI / 180.0

/-- `DEGREE_PER_RADIAN = 180.0 / M_PI`. -/
def DEGREE_PER_RADIAN (m : cmath) : REAL := 180.0 / m.M_PI

/-- `PI_2 = M_PI * 2`. -/
def PI_2 (m : cmath) : REAL := m.M_PI * 2

/-- The loop `while (a < 0) a += P;`, looked at for `n` tests of its condition
(`none`: still looping). -/
def add_while_negative (P : REAL) : Nat → REAL → Option REAL
  | 0, _ => none
  | n + 1, a => if a < 0 then add_while_negative P n (a + P) else some a

/-- The loop `while (a > P) a -= P;`, looked at for `n` tests of its condition. -/
def sub_while_above (P : REAL) : Nat → REAL → Option REAL
  | 0, _ => none
  | n + 1, a => if a > P then sub_while_above P n (a - P) else some a

/-- `detail::clamp_randians`, each of its two loops looked at for `n` tests. -/
def clamp_randians (m : cmath) (n : Nat) (a : REAL) : Option REAL :=
  (add_while_negative (PI_2 m) n a).bind (sub_while_above (PI_2 m) n)

/-- `detail::vsop87_periodic_terms`, the array given as a list. -/
def vsop87_periodic_terms (m : cmath) (c : List vsop87_coefficient_t) (t : REAL) : REAL :=
  c.foldl (fun v e => v + e.a * m.cos (e.b + e.c * t)) 0

end detail

namespace impl

/-- `impl::E20`, the periodic terms of the latitude. -/
def E20 : List vsop87_coefficient_t :=
  [ ⟨279620, 3.19870156017, 84334.6615813083⟩,
    ⟨101643, 5.42248619256, 5507.5532386674⟩,
    ⟨80445, 3.88013204458, 5223.6939198022⟩,
    ⟨43806, 3.70444689758, 2352.8661537718⟩,
    ⟨31933, 4.00026369781, 1577.3435424478⟩,
    ⟨22724, 3.98473831560, 1047.7473117547⟩,
    ⟨16392, 3.56456119782, 5856.4776591154⟩,
    ⟨18141, 4.98367470263, 6283.0758499914⟩,
    ⟨14443, 3.70275614914, 9437.7629348870⟩,
    ⟨14304, 3.41117857525, 10213.2855462110⟩ ]

/-- `impl::E21`. -/
def E21 : List vsop87_coefficient_t :=
  [ ⟨9030, 3.89729061890, 5507.5532386674⟩,
    ⟨6177, 1.73038850355, 5223.6939198022⟩ ]

/-- `impl::NT`, the nutation terms. -/
def NT : List nutation_coefficient_t :=
  [ ⟨2.1824391966, -33.757045954, 0.0000362262, 3.7340e-08, -2.8793e-10, -171996, -1742, 92025, 89⟩,
    ⟨3.5069406862, 1256.663930738, 0.0000105845, 6.9813e-10, -2.2815e-10, -13187, -16, 5736, -31⟩,
    ⟨1.3375032491, 16799.418221925, -0.0000511866, 6.4626e-08, -5.3543e-10, -2274, -2, 977, -5⟩,
    ⟨4.3648783932, -67.514091907, 0.0000724525, 7.4681e-08, -5.7586e-10, 2062, 2, -895, 5⟩,
    ⟨0.0431251803, -628.301955171, 0.0000026820, 6.5935e-10, 5.5705e-11, -1426, 34, 54, -1⟩,
    ⟨2.3555557435, 8328.691425719, 0.0001545547, 2.5033e-07, -1.1863e-09, 712, 1, -7, 0⟩,
    ⟨3.4638155059, 1884.965885909, 0.0000079025, 3.8785e-11, -2.8386e-10, -517, 12, 224, -6⟩,
    ⟨5.4382493597, 16833.175267879, -0.0000874129, 2.7285e-08, -2.4750e-10, -386, -4, 200, 0⟩,
    ⟨3.6930589926, 25128.109647645, 0.0001033681, 3.1496e-07, -1.7218e-09, -301, 0, 129, -1⟩,
    ⟨3.5500658664, 628.361975567, 0.0000132664, 1.3575e-09, -1.7245e-10, 217, -5, -95, 3⟩ ]

/-- `impl::calc_earth_latitude`. -/
def calc_earth_latitude (m : cmath) (t : REAL) : REAL :=
  let L0 : REAL := detail.vsop87_periodic_terms m E20 t
  let L1 : REAL := detail.vsop87_periodic_terms m E21 t
  (L0 + L1 * t) / 1e11

/-- The value `pos.latitude = -calc_earth_latitude(t)`, `t = jd / 365250.0`, that
`impl::calc_sun_position(jd)` passes to `adjust_sun_aberration_and_nutation`. -/
def sun_position_latitude (m : cmath) (jd : REAL) : REAL :=
  -calc_earth_latitude m (jd / 365250.0)

/-- The value of `pos.longitude` after the aberration statement of
`impl::adjust_sun_aberration_and_nutation(t, pos)`, before it is wrapped. -/
def aberration_longitude (m : cmath) (t : REAL) (pos : ecliptic_position_t) : REAL :=
  let E0 : REAL := 0.016708634
  let E1 : REAL := -0.000042037
  let E2 : REAL := -0.0000001267
  let P0 : REAL := 102.93735 * detail.RADIAN_PER_DEGREE m
  let P1 : REAL := 1.71946 * detail.RADIAN_PER_DEGREE m
  let P2 : REAL := 0.00046 * detail.RADIAN_PER_DEGREE m
  let L0 : REAL := 280.4664567 * detail.RADIAN_PER_DEGREE m
  let L1 : REAL := 36000.76982779 * detail.RADIAN_PER_DEGREE m
  let L2 : REAL := 0.0003032028 * detail.RADIAN_PER_DEGREE m
  let L3 : REAL := detail.RADIAN_PER_DEGREE m / 49931000.0
  let L4 : REAL := detail.RADIAN_PER_DEGREE m / -153000000.0
  let K : REAL := 20.49552 * detail.RADIAN_PER_DEGREE m / 3600.0
  let t1 : REAL := t / 36525.0
  let l : REAL := L0 + (L1 + (L2 + (L3 + L4 * t1) * t1) * t1) * t1
  let p : REAL := P0 + (P1 + P2 * t1) * t1
  let e : REAL := E0 + (E1 + E2 * t1) * t1
  let dL : REAL := l - pos.longitude
  let dP : REAL := p - pos.longitude
  pos.longitude - K * (m.cos dL - e * m.cos dP) / m.cos pos.latitude

/-- The value of the local variable `longitude` of
`impl::adjust_sun_aberration_and_nutation(t, pos)` after the nutation loop and
the division by `36000000.0 * DEGREE_PER_RADIAN`; `pos` is the position the
function holds at that point. -/
def nutation_longitude (m : cmath) (t : REAL) (_pos : ecliptic_position_t) : REAL :=
  let t1 : REAL := t / 36525.0
  let longitude : REAL := NT.foldl (fun longitude n =>
    let v : REAL := n.a0 + (n.a1 + (n.a2 + (n.a3 + n.a4 * t1) * t1) * t1) * t1
    longitude + (n.sin1 + n.sin2 * t1 / 10) * m.sin v) 0
  longitude / (36000000.0 * detail.DEGREE_PER_RADIAN m)

/-- `impl::adjust_sun_aberration_and_nutation(t, pos)`, returning the position it
leaves in `pos`; the loops of `clamp_randians` are looked at for `n` tests. -/
def adjust_sun_aberration_and_nutation (m : cmath) (n : Nat) (t : REAL)
    (pos : ecliptic_position_t) : Option ecliptic_position_t :=
  (detail.clamp_randians m n (aberration_longitude m t pos)).bind fun lon1 =>
    (detail.clamp_randians m n
        (lon1 + nutation_longitude m t { longitude := lon1, latitude := pos.latitude })).map
      fun lon2 => { longitude := lon2, latitude := pos.latitude }

/-- The sum of the absolute values of the amplitudes `a` of a series. -/
def amplitude_sum (c : List vsop87_coefficient_t) : REAL :=
  (c.map fun e => |e.a|).sum

end impl

end astronomy

namespace calendar
open astronomy

/-- `clamp_degrees`, each of its two loops looked at for `n` tests. -/
def clamp_degrees (n : Nat) (d : REAL) : Option REAL :=
  (detail.add_while_negative 360 n d).bind (detail.sub_while_above 360 n)

/-- The index `n` of `print_daytime_cstb` into the cycle of sixty. -/
def cstb_index (dt : daytime_t) : Int :=
  let m : Int := if dt.month = 1 ∨ dt.month = 2 then dt.month + 12 else dt.month
  let y : Int := if dt.month = 1 ∨ dt.month = 2 then dt.year - 1 else dt.year
  Int.tmod (y * 5 + (y >>> (2 : Nat)) - Int.tdiv y 100 + Int.tdiv y 400 + Int.land (m - 1) 1 * 30
    + (((m - 2) * 19) >>> (5 : Nat)) + dt.day + 8) 60

/-- The test of the month loop of `calc_chn_cal` ("by year" display) under
which the month at index `nm_idx` is skipped. -/
def display_skips (leap nm_idx : Nat) : Prop :=
  if leap = 0 then (nm_idx < 3 ∨ nm_idx > 14)
  else (nm_idx < (if leap ≥ 4 then 3 else 4) ∨ nm_idx > (if leap ≤ 15 then 15 else 14))

instance (leap nm_idx : Nat) : Decidable (display_skips leap nm_idx) := by
  unfold display_skips; infer_instance

/-- The month loop `while (nm_idx < 16)` of `calc_chn_cal`, reduced to the
indices of the months it prints: `n` rounds are left, `nm_idx` is the current
index. -/
def printed_loop (leap : Nat) : Nat → Nat → List Nat
  | 0, _ => []
  | n + 1, nm_idx =>
    if nm_idx < 16 then
      if display_skips leap nm_idx then printed_loop leap n (nm_idx + 1)
      else nm_idx :: printed_loop leap n (nm_idx + 1)
    else []

/-- The indices of the months printed by `calc_chn_cal`, for the value of
`leap` and the `nm_idx` the loop starts from. -/
def printed_months (leap nm_idx : Nat) : List Nat := printed_loop leap 16 nm_idx

end calendar

/-! ## Part 2: theorems -/

/-! ### Floors of the rational constants as integer divisions -/

namespace astronomy

theorem to_int_of_nonneg {x : REAL} (h : 0 ≤ x) : to_int x = ⌊x⌋ := by
  simp [to_int, h]

theorem floor_int_div (n : ℤ) (d : ℕ) (x : ℚ) (h : x = (n : ℚ) / (d : ℚ)) : ⌊x⌋ = n / (d : ℤ) := by
  rw [h]; exact Rat.floor_intCast_div_natCast n d

theorem floor_days_of_years (n : ℤ) : ⌊(365.25 : ℚ) * (n : ℚ)⌋ = (1461 * n) / 4 := by
  have := floor_int_div (1461 * n) 4 ((365.25 : ℚ) * (n : ℚ)) (by push_cast; ring)
  simpa using this

theorem floor_days_of_months (n : ℤ) : ⌊(30.6001 : ℚ) * (n : ℚ)⌋ = (306001 * n) / 10000 := by
  have := floor_int_div (306001 * n) 10000 ((30.6001 : ℚ) * (n : ℚ)) (by push_cast; ring)
  simpa using this

theorem floor_days_of_months_right (n : ℤ) : ⌊(n : ℚ) * (30.6001 : ℚ)⌋ = (306001 * n) / 10000 := by
  rw [mul_comm]; exact floor_days_of_months n

theorem floor_year_of_days (a : ℤ) : ⌊((a : ℚ) - 122.1) / 365.25⌋ = (20 * a - 2442) / 7305 := by
  have := floor_int_div (20 * a - 2442) 7305 (((a : ℚ) - 122.1) / 365.25) (by push_cast; ring)
  simpa using this

theorem floor_month_of_days (c : ℤ) : ⌊(c : ℚ) / 30.6001⌋ = (10000 * c) / 306001 := by
  have := floor_int_div (10000 * c) 306001 ((c : ℚ) / 30.6001) (by push_cast; ring)
  simpa using this

theorem floor_century_of_days (a : ℤ) :
    ⌊((a : ℚ) - 1867216.25) / 36524.25⌋ = (4 * a - 7468865) / 146097 := by
  have := floor_int_div (4 * a - 7468865) 146097 (((a : ℚ) - 1867216.25) / 36524.25)
    (by push_cast; ring)
  simpa using this

end astronomy

namespace astronomy

theorem to_int_century (a0 : ℤ) (h : 2299161 < a0) :
    to_int (((a0 : ℚ) - 1867216.25) / 36524.25) = (4 * a0 - 7468865) / 146097 := by
  rw [to_int_of_nonneg, floor_century_of_days]
  have : (1867216.25 : ℚ) ≤ (a0 : ℚ) := by
    have : ((2299161 : ℤ) : ℚ) < (a0 : ℚ) := by exact_mod_cast h
    norm_num at this ⊢; linarith
  apply div_nonneg <;> norm_num; linarith

theorem to_int_year (a : ℤ) (h : 123 ≤ a) :
    to_int (((a : ℚ) - 122.1) / 365.25) = (20 * a - 2442) / 7305 := by
  rw [to_int_of_nonneg, floor_year_of_days]
  have : ((123 : ℤ) : ℚ) ≤ (a : ℚ) := by exact_mod_cast h
  apply div_nonneg <;> norm_num at this ⊢; linarith

theorem to_int_days_of_years (n : ℤ) (h : 0 ≤ n) :
    to_int ((365.25 : ℚ) * (n : ℚ)) = (1461 * n) / 4 := by
  rw [to_int_of_nonneg, floor_days_of_years]
  have : (0 : ℚ) ≤ (n : ℚ) := by exact_mod_cast h
  positivity

theorem to_int_month (c : ℤ) (h : 0 ≤ c) :
    to_int ((c : ℚ) / 30.6001) = (10000 * c) / 306001 := by
  rw [to_int_of_nonneg, floor_month_of_days]
  have : (0 : ℚ) ≤ (c : ℚ) := by exact_mod_cast h
  positivity

theorem to_int_days_of_months (n : ℤ) (h : 0 ≤ n) :
    to_int ((n : ℚ) * (30.6001 : ℚ)) = (306001 * n) / 10000 := by
  rw [to_int_of_nonneg, floor_days_of_months_right]
  have : (0 : ℚ) ≤ (n : ℚ) := by exact_mod_cast h
  positivity

theorem tail_bounds (a : ℤ) (h : 123 ≤ a) :
    0 ≤ tail_year a ∧ 123 ≤ tail_rest a ∧ tail_rest a ≤ 488 := by
  unfold tail_rest tail_year
  omega

theorem tail_month_bounds (a : ℤ) (h : 123 ≤ a) :
    4 ≤ tail_month a ∧ tail_month a ≤ 15 ∧ 1 ≤ tail_day a ∧ tail_day a ≤ 31 := by
  have hb := tail_bounds a h
  unfold tail_day tail_month
  generalize tail_rest a = r at hb ⊢
  omega

end astronomy

namespace astronomy

theorem julian_shift_ge (a0 : ℤ) : a0 ≤ julian_shift a0 := by
  unfold julian_shift
  split <;> omega

theorem daytime_from_julian_day_eq (jd : ℚ) (h : 0 ≤ jd + 1 / 2) :
    daytime_from_julian_day jd =
      { year := civil_year (julian_shift ⌊jd + 1 / 2⌋ + 1524),
        month := civil_month (julian_shift ⌊jd + 1 / 2⌋ + 1524),
        day := tail_day (julian_shift ⌊jd + 1 / 2⌋ + 1524),
        hour := ⌊Int.fract (jd + 1 / 2) * 24⌋,
        minute := ⌊Int.fract (Int.fract (jd + 1 / 2) * 24) * 60⌋,
        second := Int.fract (Int.fract (Int.fract (jd + 1 / 2) * 24) * 60) * 60 } := by
  have e05 : jd + 0.5 = jd + 1 / 2 := by norm_num
  have ha0 : to_int (jd + 1 / 2) = ⌊jd + 1 / 2⌋ := to_int_of_nonneg h
  have hfl : 0 ≤ ⌊jd + 1 / 2⌋ := Int.floor_nonneg.mpr h
  have hsh : julian_shift ⌊jd + 1 / 2⌋ =
      (if ⌊jd + 1 / 2⌋ > 2299161 then
        ⌊jd + 1 / 2⌋ + 1 + to_int (((⌊jd + 1 / 2⌋ : ℚ) - 1867216.25) / 36524.25)
          - Int.tdiv (to_int (((⌊jd + 1 / 2⌋ : ℚ) - 1867216.25) / 36524.25)) 4
       else ⌊jd + 1 / 2⌋) := by
    unfold julian_shift
    split
    · rename_i hc
      rw [to_int_century _ hc, Int.tdiv_eq_ediv (by omega) (by omega)]
    · rfl
  have hA := julian_shift_ge ⌊jd + 1 / 2⌋
  have h123 : 123 ≤ julian_shift ⌊jd + 1 / 2⌋ + 1524 := by omega
  have hb := tail_bounds _ h123
  have hm := tail_month_bounds _ h123
  have hf0 : 0 ≤ Int.fract (jd + 1 / 2) * 24 := by
    have := Int.fract_nonneg (jd + 1 / 2); positivity
  have hf1 : 0 ≤ Int.fract (Int.fract (jd + 1 / 2) * 24) * 60 := by
    have := Int.fract_nonneg (Int.fract (jd + 1 / 2) * 24); positivity
  unfold daytime_from_julian_day
  simp only [e05, ha0]
  rw [← hsh]
  rw [to_int_year _ h123]
  have e1 : (20 * (julian_shift ⌊jd + 1 / 2⌋ + 1524) - 2442) / 7305
      = tail_year (julian_shift ⌊jd + 1 / 2⌋ + 1524) := rfl
  rw [e1, to_int_days_of_years _ hb.1]
  have e2 : julian_shift ⌊jd + 1 / 2⌋ + 1524
      - 1461 * tail_year (julian_shift ⌊jd + 1 / 2⌋ + 1524) / 4
      = tail_rest (julian_shift ⌊jd + 1 / 2⌋ + 1524) := rfl
  rw [e2, to_int_month _ (by omega)]
  have e3 : 10000 * tail_rest (julian_shift ⌊jd + 1 / 2⌋ + 1524) / 306001
      = tail_month (julian_shift ⌊jd + 1 / 2⌋ + 1524) := rfl
  rw [e3, to_int_days_of_months _ (by omega)]
  have e24 : (24.0 : ℚ) = 24 := by norm_num
  have e60 : (60.0 : ℚ) = 60 := by norm_num
  have e4 : (jd + 1 / 2 - (⌊jd + 1 / 2⌋ : ℚ)) = Int.fract (jd + 1 / 2) := rfl
  rw [e24, e60, e4, to_int_of_nonneg hf0]
  have e5 : Int.fract (jd + 1 / 2) * 24 - (⌊Int.fract (jd + 1 / 2) * 24⌋ : ℚ)
      = Int.fract (Int.fract (jd + 1 / 2) * 24) := rfl
  rw [e5, to_int_of_nonneg hf1]
  rfl

end astronomy

namespace astronomy
open Gregorian

theorem century_core (q s r k Z L : ℤ) (hs0 : 0 ≤ s) (hs1 : s < 4) (hr0 : 0 ≤ r) (hr1 : r < 100)
    (hk1 : 123 ≤ k) (hk2 : k ≤ 487 + L) (hL0 : L ≤ 1)
    (hL : L = 1 → r % 4 = 3 ∧ (r ≠ 99 ∨ s = 3))
    (hZ : Z = 36525 * (4 * q + s) + 365 * r + r / 4 + (q - (4 * q + s)) + 1720997 + k) :
    (4 * Z - 7468865) / 146097 = 4 * q + s - 4 := by
  have lo : 146097 * (4 * q + s - 4) ≤ 4 * Z - 7468865 := by omega
  have hi : 4 * Z - 7468865 < 146097 * (4 * q + s - 3) := by
    by_cases h99 : r = 99
    · subst h99
      by_cases hL1 : L = 1
      · have := hL hL1; omega
      · omega
    · omega
  omega

theorem century_of_day_number (Y k Z : ℤ) (hk1 : 123 ≤ k)
    (hk2 : k ≤ 487 + (if (Y + 1) % 4 = 0 ∧ ((Y + 1) % 100 ≠ 0 ∨ (Y + 1) % 400 = 0) then 1 else 0))
    (hZ : Z = 1461 * Y / 4 + (Y / 400 - Y / 100) + 1720997 + k) :
    (4 * Z - 7468865) / 146097 = Y / 100 - 4 := by
  have h100 : Y / 100 = 4 * (Y / 400) + (Y / 100) % 4 := by omega
  have h4 : 1461 * Y / 4 = 36525 * (Y / 100) + 365 * (Y % 100) + (Y % 100) / 4 := by omega
  rw [h4] at hZ
  have := century_core (Y / 400) ((Y / 100) % 4) (Y % 100) k Z
    (if (Y + 1) % 4 = 0 ∧ ((Y + 1) % 100 ≠ 0 ∨ (Y + 1) % 400 = 0) then 1 else 0)
    (by omega) (by omega) (by omega) (by omega) hk1 hk2 (by split <;> omega)
    (by split <;> omega) (by omega)
  omega

theorem tail_core (Y k : ℤ) (hk1 : 123 ≤ k) (hk2 : k ≤ 487 + (if Y % 4 = 3 then 1 else 0)) :
    tail_year (1461 * Y / 4 + 1722519 + k) = Y + 4716
      ∧ tail_rest (1461 * Y / 4 + 1722519 + k) = k := by
  have hy : tail_year (1461 * Y / 4 + 1722519 + k) = Y + 4716 := by
    unfold tail_year
    split at hk2 <;> omega
  refine ⟨hy, ?_⟩
  unfold tail_rest
  rw [hy]
  omega

theorem month_core (M d : ℤ) (hM1 : 3 ≤ M) (hM2 : M ≤ 14) (hd1 : 1 ≤ d) (hd2 : d ≤ 31)
    (h30 : (M = 4 ∨ M = 6 ∨ M = 9 ∨ M = 11) → d ≤ 30) (h29 : M = 14 → d ≤ 29) :
    10000 * (306001 * (M + 1) / 10000 + d) / 306001 = M + 1 := by
  have hM : M = 3 ∨ M = 4 ∨ M = 5 ∨ M = 6 ∨ M = 7 ∨ M = 8 ∨ M = 9 ∨ M = 10 ∨ M = 11 ∨ M = 12
      ∨ M = 13 ∨ M = 14 := by omega
  rcases hM with h | h | h | h | h | h | h | h | h | h | h | h <;> subst h <;> omega

end astronomy

namespace astronomy
open Gregorian

theorem day_number_gt_switch (y m d : ℤ) (hv : valid_date y m d) (h16 : from_1582_10_16 y m d) :
    2299161 < day_number y m d := by
  unfold valid_date days_in_month at hv
  unfold from_1582_10_16 at h16
  unfold day_number march_year march_month
  have hm : m = 1 ∨ m = 2 ∨ m = 3 ∨ m = 4 ∨ m = 5 ∨ m = 6 ∨ m = 7 ∨ m = 8 ∨ m = 9 ∨ m = 10
      ∨ m = 11 ∨ m = 12 := by omega
  rcases hm with h | h | h | h | h | h | h | h | h | h | h | h <;> subst h <;>
    norm_num at hv h16 ⊢ <;> omega

end astronomy

namespace astronomy
open Gregorian

theorem march_facts (y m d : ℤ) (hv : valid_date y m d) :
    3 ≤ march_month m ∧ march_month m ≤ 14 ∧ 1 ≤ d ∧ d ≤ 31
    ∧ ((march_month m = 4 ∨ march_month m = 6 ∨ march_month m = 9 ∨ march_month m = 11) → d ≤ 30)
    ∧ (march_month m = 14 → d ≤ 29)
    ∧ 123 ≤ 306001 * (march_month m + 1) / 10000 + d
    ∧ 306001 * (march_month m + 1) / 10000 + d ≤ 487 +
        (if (march_year y m + 1) % 4 = 0 ∧
          ((march_year y m + 1) % 100 ≠ 0 ∨ (march_year y m + 1) % 400 = 0) then 1 else 0)
    ∧ (if march_month m - 12 > 0 then march_month m - 12 else march_month m) = m
    ∧ (if m ≤ 2 then march_year y m + 1 else march_year y m) = y := by
  unfold valid_date days_in_month is_leap_year at hv
  unfold march_year march_month
  have hm : m = 1 ∨ m = 2 ∨ m = 3 ∨ m = 4 ∨ m = 5 ∨ m = 6 ∨ m = 7 ∨ m = 8 ∨ m = 9 ∨ m = 10
      ∨ m = 11 ∨ m = 12 := by omega
  rcases hm with h | h | h | h | h | h | h | h | h | h | h | h <;> subst h <;>
    norm_num at hv ⊢ <;> (try split) <;> (try split at hv) <;> omega

theorem civil_of_day_number (y m d : ℤ) (hv : valid_date y m d) (h16 : from_1582_10_16 y m d) :
    civil_year (julian_shift (day_number y m d) + 1524) = y
      ∧ civil_month (julian_shift (day_number y m d) + 1524) = m
      ∧ tail_day (julian_shift (day_number y m d) + 1524) = d := by
  have hgt := day_number_gt_switch y m d hv h16
  obtain ⟨hM1, hM2, hd1, hd2, h30, h29, hk1, hk2, hmm, hyy⟩ := march_facts y m d hv
  have hy1 : 1582 ≤ y := by unfold from_1582_10_16 at h16; omega
  have hZ : day_number y m d = 1461 * march_year y m / 4
      + (march_year y m / 400 - march_year y m / 100) + 1720997
      + (306001 * (march_month m + 1) / 10000 + d) := by
    unfold day_number; omega
  have hα := century_of_day_number (march_year y m) _ _ hk1 hk2 hZ
  have hsh : julian_shift (day_number y m d) + 1524
      = 1461 * march_year y m / 4 + 1722519 + (306001 * (march_month m + 1) / 10000 + d) := by
    unfold julian_shift
    rw [if_pos hgt, hα]
    omega
  have hk3 : 306001 * (march_month m + 1) / 10000 + d
      ≤ 487 + (if march_year y m % 4 = 3 then 1 else 0) := by
    split at hk2 <;> split <;> omega
  obtain ⟨hty, htr⟩ := tail_core (march_year y m) _ hk1 hk3
  have htm : tail_month (julian_shift (day_number y m d) + 1524) = march_month m + 1 := by
    unfold tail_month
    rw [hsh, htr]
    exact month_core _ _ hM1 hM2 hd1 hd2 h30 h29
  have htd : tail_day (julian_shift (day_number y m d) + 1524) = d := by
    unfold tail_day
    rw [htm]
    rw [hsh, htr]
    omega
  have hcm : civil_month (julian_shift (day_number y m d) + 1524) = m := by
    unfold civil_month
    rw [htm]
    split at hmm <;> split <;> omega
  refine ⟨?_, hcm, htd⟩
  unfold civil_year
  rw [hcm, hsh, hty]
  simp only []
  split at hyy <;> split <;> omega

end astronomy

namespace astronomy
open Gregorian

theorem make_julian_day_eq (y m d h mi : ℤ) (s : ℚ) (hy : 0 ≤ march_year y m) :
    make_julian_day y m d h mi s
      = (day_number y m d : ℚ) - 1 / 2 + ((h : ℚ) / 24 + (mi : ℚ) / 1440 + s / 86400) := by
  unfold make_julian_day day_number
  simp only []
  have e1 : (if m ≤ 2 then y - 1 else y) = march_year y m := rfl
  have e2 : (if m ≤ 2 then m + 12 else m) = march_month m := rfl
  rw [e1, e2, floor_days_of_years, floor_days_of_months,
    Int.tdiv_eq_ediv hy (by norm_num), Int.tdiv_eq_ediv hy (by norm_num)]
  push_cast
  norm_num
  ring

theorem time_of_day_lt_one (h mi s : ℤ) (ht : valid_time h mi s) :
    0 ≤ (h : ℚ) / 24 + (mi : ℚ) / 1440 + (s : ℚ) / 86400
      ∧ (h : ℚ) / 24 + (mi : ℚ) / 1440 + (s : ℚ) / 86400 < 1 := by
  obtain ⟨h0, h1, m0, m1, s0, s1⟩ := ht
  have h0' : (0 : ℚ) ≤ h := by exact_mod_cast h0
  have h1' : (h : ℚ) ≤ 23 := by exact_mod_cast h1
  have m0' : (0 : ℚ) ≤ mi := by exact_mod_cast m0
  have m1' : (mi : ℚ) ≤ 59 := by exact_mod_cast m1
  have s0' : (0 : ℚ) ≤ s := by exact_mod_cast s0
  have s1' : (s : ℚ) ≤ 59 := by exact_mod_cast s1
  constructor
  · positivity
  · have e : (h : ℚ) / 24 + (mi : ℚ) / 1440 + (s : ℚ) / 86400
        = (3600 * h + 60 * mi + s) / 86400 := by ring
    rw [e, div_lt_one (by norm_num)]
    linarith

theorem floor_add_fraction (n : ℤ) (x t : ℚ) (h0 : 0 ≤ x) (h1 : x < 1)
    (e : t = (n : ℚ) + x) : ⌊t⌋ = n ∧ Int.fract t = x := by
  have hf : ⌊t⌋ = n := by
    rw [Int.floor_eq_iff]; constructor <;> linarith
  refine ⟨hf, ?_⟩
  unfold Int.fract
  rw [hf, e]; ring

theorem time_of_day_fields (h mi s : ℤ) (ht : valid_time h mi s) (t : ℚ)
    (e : t = (h : ℚ) / 24 + (mi : ℚ) / 1440 + (s : ℚ) / 86400) :
    ⌊t * 24⌋ = h ∧ ⌊Int.fract (t * 24) * 60⌋ = mi
      ∧ Int.fract (Int.fract (t * 24) * 60) * 60 = (s : ℚ) := by
  obtain ⟨h0, h1, m0, m1, s0, s1⟩ := ht
  have m0' : (0 : ℚ) ≤ mi := by exact_mod_cast m0
  have m1' : (mi : ℚ) ≤ 59 := by exact_mod_cast m1
  have s0' : (0 : ℚ) ≤ s := by exact_mod_cast s0
  have s1' : (s : ℚ) ≤ 59 := by exact_mod_cast s1
  obtain ⟨a1, a2⟩ := floor_add_fraction h ((mi : ℚ) / 60 + (s : ℚ) / 3600) (t * 24)
    (by positivity) (by linarith) (by rw [e]; ring)
  obtain ⟨b1, b2⟩ := floor_add_fraction mi ((s : ℚ) / 60) (Int.fract (t * 24) * 60)
    (by positivity) (by linarith) (by rw [a2]; ring)
  refine ⟨a1, b1, ?_⟩
  rw [b2]; ring

/-- Round trip civil date-time to Julian Day and back, from 1582-10-16 on. -/
theorem roundtrip_from_civil (y m d h mi s : ℤ) (hv : valid_date y m d)
    (ht : valid_time h mi s) (h16 : from_1582_10_16 y m d) :
    daytime_from_julian_day (make_julian_day y m d h mi (s : ℚ))
      = { year := y, month := m, day := d, hour := h, minute := mi, second := (s : ℚ) } := by
  have hy : 0 ≤ march_year y m := by
    unfold from_1582_10_16 at h16; unfold march_year; split <;> omega
  obtain ⟨t0, t1⟩ := time_of_day_lt_one h mi s ht
  have hjd : make_julian_day y m d h mi (s : ℚ) + 1 / 2
      = (day_number y m d : ℚ) + ((h : ℚ) / 24 + (mi : ℚ) / 1440 + (s : ℚ) / 86400) := by
    rw [make_julian_day_eq y m d h mi s hy]; ring
  obtain ⟨f1, f2⟩ := floor_add_fraction (day_number y m d) _ _ t0 t1 hjd
  have hgt := day_number_gt_switch y m d hv h16
  have hnn : 0 ≤ make_julian_day y m d h mi (s : ℚ) + 1 / 2 := by
    rw [hjd]
    have : (0 : ℚ) ≤ (day_number y m d : ℚ) := by exact_mod_cast (by omega : 0 ≤ day_number y m d)
    linarith
  obtain ⟨c1, c2, c3⟩ := civil_of_day_number y m d hv h16
  obtain ⟨g1, g2, g3⟩ := time_of_day_fields h mi s ht _ rfl
  rw [daytime_from_julian_day_eq _ hnn, f1, f2, c1, c2, c3, g1, g2, g3]

end astronomy

namespace astronomy
open Gregorian

theorem year_century_core (Z q r : ℤ) (hr0 : 0 ≤ r) (hr1 : r < 4)
    (lo : 146097 * (4 * q + r) ≤ 4 * Z - 7468865)
    (hi : 4 * Z - 7468865 < 146097 * (4 * q + r) + 146097) :
    (tail_year (Z + 1 + (4 * q + r) - q + 1524) - 4716) / 100 = 4 * q + r + 4 := by
  unfold tail_year
  have hr : r = 0 ∨ r = 1 ∨ r = 2 ∨ r = 3 := by omega
  rcases hr with h | h | h | h <;> subst h <;> omega

theorem year_century (Z : ℤ) :
    (tail_year (Z + 1 + (4 * Z - 7468865) / 146097 - (4 * Z - 7468865) / 146097 / 4 + 1524)
        - 4716) / 100 = (4 * Z - 7468865) / 146097 + 4 := by
  have h := year_century_core Z ((4 * Z - 7468865) / 146097 / 4) ((4 * Z - 7468865) / 146097 % 4)
    (by omega) (by omega) (by omega) (by omega)
  have e : 4 * ((4 * Z - 7468865) / 146097 / 4) + (4 * Z - 7468865) / 146097 % 4
      = (4 * Z - 7468865) / 146097 := by omega
  rw [e] at h
  exact h

theorem day_number_of_civil (Z : ℤ) (hZ : 2299161 < Z) :
    day_number (civil_year (julian_shift Z + 1524)) (civil_month (julian_shift Z + 1524))
      (tail_day (julian_shift Z + 1524)) = Z
    ∧ 0 ≤ march_year (civil_year (julian_shift Z + 1524)) (civil_month (julian_shift Z + 1524)) := by
  have hA := julian_shift_ge Z
  have h123 : 123 ≤ julian_shift Z + 1524 := by omega
  obtain ⟨hy0, hr1, hr2⟩ := tail_bounds _ h123
  obtain ⟨hm1, hm2, hd1, hd2⟩ := tail_month_bounds _ h123
  have hyc := year_century Z
  have hsh : julian_shift Z
      = Z + 1 + (4 * Z - 7468865) / 146097 - (4 * Z - 7468865) / 146097 / 4 := by
    unfold julian_shift; rw [if_pos hZ]
  rw [← hsh] at hyc
  have hylo : 1582 ≤ tail_year (julian_shift Z + 1524) - 4716 := by
    unfold tail_year; omega
  have hmy : march_year (civil_year (julian_shift Z + 1524)) (civil_month (julian_shift Z + 1524))
      = tail_year (julian_shift Z + 1524) - 4716 := by
    unfold march_year civil_year civil_month
    simp only []
    split <;> split <;> split <;> omega
  have hmm : march_month (civil_month (julian_shift Z + 1524))
      = tail_month (julian_shift Z + 1524) - 1 := by
    unfold march_month civil_month
    split <;> split <;> omega
  refine ⟨?_, by omega⟩
  unfold day_number
  rw [hmy, hmm]
  have hrest : tail_rest (julian_shift Z + 1524)
      = julian_shift Z + 1524 - 1461 * tail_year (julian_shift Z + 1524) / 4 := rfl
  have hday : tail_day (julian_shift Z + 1524)
      = tail_rest (julian_shift Z + 1524) - 306001 * tail_month (julian_shift Z + 1524) / 10000 :=
    rfl
  rw [hday, hrest]
  generalize tail_year (julian_shift Z + 1524) = C at *
  generalize tail_month (julian_shift Z + 1524) = E at *
  rw [hsh]
  generalize (4 * Z - 7468865) / 146097 = α at *
  have e400 : (C - 4716) / 400 = α / 4 + 1 := by omega
  have e4 : 1461 * (C - 4716) / 4 = 1461 * C / 4 - 1722519 := by omega
  have eE : 306001 * (E - 1 + 1) / 10000 = 306001 * E / 10000 := by
    rw [Int.sub_add_cancel]
  rw [e400, e4, eE, hyc]
  omega

end astronomy

namespace astronomy
open Gregorian

/-- Round trip Julian Day to civil date-time and back, from 1582-10-16 on. -/
theorem roundtrip_from_julian_day (jd : ℚ) (hlo : (2299161.5 : ℚ) ≤ jd) :
    make_julian_day (daytime_from_julian_day jd).year (daytime_from_julian_day jd).month
      (daytime_from_julian_day jd).day (daytime_from_julian_day jd).hour
      (daytime_from_julian_day jd).minute (daytime_from_julian_day jd).second = jd := by
  have hnn : 0 ≤ jd + 1 / 2 := by norm_num at hlo; linarith
  have hZ : 2299161 < ⌊jd + 1 / 2⌋ := by
    have : (2299162 : ℤ) ≤ ⌊jd + 1 / 2⌋ := by
      rw [Int.le_floor]; push_cast; norm_num at hlo ⊢; linarith
    omega
  obtain ⟨hd, hy⟩ := day_number_of_civil _ hZ
  rw [daytime_from_julian_day_eq jd hnn]
  simp only []
  rw [make_julian_day_eq _ _ _ _ _ _ hy, hd]
  have e1 := Int.floor_add_fract (jd + 1 / 2)
  have e2 := Int.floor_add_fract (Int.fract (jd + 1 / 2) * 24)
  have e3 := Int.floor_add_fract (Int.fract (Int.fract (jd + 1 / 2) * 24) * 60)
  linarith

end astronomy

/-! ### Claims on the civil date-time conversions -/

namespace astronomy
open Gregorian

theorem days_of_years_split (n : ℤ) : 1461 * n / 4 = 365 * n + n / 4 := by omega

theorem day_number_next_day (y m d : ℤ) (hv : valid_date y m d) :
    day_number (next_day y m d).1 (next_day y m d).2.1 (next_day y m d).2.2
      = day_number y m d + 1 := by
  obtain ⟨hm1, hm2, hd1, hd2⟩ := hv
  unfold next_day
  by_cases h1 : d < days_in_month y m
  · rw [if_pos h1]
    simp only []
    unfold day_number; omega
  · rw [if_neg h1]
    have hd : d = days_in_month y m := by omega
    by_cases h2 : m < 12
    · rw [if_pos h2]
      simp only []
      rw [hd]
      unfold days_in_month is_leap_year day_number march_year march_month
      simp only [days_of_years_split]
      have hm : m = 1 ∨ m = 2 ∨ m = 3 ∨ m = 4 ∨ m = 5 ∨ m = 6 ∨ m = 7 ∨ m = 8 ∨ m = 9
          ∨ m = 10 ∨ m = 11 := by omega
      rcases hm with h | h | h | h | h | h | h | h | h | h | h <;> subst h <;>
        norm_num <;> (try split) <;> omega
    · rw [if_neg h2]
      have hm : m = 12 := by omega
      subst hm
      simp only []
      rw [hd]
      unfold days_in_month day_number march_year march_month
      norm_num
      omega

theorem march_year_next_day_nonneg (y m d : ℤ) (hy : 1 ≤ y) :
    0 ≤ march_year y m ∧ 0 ≤ march_year (next_day y m d).1 (next_day y m d).2.1 := by
  unfold next_day march_year
  refine ⟨by split <;> omega, ?_⟩
  split
  · simp only []; split <;> omega
  · split
    · simp only []; split <;> omega
    · simp only []; split <;> omega

end astronomy

namespace astronomy
open Gregorian

theorem civil_fields_well_formed (a : ℤ) (h : 123 ≤ a) :
    civil_year a ≠ 0 ∧ 1 ≤ civil_month a ∧ civil_month a ≤ 12
      ∧ 1 ≤ tail_day a ∧ tail_day a ≤ 31 := by
  obtain ⟨hm1, hm2, hd1, hd2⟩ := tail_month_bounds a h
  refine ⟨?_, ?_, ?_, hd1, hd2⟩
  · unfold civil_year
    simp only []
    split <;> split <;> omega
  · unfold civil_month; split <;> omega
  · unfold civil_month; split <;> omega

theorem floor_fract_mul_bounds (x : ℚ) (n : ℤ) (hn : 0 < n) :
    0 ≤ ⌊Int.fract x * (n : ℚ)⌋ ∧ ⌊Int.fract x * (n : ℚ)⌋ ≤ n - 1 := by
  have h0 := Int.fract_nonneg x
  have h1 := Int.fract_lt_one x
  have hn' : (0 : ℚ) < (n : ℚ) := by exact_mod_cast hn
  constructor
  · exact Int.floor_nonneg.mpr (by positivity)
  · have : ⌊Int.fract x * (n : ℚ)⌋ < n := by
      rw [Int.floor_lt]
      nlinarith
    omega

/-- C1 (as stated, refuted): the valid civil date-time 1000-01-01 00:00:00 lies in
years 1..9999, yet `daytime_from_julian_day (make_julian_day ...)` returns
999-12-27 00:00:00, the date of the Julian calendar. -/
theorem roundtrip_civil_fails_at_1000_01_01 :
    ((1 : ℤ) ≤ 1000 ∧ (1000 : ℤ) ≤ 9999 ∧ valid_date 1000 1 1 ∧ valid_time 0 0 0)
      ∧ daytime_from_julian_day (make_julian_day 1000 1 1 0 0 ((0 : ℤ) : ℚ))
          = { year := 999, month := 12, day := 27, hour := 0, minute := 0, second := 0 }
      ∧ daytime_from_julian_day (make_julian_day 1000 1 1 0 0 ((0 : ℤ) : ℚ))
          ≠ { year := 1000, month := 1, day := 1, hour := 0, minute := 0,
              second := ((0 : ℤ) : ℚ) } := by
  decide!

/-- C1 (amended): for every valid Gregorian civil date-time from 1582-10-16
00:00:00 through year 9999 (valid month, day of month, hour, minute and integer
second), `daytime_from_julian_day (make_julian_day y m d h min s)` returns the
same year, month, day, hour, minute and second. -/
theorem roundtrip_civil_from_1582_10_16 (y m d h mi s : ℤ) (hv : valid_date y m d)
    (ht : valid_time h mi s) (h16 : from_1582_10_16 y m d) (_h9999 : y ≤ 9999) :
    daytime_from_julian_day (make_julian_day y m d h mi (s : ℚ))
      = { year := y, month := m, day := d, hour := h, minute := mi, second := (s : ℚ) } :=
  roundtrip_from_civil y m d h mi s hv ht h16

/-- Witness of C1 (amended) at 2023-03-20 17:24:12. -/
theorem roundtrip_civil_from_1582_10_16_witness :
    (valid_date 2023 3 20 ∧ valid_time 17 24 12 ∧ from_1582_10_16 2023 3 20
      ∧ (2023 : ℤ) ≤ 9999)
    ∧ daytime_from_julian_day (make_julian_day 2023 3 20 17 24 ((12 : ℤ) : ℚ))
      = { year := 2023, month := 3, day := 20, hour := 17, minute := 24,
          second := ((12 : ℤ) : ℚ) } :=
  ⟨by decide, roundtrip_civil_from_1582_10_16 2023 3 20 17 24 12 (by decide) (by decide)
    (by decide) (by decide)⟩

/-- C2 (as stated, refuted): `jd = 2299159.5` is not negative and falls in year
1582, it converts to 1582-10-04 00:00:00, and `make_julian_day` of that date is
`2299149.5`, ten days earlier. -/
theorem roundtrip_julian_day_fails_at_2299159_5 :
    (0 : ℚ) ≤ 2299159.5
      ∧ daytime_from_julian_day 2299159.5
          = { year := 1582, month := 10, day := 4, hour := 0, minute := 0, second := 0 }
      ∧ make_julian_day (daytime_from_julian_day 2299159.5).year
          (daytime_from_julian_day 2299159.5).month (daytime_from_julian_day 2299159.5).day
          (daytime_from_julian_day 2299159.5).hour (daytime_from_julian_day 2299159.5).minute
          (daytime_from_julian_day 2299159.5).second = 2299149.5
      ∧ make_julian_day (daytime_from_julian_day 2299159.5).year
          (daytime_from_julian_day 2299159.5).month (daytime_from_julian_day 2299159.5).day
          (daytime_from_julian_day 2299159.5).hour (daytime_from_julian_day 2299159.5).minute
          (daytime_from_julian_day 2299159.5).second ≠ 2299159.5 := by
  decide!

/-- C2 (amended): for every Julian Day `jd` with `2299161.5 ≤ jd < 5373484.5`
(1582-10-16 00:00:00 through the end of year 9999), `make_julian_day` applied to
the year, month, day, hour, minute and second returned by
`daytime_from_julian_day jd` gives back `jd`. -/
theorem roundtrip_julian_day_from_2299161_5 (jd : ℚ) (hlo : (2299161.5 : ℚ) ≤ jd)
    (_hhi : jd < 5373484.5) :
    make_julian_day (daytime_from_julian_day jd).year (daytime_from_julian_day jd).month
      (daytime_from_julian_day jd).day (daytime_from_julian_day jd).hour
      (daytime_from_julian_day jd).minute (daytime_from_julian_day jd).second = jd :=
  roundtrip_from_julian_day jd hlo

/-- Witness of C2 (amended) at `jd = 2460024.2251` (a time of day with a
fractional second). -/
theorem roundtrip_julian_day_from_2299161_5_witness :
    ((2299161.5 : ℚ) ≤ 2460024.2251 ∧ (2460024.2251 : ℚ) < 5373484.5)
    ∧ make_julian_day (daytime_from_julian_day 2460024.2251).year
        (daytime_from_julian_day 2460024.2251).month (daytime_from_julian_day 2460024.2251).day
        (daytime_from_julian_day 2460024.2251).hour
        (daytime_from_julian_day 2460024.2251).minute
        (daytime_from_julian_day 2460024.2251).second = 2460024.2251 :=
  ⟨by norm_num, roundtrip_julian_day_from_2299161_5 2460024.2251 (by norm_num) (by norm_num)⟩

/-- C3 (the code at the switch): `make_julian_day 1582 10 15 0 0 0` is
`2299160.5`, whose integer day number is `2299161`; the guard `a > 2299161`
leaves it without the Gregorian correction, so it converts to 1582-10-05
00:00:00 and not to 1582-10-15; `2299159.5` converts to 1582-10-04 and
`2299161.5` to 1582-10-16. -/
theorem switch_day_2299161_not_corrected :
    make_julian_day 1582 10 15 0 0 0 = 2299160.5
      ∧ to_int (2299160.5 + 0.5) = 2299161
      ∧ daytime_from_julian_day 2299160.5
          = { year := 1582, month := 10, day := 5, hour := 0, minute := 0, second := 0 }
      ∧ daytime_from_julian_day 2299159.5
          = { year := 1582, month := 10, day := 4, hour := 0, minute := 0, second := 0 }
      ∧ daytime_from_julian_day 2299161.5
          = { year := 1582, month := 10, day := 16, hour := 0, minute := 0, second := 0 } := by
  decide!

end astronomy

namespace astronomy
open Gregorian

/-- C4: for every valid Gregorian date with `1 ≤ year ≤ 9999` and every time of
day, `make_julian_day` of the next civil day (`next_day`, across month ends,
year ends and 29 February) at the same time of day is `make_julian_day` of
the day plus exactly 1; and `make_julian_day 2000 1 1 12 0 0 = 2451545 = JD2000`. -/
theorem make_julian_day_next_day (y m d h mi : ℤ) (s : ℚ) (hy1 : 1 ≤ y) (_hy2 : y ≤ 9999)
    (hv : valid_date y m d) :
    make_julian_day (next_day y m d).1 (next_day y m d).2.1 (next_day y m d).2.2 h mi s
        = make_julian_day y m d h mi s + 1
      ∧ make_julian_day 2000 1 1 12 0 0 = 2451545
      ∧ JD2000 = 2451545 := by
  obtain ⟨n1, n2⟩ := march_year_next_day_nonneg y m d hy1
  refine ⟨?_, by decide!, rfl⟩
  rw [make_julian_day_eq _ _ _ _ _ _ n2, make_julian_day_eq _ _ _ _ _ _ n1,
    day_number_next_day y m d hv]
  push_cast
  ring

/-- Witness of C4 at 2024-02-29 18:30:15, followed by 2024-03-01. -/
theorem make_julian_day_next_day_witness :
    ((1 : ℤ) ≤ 2024 ∧ (2024 : ℤ) ≤ 9999 ∧ valid_date 2024 2 29
      ∧ next_day 2024 2 29 = (2024, 3, 1))
    ∧ (make_julian_day (next_day 2024 2 29).1 (next_day 2024 2 29).2.1
          (next_day 2024 2 29).2.2 18 30 15
        = make_julian_day 2024 2 29 18 30 15 + 1
      ∧ make_julian_day 2000 1 1 12 0 0 = 2451545
      ∧ JD2000 = 2451545) :=
  ⟨by decide, make_julian_day_next_day 2024 2 29 18 30 15 (by decide) (by decide) (by decide)⟩

/-- C5: for every `jd` with `0 ≤ jd ≤ 5373484`, `daytime_from_julian_day jd` is a
well-formed civil date-time: the year is never 0, `1 ≤ month ≤ 12`,
`1 ≤ day ≤ 31`, `0 ≤ hour ≤ 23`, `0 ≤ minute ≤ 59` and `0 ≤ second < 60`. -/
theorem daytime_from_julian_day_well_formed (jd : ℚ) (h0 : 0 ≤ jd) (_h1 : jd ≤ 5373484) :
    (daytime_from_julian_day jd).year ≠ 0
      ∧ (1 ≤ (daytime_from_julian_day jd).month ∧ (daytime_from_julian_day jd).month ≤ 12)
      ∧ (1 ≤ (daytime_from_julian_day jd).day ∧ (daytime_from_julian_day jd).day ≤ 31)
      ∧ (0 ≤ (daytime_from_julian_day jd).hour ∧ (daytime_from_julian_day jd).hour ≤ 23)
      ∧ (0 ≤ (daytime_from_julian_day jd).minute ∧ (daytime_from_julian_day jd).minute ≤ 59)
      ∧ (0 ≤ (daytime_from_julian_day jd).second ∧ (daytime_from_julian_day jd).second < 60) := by
  have hnn : 0 ≤ jd + 1 / 2 := by linarith
  have hfl : 0 ≤ ⌊jd + 1 / 2⌋ := Int.floor_nonneg.mpr hnn
  have hA := julian_shift_ge ⌊jd + 1 / 2⌋
  obtain ⟨c1, c2, c3, c4, c5⟩ :=
    civil_fields_well_formed (julian_shift ⌊jd + 1 / 2⌋ + 1524) (by omega)
  obtain ⟨a1, a2⟩ := floor_fract_mul_bounds (jd + 1 / 2) 24 (by norm_num)
  obtain ⟨b1, b2⟩ := floor_fract_mul_bounds (Int.fract (jd + 1 / 2) * 24) 60 (by norm_num)
  have s0 := Int.fract_nonneg (Int.fract (Int.fract (jd + 1 / 2) * 24) * 60)
  have s1 := Int.fract_lt_one (Int.fract (Int.fract (jd + 1 / 2) * 24) * 60)
  rw [daytime_from_julian_day_eq jd hnn]
  simp only []
  push_cast at a1 a2 b1 b2
  refine ⟨c1, ⟨c2, c3⟩, ⟨c4, c5⟩, ⟨a1, by omega⟩, ⟨b1, by omega⟩, by positivity, by linarith⟩

/-- Witness of C5 at `jd = 0`, which converts to noon of 1 January of the year
reported as `-4713`. -/
theorem daytime_from_julian_day_well_formed_witness :
    ((0 : ℚ) ≤ 0 ∧ (0 : ℚ) ≤ 5373484
      ∧ daytime_from_julian_day 0
          = { year := -4713, month := 1, day := 1, hour := 12, minute := 0, second := 0 })
    ∧ ((daytime_from_julian_day 0).year ≠ 0
      ∧ (1 ≤ (daytime_from_julian_day 0).month ∧ (daytime_from_julian_day 0).month ≤ 12)
      ∧ (1 ≤ (daytime_from_julian_day 0).day ∧ (daytime_from_julian_day 0).day ≤ 31)
      ∧ (0 ≤ (daytime_from_julian_day 0).hour ∧ (daytime_from_julian_day 0).hour ≤ 23)
      ∧ (0 ≤ (daytime_from_julian_day 0).minute ∧ (daytime_from_julian_day 0).minute ≤ 59)
      ∧ (0 ≤ (daytime_from_julian_day 0).second ∧ (daytime_from_julian_day 0).second < 60)) :=
  ⟨by decide!, daytime_from_julian_day_well_formed 0 (by norm_num) (by norm_num)⟩

end astronomy

/-! ### Claims on the leap search and the month ordinals -/

namespace calendar

theorem leap_loop_first_spec (st nm : Nat → Int) (k : Nat) : ∀ n i ms : Nat,
    (leap_loop_first st nm k n i ms = 0 ∧ ∀ j < n, ¬ nm (k + (i + j) + 1) ≤ st (ms + 2 * j))
    ∨ ∃ j < n, leap_loop_first st nm k n i ms = k + (i + j)
        ∧ nm (k + (i + j) + 1) ≤ st (ms + 2 * j)
        ∧ ∀ j' < j, ¬ nm (k + (i + j') + 1) ≤ st (ms + 2 * j') := by
  intro n
  induction n with
  | zero =>
    intro i ms
    left
    exact ⟨rfl, fun j hj => absurd hj (Nat.not_lt_zero j)⟩
  | succ n ih =>
    intro i ms
    unfold leap_loop_first
    by_cases hc : nm (k + i + 1) ≤ st ms
    · right
      refine ⟨0, Nat.succ_pos n, ?_, ?_, ?_⟩
      · rw [if_pos hc]; rfl
      · simpa using hc
      · intro j' hj'; exact absurd hj' (Nat.not_lt_zero j')
    · rw [if_neg hc]
      rcases ih (i + 1) (ms + 2) with ⟨h0, hall⟩ | ⟨j, hj, hval, hcond, hmin⟩
      · left
        refine ⟨h0, ?_⟩
        intro j hj
        cases j with
        | zero => simpa using hc
        | succ j =>
          have := hall j (by omega)
          have e1 : k + (i + (j + 1)) + 1 = k + (i + 1 + j) + 1 := by omega
          have e2 : ms + 2 * (j + 1) = ms + 2 + 2 * j := by omega
          rw [e1, e2]; exact this
      · right
        refine ⟨j + 1, by omega, ?_, ?_, ?_⟩
        · rw [hval]; omega
        · have e1 : k + (i + (j + 1)) + 1 = k + (i + 1 + j) + 1 := by omega
          have e2 : ms + 2 * (j + 1) = ms + 2 + 2 * j := by omega
          rw [e1, e2]; exact hcond
        · intro j' hj'
          cases j' with
          | zero => simpa using hc
          | succ j' =>
            have := hmin j' (by omega)
            have e1 : k + (i + (j' + 1)) + 1 = k + (i + 1 + j') + 1 := by omega
            have e2 : ms + 2 * (j' + 1) = ms + 2 + 2 * j' := by omega
            rw [e1, e2]; exact this

theorem leap_loop_second_spec (st nm : Nat → Int) (k : Nat) : ∀ n i ms : Nat,
    (leap_loop_second st nm k n i ms = 0 ∧ ∀ j < n, ¬ nm (k + (i + j) + 13) ≤ st (ms + 2 * j))
    ∨ ∃ j < n, leap_loop_second st nm k n i ms = k + (i + j) + 12
        ∧ nm (k + (i + j) + 13) ≤ st (ms + 2 * j)
        ∧ ∀ j' < j, ¬ nm (k + (i + j') + 13) ≤ st (ms + 2 * j') := by
  intro n
  induction n with
  | zero =>
    intro i ms
    left
    exact ⟨rfl, fun j hj => absurd hj (Nat.not_lt_zero j)⟩
  | succ n ih =>
    intro i ms
    unfold leap_loop_second
    by_cases hc : nm (k + i + 13) ≤ st ms
    · right
      refine ⟨0, Nat.succ_pos n, ?_, ?_, ?_⟩
      · rw [if_pos hc]; rfl
      · simpa using hc
      · intro j' hj'; exact absurd hj' (Nat.not_lt_zero j')
    · rw [if_neg hc]
      rcases ih (i + 1) (ms + 2) with ⟨h0, hall⟩ | ⟨j, hj, hval, hcond, hmin⟩
      · left
        refine ⟨h0, ?_⟩
        intro j hj
        cases j with
        | zero => simpa using hc
        | succ j =>
          have := hall j (by omega)
          have e1 : k + (i + (j + 1)) + 13 = k + (i + 1 + j) + 13 := by omega
          have e2 : ms + 2 * (j + 1) = ms + 2 + 2 * j := by omega
          rw [e1, e2]; exact this
      · right
        refine ⟨j + 1, by omega, ?_, ?_, ?_⟩
        · rw [hval]; omega
        · have e1 : k + (i + (j + 1)) + 13 = k + (i + 1 + j) + 13 := by omega
          have e2 : ms + 2 * (j + 1) = ms + 2 + 2 * j := by omega
          rw [e1, e2]; exact hcond
        · intro j' hj'
          cases j' with
          | zero => simpa using hc
          | succ j' =>
            have := hmin j' (by omega)
            have e1 : k + (i + (j' + 1)) + 13 = k + (i + 1 + j') + 13 := by omega
            have e2 : ms + 2 * (j' + 1) = ms + 2 + 2 * j' := by omega
            rw [e1, e2]; exact this

end calendar

namespace calendar

/-- C7: leap-month invariant of the search, for any day-offset tables and an
anchor `nm_idx` in {0, 1} with `nm_idx = 0` only when
`new_moons[1].ofst > solar_terms[2].ofst`. If
`solar_terms[26].ofst ≥ new_moons[nm_idx+13].ofst` the search ends with
`leap ≠ 0`, `nm_idx ≤ leap ≤ nm_idx + 12` and exactly one flagged month;
otherwise, if `solar_terms[50].ofst ≥ new_moons[nm_idx+25].ofst`, it ends with
`nm_idx + 13 ≤ leap ≤ nm_idx + 24`; otherwise `leap = 0`. -/
theorem leap_search_invariant (solar_terms new_moons : Nat → Int) (nm_idx : Nat)
    (h01 : nm_idx ≤ 1) (h0 : nm_idx = 0 → new_moons 1 > solar_terms 2) :
    if solar_terms 26 ≥ new_moons (nm_idx + 13) then
      leap_search solar_terms new_moons nm_idx ≠ 0
        ∧ nm_idx ≤ leap_search solar_terms new_moons nm_idx
        ∧ leap_search solar_terms new_moons nm_idx ≤ nm_idx + 12
        ∧ ∃! i, is_flagged_leap (leap_search solar_terms new_moons nm_idx) i
    else if solar_terms 50 ≥ new_moons (nm_idx + 25) then
      nm_idx + 13 ≤ leap_search solar_terms new_moons nm_idx
        ∧ leap_search solar_terms new_moons nm_idx ≤ nm_idx + 24
    else leap_search solar_terms new_moons nm_idx = 0 := by
  unfold leap_search
  by_cases h1 : solar_terms 26 ≥ new_moons (nm_idx + 13)
  · rw [if_pos h1, if_pos h1]
    rcases leap_loop_first_spec solar_terms new_moons nm_idx 13 0 2 with
      ⟨_, hall⟩ | ⟨j, hj, hval, hcond, _⟩
    · exact absurd h1 (hall 12 (by norm_num))
    · have hne : leap_loop_first solar_terms new_moons nm_idx 13 0 2 ≠ 0 := by
        rw [hval]
        intro hz
        have hk : nm_idx = 0 := by omega
        have hj0 : j = 0 := by omega
        subst hj0
        have := h0 hk
        rw [hk] at hcond
        simp at hcond
        omega
      refine ⟨hne, by omega, by omega, ?_⟩
      refine ⟨leap_loop_first solar_terms new_moons nm_idx 13 0 2, ?_, ?_⟩
      · unfold is_flagged_leap; simp [hne]
      · intro i hi
        unfold is_flagged_leap at hi
        simp at hi
        exact hi.2
  · rw [if_neg h1, if_neg h1]
    by_cases h2 : solar_terms 50 ≥ new_moons (nm_idx + 25)
    · rw [if_pos h2, if_pos h2]
      rcases leap_loop_second_spec solar_terms new_moons nm_idx 13 0 26 with
        ⟨_, hall⟩ | ⟨j, hj, hval, hcond, _⟩
      · exact absurd h2 (hall 12 (by norm_num))
      · have hj1 : 1 ≤ j := by
          rcases Nat.eq_zero_or_pos j with hz | hp
          · subst hz
            exact absurd hcond h1
          · exact hp
        omega
    · rw [if_neg h2, if_neg h2]

/-- Witness of C7: offsets `solar_terms[s] = 15 s + 20`, `new_moons[i] = 29 i`
with `nm_idx = 1`; thirteen new moons lie between the solstices and the
search ends with `leap = 9`. -/
theorem leap_search_invariant_witness :
    ((1 : Nat) ≤ 1 ∧ ((1 : Nat) = 0 → (29 : Int) * (1 : Nat) > 15 * (2 : Nat) + 20)
      ∧ leap_search (fun s => 15 * (s : Int) + 20) (fun i => 29 * (i : Int)) 1 = 9)
    ∧ (if (fun s : Nat => 15 * (s : Int) + 20) 26 ≥ (fun i : Nat => 29 * (i : Int)) (1 + 13) then
        leap_search (fun s => 15 * (s : Int) + 20) (fun i => 29 * (i : Int)) 1 ≠ 0
          ∧ 1 ≤ leap_search (fun s => 15 * (s : Int) + 20) (fun i => 29 * (i : Int)) 1
          ∧ leap_search (fun s => 15 * (s : Int) + 20) (fun i => 29 * (i : Int)) 1 ≤ 1 + 12
          ∧ ∃! i, is_flagged_leap
              (leap_search (fun s => 15 * (s : Int) + 20) (fun i => 29 * (i : Int)) 1) i
      else if (fun s : Nat => 15 * (s : Int) + 20) 50
          ≥ (fun i : Nat => 29 * (i : Int)) (1 + 25) then
        1 + 13 ≤ leap_search (fun s => 15 * (s : Int) + 20) (fun i => 29 * (i : Int)) 1
          ∧ leap_search (fun s => 15 * (s : Int) + 20) (fun i => 29 * (i : Int)) 1 ≤ 1 + 24
      else leap_search (fun s => 15 * (s : Int) + 20) (fun i => 29 * (i : Int)) 1 = 0) :=
  ⟨by decide, leap_search_invariant (fun s => 15 * (s : Int) + 20) (fun i => 29 * (i : Int)) 1
    (by decide) (by decide)⟩

/-- C8: the ordinal of month index `i` is `(i + 9) mod 12 + 1` when `leap = 0` or
`i < leap` and `(i + 8) mod 12 + 1` otherwise (`leap > 0` and `i ≥ leap`); it
lies in 1..12; from `i` to `i + 1` it advances by one, 12 wrapping to 1, except
that the leap month `i + 1 = leap > 0` repeats the ordinal of month `i`. -/
theorem readable_ordinal (leap i : Nat) :
    (readable leap i = if leap = 0 ∨ i < leap then (i + 9) % 12 + 1 else (i + 8) % 12 + 1)
      ∧ (¬ (leap = 0 ∨ i < leap) ↔ (leap > 0 ∧ i ≥ leap))
      ∧ (1 ≤ readable leap i ∧ readable leap i ≤ 12)
      ∧ (if leap > 0 ∧ i + 1 = leap then readable leap (i + 1) = readable leap i
         else readable leap (i + 1) = readable leap i % 12 + 1) := by
  unfold readable
  refine ⟨rfl, by omega, ?_, ?_⟩
  · split <;> omega
  · split <;> split <;> split <;> omega

end calendar

/-! ### Claims on delta-T -/

namespace astronomy
namespace impl

theorem D_length : D.length = 21 := rfl

theorem D_years_increasing : ∀ a < 21, ∀ b < 21, a < b → (D_at a).y < (D_at b).y := by
  decide!

theorem scan_segment_eq (y : ℚ) (k : Nat) (hk : k < 20)
    (hlo : ∀ j, j < k → ((D_at (j + 1)).y : ℚ) ≤ y) (hhi : y < ((D_at (k + 1)).y : ℚ)) :
    ∀ n i p : Nat, i ≤ k → k < i + n → scan_segment y n i p = k := by
  intro n
  induction n with
  | zero => intro i p h1 h2; omega
  | succ n ih =>
    intro i p h1 h2
    unfold scan_segment
    rw [if_pos (by rw [D_length]; omega)]
    by_cases hc : y < ((D_at (i + 1)).y : ℚ)
    · rw [if_pos hc]
      by_contra hne
      have hlt : i < k := by omega
      have := hlo i hlt
      linarith
    · rw [if_neg hc]
      have hne : i ≠ k := by
        intro e; subst e; exact hc hhi
      exact ih (i + 1) i (by omega) (by omega)

theorem segment_index_eq (y : ℚ) (k : Nat) (hk : k < 20) (hlo : ((D_at k).y : ℚ) ≤ y)
    (hhi : y < ((D_at (k + 1)).y : ℚ)) : segment_index y = k := by
  unfold segment_index
  apply scan_segment_eq y k hk _ hhi _ _ _ (Nat.zero_le k) (by rw [D_length]; omega)
  intro j hj
  have hle : (D_at (j + 1)).y ≤ (D_at k).y := by
    rcases Nat.lt_or_ge (j + 1) k with h | h
    · exact le_of_lt (D_years_increasing (j + 1) (by omega) k (by omega) h)
    · have e : j + 1 = k := by omega
      rw [e]
  have : ((D_at (j + 1)).y : ℚ) ≤ ((D_at k).y : ℚ) := by exact_mod_cast hle
  linarith

/-- C10: for every index `i < 20` of the table `D` and every `t` whose
fractional year `y = t / 365.2425 + 2000` satisfies `D[i].y ≤ y < D[i+1].y`,
`calc_delta_t t` selects segment `i`, the normalised position
`t1 = 10 * (y - D[i].y) / (D[i+1].y - D[i].y)` lies in `[0, 10)`, and the result
is `(a0 + a1 t1 + a2 t1^2 + a3 t1^3) / 86400` with the coefficients of segment
`i`; and `astronomy::calc_delta_t 2451545 = 64.7 / 86400`. -/
theorem calc_delta_t_on_segment (i : Nat) (hi : i < 20) (t : ℚ)
    (hlo : ((D_at i).y : ℚ) ≤ t / 365.2425 + 2000)
    (hhi : t / 365.2425 + 2000 < ((D_at (i + 1)).y : ℚ)) :
    segment_index (t / 365.2425 + 2000) = i
      ∧ (0 ≤ 10 * (t / 365.2425 + 2000 - ((D_at i).y : ℚ))
              / (((D_at (i + 1)).y : ℚ) - ((D_at i).y : ℚ))
        ∧ 10 * (t / 365.2425 + 2000 - ((D_at i).y : ℚ))
              / (((D_at (i + 1)).y : ℚ) - ((D_at i).y : ℚ)) < 10)
      ∧ calc_delta_t t
          = ((D_at i).a0
              + (D_at i).a1 * (10 * (t / 365.2425 + 2000 - ((D_at i).y : ℚ))
                  / (((D_at (i + 1)).y : ℚ) - ((D_at i).y : ℚ)))
              + (D_at i).a2 * (10 * (t / 365.2425 + 2000 - ((D_at i).y : ℚ))
                  / (((D_at (i + 1)).y : ℚ) - ((D_at i).y : ℚ))) ^ 2
              + (D_at i).a3 * (10 * (t / 365.2425 + 2000 - ((D_at i).y : ℚ))
                  / (((D_at (i + 1)).y : ℚ) - ((D_at i).y : ℚ))) ^ 3) / 86400
      ∧ astronomy.calc_delta_t 2451545 = 64.7 / 86400 := by
  have hseg := segment_index_eq _ i hi hlo hhi
  have hpos : (0 : ℚ) < ((D_at (i + 1)).y : ℚ) - ((D_at i).y : ℚ) := by linarith
  refine ⟨hseg, ⟨?_, ?_⟩, ?_, by decide!⟩
  · apply div_nonneg _ (le_of_lt hpos)
    linarith
  · rw [div_lt_iff₀ hpos]
    linarith
  · unfold calc_delta_t
    simp only []
    rw [hseg]
    have e0 : ((D_at (i + 1)).y : ℚ) - ((D_at i).y : ℚ) - 0.0
        = ((D_at (i + 1)).y : ℚ) - ((D_at i).y : ℚ) := by norm_num
    rw [e0]
    ring

/-- Witness of C10 at `t = 0` (the epoch `JD2000`, fractional year 2000), which
lies on segment 18 with boundary years 2000 and 2150. -/
theorem calc_delta_t_on_segment_witness :
    ((18 : Nat) < 20 ∧ (D_at 18).y = 2000 ∧ (D_at (18 + 1)).y = 2150
      ∧ ((D_at 18).y : ℚ) ≤ (0 : ℚ) / 365.2425 + 2000
      ∧ (0 : ℚ) / 365.2425 + 2000 < ((D_at (18 + 1)).y : ℚ))
    ∧ segment_index ((0 : ℚ) / 365.2425 + 2000) = 18
    ∧ calc_delta_t 0 = 64.7 / 86400 := by
  have h := calc_delta_t_on_segment 18 (by decide) 0 (by decide!) (by decide!)
  refine ⟨by decide!, h.1, ?_⟩
  rw [h.2.2.1]
  decide!

end impl
end astronomy

/-! ### Claims on the delta-T table outside its range and at its boundaries -/

namespace astronomy
namespace impl

theorem scan_segment_lt (y : ℚ) : ∀ n i p : Nat, p < 20 → i ≤ 20 → scan_segment y n i p < 20 := by
  intro n
  induction n with
  | zero => intro i p hp _; exact hp
  | succ n ih =>
    intro i p hp hi
    unfold scan_segment
    rw [D_length]
    by_cases h1 : i + 1 < 21
    · rw [if_pos h1]
      split
      · omega
      · exact ih (i + 1) i (by omega) (by omega)
    · rw [if_neg h1]; exact hp

theorem scan_segment_fuel (y : ℚ) : ∀ n i p k : Nat, 20 ≤ i + n →
    scan_segment y (n + k) i p = scan_segment y n i p := by
  intro n
  induction n with
  | zero =>
    intro i p k h
    cases k with
    | zero => rfl
    | succ k =>
      unfold scan_segment
      rw [D_length, if_neg (by omega)]
  | succ n ih =>
    intro i p k h
    have e : n + 1 + k = (n + k) + 1 := by omega
    rw [e]
    unfold scan_segment
    by_cases h1 : i + 1 < D.length
    · rw [if_pos h1, if_pos h1]
      split
      · rfl
      · exact ih (i + 1) i k (by omega)
    · rw [if_neg h1, if_neg h1]

theorem scan_segment_top (y : ℚ) (h : (6000 : ℚ) ≤ y) :
    ∀ n i p : Nat, i ≤ 20 → 20 ≤ i + n → (i = 20 → p = 19) → scan_segment y n i p = 19 := by
  intro n
  induction n with
  | zero => intro i p h1 h2 h3; exact h3 (by omega)
  | succ n ih =>
    intro i p h1 h2 h3
    unfold scan_segment
    rw [D_length]
    by_cases hi : i + 1 < 21
    · rw [if_pos hi]
      have hy : ¬ y < ((D_at (i + 1)).y : ℚ) := by
        have hle : (D_at (i + 1)).y ≤ 6000 := by
          have : ∀ j < 21, (D_at j).y ≤ 6000 := by decide!
          exact this (i + 1) hi
        have : ((D_at (i + 1)).y : ℚ) ≤ 6000 := by exact_mod_cast hle
        linarith
      rw [if_neg hy]
      exact ih (i + 1) i (by omega) (by omega) (by omega)
    · rw [if_neg hi]; exact h3 (by omega)

end impl
end astronomy

namespace astronomy
namespace impl

/-- C11: `calc_delta_t` is total and clamps outside the table. The table has 21
entries with strictly increasing boundary years; for every fractional year `y`
the scan ends (more iterations than the 21 entries change nothing) on a
segment `p ≤ 19`, so the sentinel entry 20 (year 6000, no coefficients) is
never the evaluated segment, `p + 1` is inside the table and the divisor
`D[p+1].y - D[p].y` is not zero; for `y ≥ 6000` the segment is 19 (boundary year
2150) and for `y < -4000` it is 0. -/
theorem calc_delta_t_outside_table :
    (D.length = 21 ∧ ∀ a < 21, ∀ b < 21, a < b → (D_at a).y < (D_at b).y)
      ∧ (∀ (y : ℚ) (k : Nat), scan_segment y (D.length + k) 0 0 = segment_index y)
      ∧ (∀ y : ℚ, segment_index y ≤ 19 ∧ segment_index y + 1 < D.length
          ∧ ((D_at (segment_index y + 1)).y : ℚ) - ((D_at (segment_index y)).y : ℚ) - 0.0 ≠ 0)
      ∧ (∀ y : ℚ, 6000 ≤ y → segment_index y = 19)
      ∧ (∀ y : ℚ, y < -4000 → segment_index y = 0)
      ∧ ((D_at 19).y = 2150 ∧ D_at 20 = ⟨6000, 0, 0, 0, 0⟩
          ∧ segment_index 7000 = 19 ∧ segment_index (-5000) = 0) := by
  have hlt : ∀ y : ℚ, segment_index y < 20 := fun y =>
    scan_segment_lt y D.length 0 0 (by norm_num) (by norm_num)
  refine ⟨⟨D_length, D_years_increasing⟩, ?_, ?_, ?_, ?_, by decide!⟩
  · intro y k
    exact scan_segment_fuel y D.length 0 0 k (by rw [D_length]; norm_num)
  · intro y
    have h := hlt y
    refine ⟨by omega, by rw [D_length]; omega, ?_⟩
    have hinc := D_years_increasing (segment_index y) (by omega) (segment_index y + 1) (by omega)
      (by omega)
    have : ((D_at (segment_index y)).y : ℚ) < ((D_at (segment_index y + 1)).y : ℚ) := by
      exact_mod_cast hinc
    norm_num
    linarith
  · intro y hy
    exact scan_segment_top y hy D.length 0 0 (by norm_num) (by rw [D_length]; norm_num)
      (by norm_num)
  · intro y hy
    unfold segment_index
    rw [D_length]
    unfold scan_segment
    rw [D_length, if_pos (by norm_num)]
    have e : ((D_at (0 + 1)).y : ℚ) = -500 := by decide!
    rw [if_pos (by rw [e]; linarith)]

/-- The boundary jumps of the table, each compared with the difference of the
values of the cubic of segment `i` at two fixed positions of `[0, 10]`. -/
theorem boundary_jump_table :
    ∀ i < 19, |segment_cubic (D_at i) 10 - (D_at (i + 1)).a0|
      ≤ segment_cubic (D_at i) (if i = 10 then 0 else if i = 8 ∨ 12 ≤ i then 10 else 0)
        - segment_cubic (D_at i) (if i = 10 then 3 else if i = 8 ∨ 12 ≤ i then 0 else 10) := by
  decide!

/-- C12: for every pair of adjacent usable segments `i`, `i + 1` (`i < 19`) the jump
between the cubic of segment `i` at its last point `t1 = 10` and the first value
`a0` of segment `i + 1` is at most the variation of the cubic of segment `i` on
`[0, 10]`: there are positions `u`, `v` in `[0, 10]` whose values differ by at
least the jump. The cubic is the one `calc_delta_t` evaluates. -/
theorem delta_t_boundary_jump (i : Nat) (hi : i < 19) :
    (∃ u v : ℚ, (0 ≤ u ∧ u ≤ 10) ∧ (0 ≤ v ∧ v ≤ 10)
      ∧ |segment_cubic (D_at i) 10 - segment_cubic (D_at (i + 1)) 0|
          ≤ segment_cubic (D_at i) u - segment_cubic (D_at i) v)
    ∧ (∀ t : ℚ, calc_delta_t t
        = segment_cubic (D_at (segment_index (t / 365.2425 + 2000)))
            ((t / 365.2425 + 2000 - ((D_at (segment_index (t / 365.2425 + 2000))).y : ℚ))
              / (((D_at (segment_index (t / 365.2425 + 2000) + 1)).y : ℚ)
                  - ((D_at (segment_index (t / 365.2425 + 2000))).y : ℚ) - 0.0) * 10) / 86400) := by
  refine ⟨?_, fun t => rfl⟩
  have h := boundary_jump_table i hi
  have e0 : segment_cubic (D_at (i + 1)) 0 = (D_at (i + 1)).a0 := by
    unfold segment_cubic; ring
  rw [e0]
  refine ⟨_, _, ?_, ?_, h⟩
  · split
    · norm_num
    · split <;> norm_num
  · split
    · norm_num
    · split <;> norm_num

/-- Witness of C12 at `i = 10` (segments 1830 and 1860): the jump is 1.7 and the
cubic of segment 10 falls by more than 2.3 between `t1 = 0` and `t1 = 3`. -/
theorem delta_t_boundary_jump_witness :
    ((10 : Nat) < 19 ∧ |segment_cubic (D_at 10) 10 - segment_cubic (D_at (10 + 1)) 0| = 1.7
      ∧ segment_cubic (D_at 10) 0 - segment_cubic (D_at 10) 3 = 2.3529)
    ∧ ∃ u v : ℚ, (0 ≤ u ∧ u ≤ 10) ∧ (0 ≤ v ∧ v ≤ 10)
      ∧ |segment_cubic (D_at 10) 10 - segment_cubic (D_at (10 + 1)) 0|
          ≤ segment_cubic (D_at 10) u - segment_cubic (D_at 10) v :=
  ⟨by decide!, (delta_t_boundary_jump 10 (by decide)).1⟩

end impl
end astronomy

/-! ### Claims on the Newton loops -/

namespace calendar
open astronomy

theorem newton_exit_test (residual slope : ℚ → ℚ) (x : ℚ) :
    ¬ (|x - residual x / slope x - x| > 1e-8) ↔ within_tolerance residual slope x := by
  unfold within_tolerance
  have e : x - residual x / slope x - x = -(residual x / slope x) := by ring
  rw [e, abs_neg, not_lt]

theorem first_within_succ (residual slope : ℚ → ℚ) (x : ℚ) (k : Nat)
    (h : first_within residual slope x (k + 1)) :
    (slope x ≠ 0 ∧ ¬ within_tolerance residual slope x)
      ∧ first_within residual slope (x - residual x / slope x) k := by
  obtain ⟨h1, h2, h3⟩ := h
  have hx : slope x ≠ 0 ∧ ¬ within_tolerance residual slope x := h1 0 (Nat.succ_pos k)
  refine ⟨hx, ?_, h2, h3⟩
  intro m hm
  exact h1 (m + 1) (by omega)

theorem newton_loop_of_first_within (residual slope : ℚ → ℚ) :
    ∀ (k : Nat) (x : ℚ), first_within residual slope x k → ∀ n : Nat,
      newton_loop residual slope n x
        = if n ≤ k then newton_outcome.unfinished
          else newton_outcome.converged (newton_iterate residual slope k x) := by
  intro k
  induction k with
  | zero =>
    intro x h n
    obtain ⟨_, h2, h3⟩ := h
    have h2 : slope x ≠ 0 := h2
    have h3 : within_tolerance residual slope x := h3
    cases n with
    | zero => rfl
    | succ n =>
      unfold newton_loop
      simp only []
      rw [if_neg h2, if_neg ((newton_exit_test residual slope x).mpr h3), if_neg (by omega)]
      rfl
  | succ k ih =>
    intro x h n
    obtain ⟨⟨h0, ht⟩, hk⟩ := first_within_succ residual slope x k h
    cases n with
    | zero => rfl
    | succ n =>
      unfold newton_loop
      simp only []
      have hgt : |x - residual x / slope x - x| > 1e-8 := by
        by_contra hc
        exact ht ((newton_exit_test residual slope x).mp hc)
      rw [if_neg h0, if_pos hgt, ih _ hk n]
      by_cases hn : n ≤ k
      · rw [if_pos hn, if_pos (by omega)]
      · rw [if_neg hn, if_neg (by omega)]
        rfl

theorem newton_loop_never (residual slope : ℚ → ℚ) :
    ∀ (n : Nat) (x : ℚ),
      (∀ m, slope (newton_iterate residual slope m x) ≠ 0
        ∧ ¬ within_tolerance residual slope (newton_iterate residual slope m x)) →
      newton_loop residual slope n x = newton_outcome.unfinished := by
  intro n
  induction n with
  | zero => intro x _; rfl
  | succ n ih =>
    intro x h
    have h0 : slope x ≠ 0 := (h 0).1
    have ht : ¬ within_tolerance residual slope x := (h 0).2
    unfold newton_loop
    simp only []
    have hgt : |x - residual x / slope x - x| > 1e-8 := by
      by_contra hc
      exact ht ((newton_exit_test residual slope x).mp hc)
    rw [if_neg h0, if_pos hgt]
    exact ih _ (fun m => h (m + 1))

theorem newton_loop_converged (residual slope : ℚ → ℚ) :
    ∀ (n : Nat) (x r : ℚ), newton_loop residual slope n x = newton_outcome.converged r →
      ∃ k < n, first_within residual slope x k ∧ r = newton_iterate residual slope k x := by
  intro n
  induction n with
  | zero => intro x r h; exact absurd h (by simp [newton_loop])
  | succ n ih =>
    intro x r h
    unfold newton_loop at h
    simp only [] at h
    by_cases h0 : slope x = 0
    · rw [if_pos h0] at h
      exact absurd h (by simp)
    · rw [if_neg h0] at h
      by_cases hgt : |x - residual x / slope x - x| > 1e-8
      · rw [if_pos hgt] at h
        obtain ⟨k, hk, hf, hr⟩ := ih _ r h
        refine ⟨k + 1, by omega, ?_, hr⟩
        obtain ⟨f1, f2, f3⟩ := hf
        refine ⟨?_, f2, f3⟩
        intro m hm
        cases m with
        | zero =>
          refine ⟨h0, ?_⟩
          intro ht
          exact ((newton_exit_test residual slope x).mpr ht) hgt
        | succ m => exact f1 m (by omega)
      · rw [if_neg hgt] at h
        have hr : r = x := by
          injection h with h'
          exact h'.symm
        subst hr
        refine ⟨0, Nat.succ_pos n, ⟨?_, h0, (newton_exit_test residual slope r).mp hgt⟩, rfl⟩
        intro m hm
        omega

end calendar

namespace calendar
open astronomy

/-- C13: whenever `calc_solar_term` or `calc_new_moon_nearby` returns a value `r`,
`r` is the last iterate evaluated (iterate `k` of the Newton update from the
starting point, the earlier iterates having missed the tolerance) and the
Newton step at `r` is within the tolerance: `|f r / Dp r| ≤ 1e-8`, with `Dp r`
the symmetric difference quotient of the longitude function over
`r ± 0.000005` and `f` the wrap-adjusted residual (for a solar term the Sun
longitude minus `15 * idx`, 360 being subtracted first only when `idx = 0` and the
longitude exceeds 345; for a new moon the elongation, 360 being subtracted when
it exceeds 345). -/
theorem newton_result_within_tolerance (sun eld : ℚ → ℚ) (n : Nat) (year idx : Int)
    (jd r : ℚ) :
    (calc_solar_term sun n year idx = newton_outcome.converged r →
      (∃ k < n, r = newton_iterate (solar_term_residual sun (idx * 15)) (solar_term_slope sun) k
            (estimate_solar_term year (idx * 15))
          ∧ ∀ m < k, ¬ within_tolerance (solar_term_residual sun (idx * 15))
              (solar_term_slope sun)
              (newton_iterate (solar_term_residual sun (idx * 15)) (solar_term_slope sun) m
                (estimate_solar_term year (idx * 15))))
        ∧ solar_term_slope sun r ≠ 0
        ∧ |solar_term_residual sun (idx * 15) r / solar_term_slope sun r| ≤ 1e-8)
    ∧ (calc_new_moon_nearby eld n jd = newton_outcome.converged r →
      (∃ k < n, r = newton_iterate (new_moon_residual eld) (new_moon_slope eld) k jd
          ∧ ∀ m < k, ¬ within_tolerance (new_moon_residual eld) (new_moon_slope eld)
              (newton_iterate (new_moon_residual eld) (new_moon_slope eld) m jd))
        ∧ new_moon_slope eld r ≠ 0
        ∧ |new_moon_residual eld r / new_moon_slope eld r| ≤ 1e-8)
    ∧ (solar_term_slope sun r = (sun (r + 0.000005) - sun (r - 0.000005)) / 0.00001
        ∧ new_moon_slope eld r = (eld (r + 0.000005) - eld (r - 0.000005)) / 0.00001
        ∧ solar_term_residual sun (idx * 15) r
            = (if idx = 0 ∧ sun r > 345 then sun r - 360 else sun r) - 15 * (idx : ℚ)
        ∧ new_moon_residual eld r = if eld r > 345 then eld r - 360 else eld r) := by
  refine ⟨?_, ?_, ?_, ?_, ?_, ?_⟩
  · intro h
    obtain ⟨k, hk, ⟨f1, f2, f3⟩, hr⟩ := newton_loop_converged _ _ n _ r h
    rw [← hr] at f2 f3
    exact ⟨⟨k, hk, hr, fun m hm => (f1 m hm).2⟩, f2, f3⟩
  · intro h
    obtain ⟨k, hk, ⟨f1, f2, f3⟩, hr⟩ := newton_loop_converged _ _ n _ r h
    rw [← hr] at f2 f3
    exact ⟨⟨k, hk, hr, fun m hm => (f1 m hm).2⟩, f2, f3⟩
  · unfold solar_term_slope step2 step
    norm_num
  · unfold new_moon_slope step2 step
    norm_num
  · unfold solar_term_residual
    simp only []
    have e1 : (345.0 : ℚ) = 345 := by norm_num
    have e2 : (360.0 : ℚ) = 360 := by norm_num
    have e3 : (idx * 15 = 0) ↔ idx = 0 := by omega
    rw [e1, e2]
    simp only [e3]
    push_cast
    ring_nf
  · unfold new_moon_residual
    simp only []
    norm_num

/-- Instance of C13: for the Sun longitude `x - 2460000` the term of index 1 of
2023 is returned after two iterations, and the new moon of the elongation
`x - 10` from `jd = 13` likewise. -/
theorem newton_result_within_tolerance_witness :
    (calc_solar_term (fun x => x - 2460000) 5 2023 1 = newton_outcome.converged 2460015
      ∧ calc_new_moon_nearby (fun x => x - 10) 5 13 = newton_outcome.converged 10)
    ∧ |solar_term_residual (fun x => x - 2460000) (1 * 15) 2460015
        / solar_term_slope (fun x => x - 2460000) 2460015| ≤ 1e-8
    ∧ |new_moon_residual (fun x => x - 10) 10 / new_moon_slope (fun x => x - 10) 10| ≤ 1e-8 :=
  ⟨by decide!,
   ((newton_result_within_tolerance (fun x => x - 2460000) (fun x => x - 10) 5 2023 1 13
      2460015).1 (by decide!)).2.2,
   ((newton_result_within_tolerance (fun x => x - 2460000) (fun x => x - 10) 5 2023 1 13
      10).2.1 (by decide!)).2.2⟩

end calendar

namespace calendar
open astronomy

theorem sawtooth_step (c : ℚ) (z : ℤ) :
    ((c + 1 / 2) - Int.fract ((z : ℚ) + 1 / 2 + step)
        - ((c + 1 / 2) - Int.fract ((z : ℚ) + 1 / 2 - step))) / step2 = -1
      ∧ (c + 1 / 2) - Int.fract ((z : ℚ) + 1 / 2) = c := by
  have h1 := (floor_add_fraction z (1 / 2 + step) ((z : ℚ) + 1 / 2 + step)
    (by unfold step; norm_num) (by unfold step; norm_num) (by ring)).2
  have h2 := (floor_add_fraction z (1 / 2 - step) ((z : ℚ) + 1 / 2 - step)
    (by unfold step; norm_num) (by unfold step; norm_num) (by ring)).2
  have h3 := (floor_add_fraction z (1 / 2) ((z : ℚ) + 1 / 2)
    (by norm_num) (by norm_num) (by ring)).2
  rw [h1, h2, h3]
  unfold step2 step
  constructor <;> norm_num

theorem solar_sawtooth_never :
    ∀ n : Nat, ∀ z : ℤ, newton_loop (solar_term_residual (fun x => 16 + 1 / 2 - Int.fract x) 15)
      (solar_term_slope (fun x => 16 + 1 / 2 - Int.fract x)) n ((z : ℚ) + 1 / 2)
        = newton_outcome.unfinished := by
  intro n
  induction n with
  | zero => intro z; rfl
  | succ n ih =>
    intro z
    obtain ⟨s1, s2⟩ := sawtooth_step 16 z
    have hs : solar_term_slope (fun x => 16 + 1 / 2 - Int.fract x) ((z : ℚ) + 1 / 2) = -1 := s1
    have hr : solar_term_residual (fun x => 16 + 1 / 2 - Int.fract x) 15 ((z : ℚ) + 1 / 2) = 1 := by
      unfold solar_term_residual
      simp only []
      rw [s2]
      norm_num
    unfold newton_loop
    simp only []
    rw [hs, hr, if_neg (by norm_num), if_pos (by norm_num)]
    have e : (z : ℚ) + 1 / 2 - 1 / -1 = ((z + 1 : ℤ) : ℚ) + 1 / 2 := by push_cast; ring
    rw [e]
    exact ih (z + 1)

theorem new_moon_sawtooth_never :
    ∀ n : Nat, ∀ z : ℤ, newton_loop (new_moon_residual (fun x => 1 + 1 / 2 - Int.fract x))
      (new_moon_slope (fun x => 1 + 1 / 2 - Int.fract x)) n ((z : ℚ) + 1 / 2)
        = newton_outcome.unfinished := by
  intro n
  induction n with
  | zero => intro z; rfl
  | succ n ih =>
    intro z
    obtain ⟨s1, s2⟩ := sawtooth_step 1 z
    have hs : new_moon_slope (fun x => 1 + 1 / 2 - Int.fract x) ((z : ℚ) + 1 / 2) = -1 := s1
    have hr : new_moon_residual (fun x => 1 + 1 / 2 - Int.fract x) ((z : ℚ) + 1 / 2) = 1 := by
      unfold new_moon_residual
      simp only []
      rw [s2]
      norm_num
    unfold newton_loop
    simp only []
    rw [hs, hr, if_neg (by norm_num), if_pos (by norm_num)]
    have e : (z : ℚ) + 1 / 2 - 1 / -1 = ((z + 1 : ℤ) : ℚ) + 1 / 2 := by push_cast; ring
    rw [e]
    exact ih (z + 1)

/-- C14 (as stated, refuted): for the Sun longitude `16.5 - fract x` the loop of
`calc_solar_term 2023 1` starts at `2460038.5`, steps one day forward at each
iteration and is still iterating after any number of iterations: it neither
converges nor reports a failure. The same holds for `calc_new_moon_nearby` on
the elongation `1.5 - fract x` from `jd = 0.5`. -/
theorem newton_loops_never_stop_on_sawtooth :
    estimate_solar_term 2023 (1 * 15) = ((2460038 : ℤ) : ℚ) + 1 / 2
      ∧ (∀ n : Nat, calc_solar_term (fun x => 16 + 1 / 2 - Int.fract x) n 2023 1
          = newton_outcome.unfinished)
      ∧ (∀ n : Nat, calc_new_moon_nearby (fun x => 1 + 1 / 2 - Int.fract x) n (((0 : ℤ) : ℚ) + 1 / 2)
          = newton_outcome.unfinished) := by
  have he : estimate_solar_term 2023 (1 * 15) = ((2460038 : ℤ) : ℚ) + 1 / 2 := by decide!
  refine ⟨he, ?_, ?_⟩
  · intro n
    unfold calc_solar_term
    rw [he]
    exact solar_sawtooth_never n 2460038
  · intro n
    exact new_moon_sawtooth_never n 0

/-- C14 (amended): for every longitude function and every starting point the
Newton loops of `calc_solar_term` and `calc_new_moon_nearby` have no iteration
limit and no failure result. They stop after `k + 1` iterations, returning
iterate `k`, exactly when iterate `k` is the first whose Newton step is within
`1e-8` (the slopes up to there being non-zero); as long as no iterate meets the
tolerance they keep iterating. -/
theorem newton_loops_stop_at_first_tolerance (sun eld : ℚ → ℚ) (year idx : Int) (jd : ℚ) :
    (∀ k : Nat, first_within (solar_term_residual sun (idx * 15)) (solar_term_slope sun)
          (estimate_solar_term year (idx * 15)) k →
        ∀ n : Nat, calc_solar_term sun n year idx
          = if n ≤ k then newton_outcome.unfinished
            else newton_outcome.converged
              (newton_iterate (solar_term_residual sun (idx * 15)) (solar_term_slope sun) k
                (estimate_solar_term year (idx * 15))))
    ∧ ((∀ m : Nat,
          solar_term_slope sun (newton_iterate (solar_term_residual sun (idx * 15))
              (solar_term_slope sun) m (estimate_solar_term year (idx * 15))) ≠ 0
          ∧ ¬ within_tolerance (solar_term_residual sun (idx * 15)) (solar_term_slope sun)
              (newton_iterate (solar_term_residual sun (idx * 15)) (solar_term_slope sun) m
                (estimate_solar_term year (idx * 15)))) →
        ∀ n : Nat, calc_solar_term sun n year idx = newton_outcome.unfinished)
    ∧ (∀ k : Nat, first_within (new_moon_residual eld) (new_moon_slope eld) jd k →
        ∀ n : Nat, calc_new_moon_nearby eld n jd
          = if n ≤ k then newton_outcome.unfinished
            else newton_outcome.converged
              (newton_iterate (new_moon_residual eld) (new_moon_slope eld) k jd))
    ∧ ((∀ m : Nat,
          new_moon_slope eld (newton_iterate (new_moon_residual eld) (new_moon_slope eld) m jd) ≠ 0
          ∧ ¬ within_tolerance (new_moon_residual eld) (new_moon_slope eld)
              (newton_iterate (new_moon_residual eld) (new_moon_slope eld) m jd)) →
        ∀ n : Nat, calc_new_moon_nearby eld n jd = newton_outcome.unfinished) := by
  refine ⟨?_, ?_, ?_, ?_⟩
  · intro k hk n
    exact newton_loop_of_first_within _ _ k _ hk n
  · intro h n
    exact newton_loop_never _ _ n _ h
  · intro k hk n
    exact newton_loop_of_first_within _ _ k _ hk n
  · intro h n
    exact newton_loop_never _ _ n _ h

/-- Instance of C14 (amended): for the Sun longitude `x - 2460000` iterate 1 is the
first within the tolerance, so `calc_solar_term 2023 1` is still iterating after
one iteration and has returned `2460015` after two; for the elongation
`x - 10` from `jd = 13` the loop returns `10` after two iterations. -/
theorem newton_loops_stop_at_first_tolerance_witness :
    (first_within (solar_term_residual (fun x => x - 2460000) (1 * 15))
        (solar_term_slope (fun x => x - 2460000)) (estimate_solar_term 2023 (1 * 15)) 1
      ∧ first_within (new_moon_residual (fun x => x - 10)) (new_moon_slope (fun x => x - 10)) 13 1)
    ∧ calc_solar_term (fun x => x - 2460000) 1 2023 1 = newton_outcome.unfinished
    ∧ calc_solar_term (fun x => x - 2460000) 2 2023 1 = newton_outcome.converged 2460015
    ∧ calc_new_moon_nearby (fun x => x - 10) 2 13 = newton_outcome.converged 10 := by
  have h := newton_loops_stop_at_first_tolerance (fun x => x - 2460000) (fun x => x - 10) 2023 1 13
  refine ⟨by decide!, ?_, ?_, ?_⟩
  · rw [h.1 1 (by decide!) 1]; decide!
  · rw [h.1 1 (by decide!) 2]; decide!
  · rw [h.2.2.1 1 (by decide!) 2]; decide!

end calendar

/-! ### Claims on the leap test and the anchor of the month table -/

namespace calendar

/-- C15 (as stated, refuted): with `nm_idx = 1`, `solar_terms[s] = 15 s + 20` and
`new_moons[i] = 29 i + 2` the principal term paired with month 11 falls on the
day of the next new moon (`solar_terms[22] = new_moons[12] = 350`), which is "at
or before" it, and month 12 is the first whose term falls strictly after the
next new moon; yet the search flags month 11. -/
theorem leap_search_flags_on_equal_offsets :
    leap_search (fun s => 15 * (s : Int) + 20) (fun i => 29 * (i : Int) + 2) 1 = 11
      ∧ (fun s : Nat => 15 * (s : Int) + 20) (2 + 2 * 10)
          ≤ (fun i : Nat => 29 * (i : Int) + 2) (1 + 10 + 1)
      ∧ (∀ j < 11, (fun s : Nat => 15 * (s : Int) + 20) (2 + 2 * j)
          ≤ (fun i : Nat => 29 * (i : Int) + 2) (1 + j + 1))
      ∧ (fun s : Nat => 15 * (s : Int) + 20) (2 + 2 * 11)
          > (fun i : Nat => 29 * (i : Int) + 2) (1 + 11 + 1) := by
  decide

/-- C15 (amended): in the leap search a month of the span is passed over exactly
when its paired principal term falls strictly before the next new moon
(`term.ofst < next_new_moon.ofst`), and the month flagged leap is the first one,
counted from the anchor, whose paired principal term falls at or after the
next new moon (`next_new_moon.ofst ≤ term.ofst`); in the first branch month
`nm_idx + j` is paired with `solar_terms[2 + 2 j]`, in the second branch month
`nm_idx + 12 + j` with `solar_terms[26 + 2 j]`. -/
theorem leap_search_first_term_not_before (solar_terms new_moons : Nat → Int) (nm_idx : Nat) :
    if solar_terms 26 ≥ new_moons (nm_idx + 13) then
      ∃ j < 13, leap_search solar_terms new_moons nm_idx = nm_idx + j
        ∧ new_moons (nm_idx + j + 1) ≤ solar_terms (2 + 2 * j)
        ∧ ∀ j' < j, solar_terms (2 + 2 * j') < new_moons (nm_idx + j' + 1)
    else if solar_terms 50 ≥ new_moons (nm_idx + 25) then
      ∃ j < 13, leap_search solar_terms new_moons nm_idx = nm_idx + 12 + j
        ∧ new_moons (nm_idx + 12 + j + 1) ≤ solar_terms (26 + 2 * j)
        ∧ ∀ j' < j, solar_terms (26 + 2 * j') < new_moons (nm_idx + 12 + j' + 1)
    else leap_search solar_terms new_moons nm_idx = 0 := by
  unfold leap_search
  by_cases h1 : solar_terms 26 ≥ new_moons (nm_idx + 13)
  · rw [if_pos h1, if_pos h1]
    rcases leap_loop_first_spec solar_terms new_moons nm_idx 13 0 2 with
      ⟨_, hall⟩ | ⟨j, hj, hval, hcond, hmin⟩
    · exact absurd h1 (hall 12 (by norm_num))
    · refine ⟨j, hj, ?_, ?_, ?_⟩
      · rw [hval]; omega
      · have e : nm_idx + (0 + j) + 1 = nm_idx + j + 1 := by omega
        rw [e] at hcond; exact hcond
      · intro j' hj'
        have := hmin j' hj'
        have e : nm_idx + (0 + j') + 1 = nm_idx + j' + 1 := by omega
        rw [e] at this
        exact not_le.mp this
  · rw [if_neg h1, if_neg h1]
    by_cases h2 : solar_terms 50 ≥ new_moons (nm_idx + 25)
    · rw [if_pos h2, if_pos h2]
      rcases leap_loop_second_spec solar_terms new_moons nm_idx 13 0 26 with
        ⟨_, hall⟩ | ⟨j, hj, hval, hcond, hmin⟩
      · exact absurd h2 (hall 12 (by norm_num))
      · refine ⟨j, hj, ?_, ?_, ?_⟩
        · rw [hval]; omega
        · have e : nm_idx + (0 + j) + 13 = nm_idx + 12 + j + 1 := by omega
          rw [e] at hcond; exact hcond
        · intro j' hj'
          have := hmin j' hj'
          have e : nm_idx + (0 + j') + 13 = nm_idx + 12 + j' + 1 := by omega
          rw [e] at this
          exact not_le.mp this
    · rw [if_neg h2, if_neg h2]

/-- C16 (as stated, refuted): with the solstice at day 100, the new moon found
first at `c = 70` and the later one at `n = 99` (then 128), the new moon of the
month of the solstice is `n`, one of `p`, `c`, `n`, and the gaps are 29; step 1
keeps `new_moons[1] = 70` and `new_moons[2] = 99`, so
`st < new_moons[nm_idx + 1]` fails. -/
theorem anchor_step_misses_later_new_moon :
    ((70 : Int) - 41 = 29 ∧ (99 : Int) - 70 = 29 ∧ (128 : Int) - 99 = 29
      ∧ (70 : Int) ≤ 100 ∧ (99 : Int) ≤ 100 ∧ (100 : Int) < 128)
    ∧ (anchor_step 100 70 41 99 128).nm_idx = 1
    ∧ (anchor_step 100 70 41 99 128).ofst 1 = 70
    ∧ (anchor_step 100 70 41 99 128).ofst (1 + 1) = 99
    ∧ ¬ ((anchor_step 100 70 41 99 128).ofst (anchor_step 100 70 41 99 128).nm_idx ≤ 100
        ∧ 100 < (anchor_step 100 70 41 99 128).ofst
            ((anchor_step 100 70 41 99 128).nm_idx + 1)) := by
  decide

/-- C16 (amended): anchor disambiguation over integer day offsets, with `st` the
solstice, `c` the new moon found first, `p` the adjacent earlier and `n` the
adjacent later new moon, `n2` the one after `n`, and `c - p`, `n - c`, `n2 - n`
each 29 or 30. If `c > st` and `p < st`, or `c ≤ st` and `st ≤ n`, then after step 1
`new_moons[nm_idx].ofst ≤ st < new_moons[nm_idx + 1].ofst`. -/
theorem anchor_step_brackets_solstice (st c p n n2 : Int)
    (_hp : c - p = 29 ∨ c - p = 30) (_hn : n - c = 29 ∨ n - c = 30)
    (hn2 : n2 - n = 29 ∨ n2 - n = 30)
    (hcase : (c > st ∧ p < st) ∨ (c ≤ st ∧ st ≤ n)) :
    (anchor_step st c p n n2).ofst (anchor_step st c p n n2).nm_idx ≤ st
      ∧ st < (anchor_step st c p n n2).ofst ((anchor_step st c p n n2).nm_idx + 1) := by
  unfold anchor_step
  rcases hcase with ⟨h1, h2⟩ | ⟨h1, h2⟩
  · rw [if_pos h1]
    simp only [if_pos h2, anchor_state.ofst]
    simp
    omega
  · rw [if_neg (by omega)]
    by_cases h3 : n = st
    · rw [if_pos h3]
      simp [anchor_state.ofst]
      omega
    · rw [if_neg h3]
      simp [anchor_state.ofst]
      omega

/-- Witness of C16 (amended): solstice at day 100, first new moon at 129, the
earlier one at 99: step 1 selects index 0. -/
theorem anchor_step_brackets_solstice_witness :
    (((129 : Int) - 99 = 29 ∨ (129 : Int) - 99 = 30) ∧ ((158 : Int) - 129 = 29 ∨ (158 : Int) - 129 = 30)
      ∧ (anchor_step 100 129 99 158 188).nm_idx = 0)
    ∧ (anchor_step 100 129 99 158 188).ofst (anchor_step 100 129 99 158 188).nm_idx ≤ 100
    ∧ 100 < (anchor_step 100 129 99 158 188).ofst ((anchor_step 100 129 99 158 188).nm_idx + 1) :=
  ⟨by decide, anchor_step_brackets_solstice 100 129 99 158 188 (by decide) (by decide) (by decide)
    (by decide)⟩

end calendar

/-! ### Claims on the day count and the solar-term table -/

namespace calendar
open astronomy Gregorian

theorem shift_right_two (n : ℤ) : n >>> (2 : Nat) = n / 4 := by
  rw [Int.shiftRight_eq_div_pow]; norm_num

theorem shift_right_five (n : ℤ) : n >>> (5 : Nat) = n / 32 := by
  rw [Int.shiftRight_eq_div_pow]; norm_num

theorem days_offset_eq_day_number (y m d : ℤ) (hm1 : 1 ≤ m) (hm2 : m ≤ 12) (hy : 1 ≤ y) :
    days_offset (civil_date y m d) + 1721119 = day_number y m d := by
  have hY : 0 ≤ march_year y m := by unfold march_year; split <;> omega
  have e1 : (if m < 3 then y - 1 else y) = march_year y m := by
    unfold march_year; split <;> split <;> omega
  have e2 : (if m < 3 then m + 12 else m) = march_month m := by
    unfold march_month; split <;> split <;> omega
  unfold days_offset civil_date day_number
  simp only []
  rw [e1, e2, shift_right_two, shift_right_five, Int.tdiv_eq_ediv hY (by norm_num),
    Int.tdiv_eq_ediv hY (by norm_num), days_of_years_split]
  have hM : march_month m = 3 ∨ march_month m = 4 ∨ march_month m = 5 ∨ march_month m = 6
      ∨ march_month m = 7 ∨ march_month m = 8 ∨ march_month m = 9 ∨ march_month m = 10
      ∨ march_month m = 11 ∨ march_month m = 12 ∨ march_month m = 13 ∨ march_month m = 14 := by
    unfold march_month; split <;> omega
  rcases hM with h | h | h | h | h | h | h | h | h | h | h | h <;> rw [h] <;> omega

theorem next_day_valid (y m d : ℤ) (hv : valid_date y m d) (hy : 1 ≤ y) :
    valid_date (next_day y m d).1 (next_day y m d).2.1 (next_day y m d).2.2
      ∧ 1 ≤ (next_day y m d).1 := by
  obtain ⟨hm1, hm2, hd1, hd2⟩ := hv
  unfold next_day
  by_cases h1 : d < days_in_month y m
  · rw [if_pos h1]
    exact ⟨⟨hm1, hm2, by simp only []; omega, by simp only []; omega⟩, hy⟩
  · rw [if_neg h1]
    by_cases h2 : m < 12
    · rw [if_pos h2]
      refine ⟨⟨by simp only []; omega, by simp only []; omega, by simp, ?_⟩, hy⟩
      simp only []
      unfold days_in_month
      split
      · split <;> norm_num
      · split <;> norm_num
    · rw [if_neg h2]
      refine ⟨⟨by simp, by simp, by simp, ?_⟩, by simp only []; omega⟩
      simp only []
      unfold days_in_month
      norm_num

theorem next_date_iterate_valid (k : Nat) (y m d : ℤ) (hv : valid_date y m d) (hy : 1 ≤ y) :
    valid_date (next_date^[k] (y, m, d)).1 (next_date^[k] (y, m, d)).2.1
        (next_date^[k] (y, m, d)).2.2
      ∧ 1 ≤ (next_date^[k] (y, m, d)).1 := by
  induction k with
  | zero => exact ⟨hv, hy⟩
  | succ k ih =>
    rw [Function.iterate_succ_apply']
    exact next_day_valid _ _ _ ih.1 ih.2

/-- C17: `days_offset` is a day count on the Gregorian calendar. For every valid
Gregorian date with `year ≥ 1` the offset of the next civil day is the offset of
the day plus 1 (across month ends, year ends and 29 February); hence the date
reached after `k` days has offset plus `k`: the offset is strictly increasing in
the date and the difference of two offsets is the number of days between the
dates. -/
theorem days_offset_next_day (y m d : ℤ) (hv : valid_date y m d) (hy : 1 ≤ y) :
    days_offset (civil_date (next_day y m d).1 (next_day y m d).2.1 (next_day y m d).2.2)
        = days_offset (civil_date y m d) + 1
      ∧ ∀ k : Nat,
          days_offset (civil_date (next_date^[k] (y, m, d)).1 (next_date^[k] (y, m, d)).2.1
            (next_date^[k] (y, m, d)).2.2) = days_offset (civil_date y m d) + k := by
  have step1 : ∀ y m d : ℤ, valid_date y m d → 1 ≤ y →
      days_offset (civil_date (next_day y m d).1 (next_day y m d).2.1 (next_day y m d).2.2)
        = days_offset (civil_date y m d) + 1 := by
    intro y m d hv hy
    obtain ⟨hv', hy'⟩ := next_day_valid y m d hv hy
    have a := days_offset_eq_day_number _ _ (next_day y m d).2.2 hv'.1 hv'.2.1 hy'
    have b := days_offset_eq_day_number y m d hv.1 hv.2.1 hy
    have c := day_number_next_day y m d hv
    omega
  refine ⟨step1 y m d hv hy, ?_⟩
  intro k
  induction k with
  | zero => simp
  | succ k ih =>
    obtain ⟨hv', hy'⟩ := next_date_iterate_valid k y m d hv hy
    rw [Function.iterate_succ_apply']
    have := step1 _ _ _ hv' hy'
    have e : next_date (next_date^[k] (y, m, d))
        = next_day (next_date^[k] (y, m, d)).1 (next_date^[k] (y, m, d)).2.1
            (next_date^[k] (y, m, d)).2.2 := rfl
    rw [e, this, ih]
    push_cast
    ring

/-- Witness of C17 at 2024-02-29, followed by 2024-03-01. -/
theorem days_offset_next_day_witness :
    (valid_date 2024 2 29 ∧ (1 : ℤ) ≤ 2024 ∧ next_day 2024 2 29 = (2024, 3, 1)
      ∧ days_offset (civil_date 2024 2 29) = 739251
      ∧ days_offset (civil_date 2024 3 1) = 739252)
    ∧ days_offset (civil_date (next_day 2024 2 29).1 (next_day 2024 2 29).2.1
        (next_day 2024 2 29).2.2) = days_offset (civil_date 2024 2 29) + 1 :=
  ⟨by decide, (days_offset_next_day 2024 2 29 (by decide) (by decide)).1⟩

end calendar

namespace calendar
open astronomy Gregorian

theorem slot_layout_table : ∀ s < 51,
    (solar_term_request 0 s).2 = (s + 16) % 24
      ∧ slot_longitude s = 15 * ((s + 16) % 24)
      ∧ (slot_longitude s % 30 = 0 ↔ s % 2 = 0)
      ∧ year_term_index (slot_name_index s) = (s + 16) % 24
      ∧ slot_name_index s < solar_terms_names.length := by
  decide

/-- C18: layout of the 51-slot solar-term table. Slot `s ≤ 50` holds the term
of index `(s + 16) mod 24`, of longitude `15 * ((s + 16) mod 24)`, requested for
civil year `y - 1` when `s ≤ 2`, `y` when `3 ≤ s ≤ 26` and `y + 1` when
`27 ≤ s ≤ 50`; its longitude is a multiple of 30 exactly when `s` is even; the
name index `(s + 21) mod 24` is inside `solar_terms_names` and is paired (by
`i >= 5 ? i - 5 : i + 19`) with the same term index. Slots 0 and 1 are minor and
major snow and slots 2, 26 and 50 the winter solstice. -/
theorem solar_term_table_layout (y : Int) (s : Nat) (hs : s ≤ 50) :
    ((solar_term_request y s).2 = (s + 16) % 24
      ∧ slot_longitude s = 15 * ((s + 16) % 24)
      ∧ (solar_term_request y s).1 = (if s ≤ 2 then y - 1 else if s ≤ 26 then y else y + 1)
      ∧ (slot_longitude s % 30 = 0 ↔ s % 2 = 0)
      ∧ year_term_index (slot_name_index s) = (s + 16) % 24
      ∧ slot_name_index s < solar_terms_names.length)
    ∧ (slot_longitude 0 = minor_snow ∧ slot_longitude 1 = major_snow
      ∧ slot_longitude 2 = winter_solstice ∧ slot_longitude 26 = winter_solstice
      ∧ slot_longitude 50 = winter_solstice)
    ∧ (solar_terms_names.get? (slot_name_index 0) = some "小雪"
      ∧ solar_terms_names.get? (slot_name_index 1) = some "大雪"
      ∧ solar_terms_names.get? (slot_name_index 2) = some "冬至"
      ∧ solar_terms_names.get? (slot_name_index 26) = some "冬至"
      ∧ solar_terms_names.get? (slot_name_index 50) = some "冬至") := by
  obtain ⟨t1, t2, t3, t4, t5⟩ := slot_layout_table s (by omega)
  refine ⟨⟨?_, t2, ?_, t3, t4, t5⟩, by decide, by decide⟩
  · rw [← t1]
    unfold solar_term_request
    split
    · rfl
    · split
      · rfl
      · split <;> rfl
  · unfold solar_term_request
    split
    · rw [if_pos (by omega)]
    · split
      · rw [if_pos (by omega)]
      · split
        · rw [if_neg (by omega), if_pos (by omega)]
        · rw [if_neg (by omega), if_neg (by omega)]

/-- Witness of C18 at slot 8 of the table of 2023: the spring equinox of 2023,
printed with the name at index 5. -/
theorem solar_term_table_layout_witness :
    ((8 : Nat) ≤ 50 ∧ solar_term_request 2023 8 = (2023, 0) ∧ slot_name_index 8 = 5
      ∧ solar_terms_names.get? 5 = some "春分")
    ∧ (solar_term_request 2023 8).2 = (8 + 16) % 24
    ∧ slot_longitude 8 = 15 * ((8 + 16) % 24) :=
  ⟨by decide, (solar_term_table_layout 2023 8 (by decide)).1.1,
    (solar_term_table_layout 2023 8 (by decide)).1.2.1⟩

end calendar

/-! ### Claims on the estimate of a solar term -/

namespace calendar
open astronomy Gregorian

theorem make_julian_day_midnight (y m d : ℤ) :
    make_julian_day y m d 0 0 0.0 = (midnight_number y m d : ℚ) - 1 / 2 := by
  unfold make_julian_day midnight_number
  simp only []
  have e1 : (if m ≤ 2 then y - 1 else y) = march_year y m := rfl
  have e2 : (if m ≤ 2 then m + 12 else m) = march_month m := rfl
  rw [e1, e2, floor_days_of_years, floor_days_of_months]
  push_cast
  norm_num
  ring

theorem tdiv_pred_400 (Y : ℤ) :
    0 ≤ Int.tdiv Y 400 - Int.tdiv (Y - 1) 400 ∧ Int.tdiv Y 400 - Int.tdiv (Y - 1) 400 ≤ 1 := by
  rcases le_or_lt 1 Y with h | h
  · rw [Int.tdiv_eq_ediv (by omega) (by norm_num), Int.tdiv_eq_ediv (by omega) (by norm_num)]
    omega
  · have a : Int.tdiv Y 400 = -((-Y) / 400) := by
      have : Y = -(-Y) := by omega
      rw [this, Int.neg_tdiv, Int.tdiv_eq_ediv (by omega) (by norm_num)]
      simp
    have b : Int.tdiv (Y - 1) 400 = -((-(Y - 1)) / 400) := by
      have : Y - 1 = -(-(Y - 1)) := by omega
      rw [this, Int.neg_tdiv, Int.tdiv_eq_ediv (by omega) (by norm_num)]
      simp
    rw [a, b]
    omega

theorem tdiv_pred_100 (Y : ℤ) :
    0 ≤ Int.tdiv Y 100 - Int.tdiv (Y - 1) 100 ∧ Int.tdiv Y 100 - Int.tdiv (Y - 1) 100 ≤ 1 := by
  rcases le_or_lt 1 Y with h | h
  · rw [Int.tdiv_eq_ediv (by omega) (by norm_num), Int.tdiv_eq_ediv (by omega) (by norm_num)]
    omega
  · have a : Int.tdiv Y 100 = -((-Y) / 100) := by
      have : Y = -(-Y) := by omega
      rw [this, Int.neg_tdiv, Int.tdiv_eq_ediv (by omega) (by norm_num)]
      simp
    have b : Int.tdiv (Y - 1) 100 = -((-(Y - 1)) / 100) := by
      have : Y - 1 = -(-(Y - 1)) := by omega
      rw [this, Int.neg_tdiv, Int.tdiv_eq_ediv (by omega) (by norm_num)]
      simp
    rw [a, b]
    omega

theorem estimate_solar_term_eq (year : ℤ) (k : Nat) (hk : k ≤ 23) :
    estimate_solar_term year (15 * (k : ℤ))
      = make_julian_day year (estimate_month (15 * (k : ℤ))) (estimate_day (15 * (k : ℤ))) 0 0 0.0
    ∧ Int.tdiv (15 * (k : ℤ) + 105) 30 = (15 * (k : ℤ) + 105) / 30
    ∧ 1 ≤ estimate_month (15 * (k : ℤ)) ∧ estimate_month (15 * (k : ℤ)) ≤ 12
    ∧ 1 ≤ estimate_day (15 * (k : ℤ)) ∧ estimate_day (15 * (k : ℤ)) ≤ 22 := by
  have h1 : Int.tdiv (15 * (k : ℤ) + 105) 30 = (15 * (k : ℤ) + 105) / 30 :=
    Int.tdiv_eq_ediv (by omega) (by norm_num)
  have h2 : Int.tmod (15 * (k : ℤ)) 30 = (15 * (k : ℤ)) % 30 :=
    Int.tmod_eq_emod (by omega) (by norm_num)
  refine ⟨?_, h1, ?_, ?_, ?_, ?_⟩
  · have e20 : ∀ M : ℤ, (if M < 8 then (20 : ℤ) else 22) = if M ≥ 8 then 22 else 20 := by
      intro M; split <;> split <;> omega
    have e4 : ∀ M : ℤ, (if M < 8 then (4 : ℤ) else 7) = if M ≥ 8 then 7 else 4 := by
      intro M; split <;> split <;> omega
    unfold estimate_solar_term estimate_day estimate_month
    simp only []
    rw [h1, h2, e20, e4]
    split <;> rfl
  · unfold estimate_month; split <;> omega
  · unfold estimate_month; split <;> omega
  · unfold estimate_day; split <;> split <;> omega
  · unfold estimate_day; split <;> split <;> omega

end calendar

namespace calendar
open astronomy Gregorian

theorem estimate_fields_table : ∀ j < 24,
    estimate_month (15 * ((term_in_year_order j : Nat) : ℤ))
        = (j : ℤ) / 2 + 1
      ∧ estimate_day (15 * ((term_in_year_order j : Nat) : ℤ))
        = (if j % 2 = 0 then (if j < 14 then 4 else 7) else (if j < 14 then 20 else 22)) := by
  decide

theorem midnight_number_order (year : ℤ) (j : Nat) (hj : j < 23) :
    midnight_number year (estimate_month (15 * ((term_in_year_order j : Nat) : ℤ)))
        (estimate_day (15 * ((term_in_year_order j : Nat) : ℤ)))
      < midnight_number year (estimate_month (15 * ((term_in_year_order (j + 1) : Nat) : ℤ)))
        (estimate_day (15 * ((term_in_year_order (j + 1) : Nat) : ℤ))) := by
  obtain ⟨a1, a2⟩ := estimate_fields_table j (by omega)
  obtain ⟨b1, b2⟩ := estimate_fields_table (j + 1) (by omega)
  rw [a1, a2, b1, b2]
  have t4 := tdiv_pred_400 year
  have t1 := tdiv_pred_100 year
  unfold midnight_number march_year march_month
  interval_cases j <;> norm_num <;> omega

/-- C19: for every year and every term angle `15 k`, `0 ≤ k ≤ 23`,
`estimate_solar_term year angle` is `make_julian_day` at 0h of a valid date of
civil year `year` whose month is `(angle + 105) / 30` reduced by 12 when above
12, hence in 1..12, and whose day is 20 (22 when the month is 8 or later) for a
multiple of 30 and 4 (7 when the month is 8 or later) otherwise; in the order
`k = 19, 20, ..., 23, 0, ..., 18` (`term_in_year_order`) each estimate is
strictly below the next one. -/
theorem estimate_solar_term_spec (year : ℤ) (k : Nat) (hk : k ≤ 23) :
    estimate_solar_term year (15 * (k : ℤ))
        = make_julian_day year (estimate_month (15 * (k : ℤ))) (estimate_day (15 * (k : ℤ))) 0 0 0
      ∧ valid_date year (estimate_month (15 * (k : ℤ))) (estimate_day (15 * (k : ℤ)))
      ∧ (1 ≤ estimate_month (15 * (k : ℤ)) ∧ estimate_month (15 * (k : ℤ)) ≤ 12)
      ∧ (k < 23 →
          estimate_solar_term year (15 * ((term_in_year_order k : Nat) : ℤ))
            < estimate_solar_term year (15 * ((term_in_year_order (k + 1) : Nat) : ℤ)))
      ∧ (term_in_year_order 0 = 19 ∧ term_in_year_order 4 = 23 ∧ term_in_year_order 5 = 0
          ∧ term_in_year_order 23 = 18) := by
  obtain ⟨h1, _, h3, h4, h5, h6⟩ := estimate_solar_term_eq year k hk
  have e0 : (0.0 : ℚ) = 0 := by norm_num
  refine ⟨by rw [h1, e0], ⟨h3, h4, h5, ?_⟩, ⟨h3, h4⟩, ?_, by decide⟩
  · have : 28 ≤ days_in_month year (estimate_month (15 * (k : ℤ))) := by
      unfold days_in_month
      split
      · split <;> norm_num
      · split <;> norm_num
    omega
  · intro hk'
    have ha : term_in_year_order k ≤ 23 := by unfold term_in_year_order; omega
    have hb : term_in_year_order (k + 1) ≤ 23 := by unfold term_in_year_order; omega
    rw [(estimate_solar_term_eq year _ ha).1, (estimate_solar_term_eq year _ hb).1,
      make_julian_day_midnight, make_julian_day_midnight]
    have := midnight_number_order year k hk'
    have hq : (midnight_number year (estimate_month (15 * ((term_in_year_order k : Nat) : ℤ)))
          (estimate_day (15 * ((term_in_year_order k : Nat) : ℤ))) : ℚ)
        < (midnight_number year
            (estimate_month (15 * ((term_in_year_order (k + 1) : Nat) : ℤ)))
            (estimate_day (15 * ((term_in_year_order (k + 1) : Nat) : ℤ))) : ℚ) := by
      exact_mod_cast this
    linarith

/-- Witness of C19 for 2023 and `k = 0` (spring equinox): the estimate is
2023-03-20 0h, Julian Day 2460023.5. -/
theorem estimate_solar_term_spec_witness :
    ((0 : Nat) ≤ 23 ∧ estimate_month (15 * ((0 : Nat) : ℤ)) = 3
      ∧ estimate_day (15 * ((0 : Nat) : ℤ)) = 20
      ∧ estimate_solar_term 2023 (15 * ((0 : Nat) : ℤ)) = 2460023.5)
    ∧ estimate_solar_term 2023 (15 * ((0 : Nat) : ℤ))
        = make_julian_day 2023 (estimate_month (15 * ((0 : Nat) : ℤ)))
            (estimate_day (15 * ((0 : Nat) : ℤ))) 0 0 0 :=
  ⟨by decide!, (estimate_solar_term_spec 2023 0 (by decide)).1⟩

end calendar

/-! ### Claims on the coarse new-moon searches -/

namespace calendar
open astronomy

theorem forward_loop_range (eld : ℚ → ℚ) :
    ∀ (n : Nat) (jd D0 : ℚ), ∃ k : Nat, k ≤ n ∧ forward_loop eld n jd D0 = jd + (k : ℚ) := by
  intro n
  induction n with
  | zero => intro jd D0; exact ⟨0, le_refl 0, by simp [forward_loop]⟩
  | succ n ih =>
    intro jd D0
    unfold forward_loop
    simp only []
    by_cases h : eld (jd + 1) < D0
    · rw [if_pos h]
      exact ⟨0, Nat.zero_le _, by push_cast; ring⟩
    · rw [if_neg h]
      obtain ⟨k, hk, he⟩ := ih (jd + 1) (eld (jd + 1))
      exact ⟨k + 1, by omega, by rw [he]; push_cast; ring⟩

theorem backward_loop_range (eld : ℚ → ℚ) :
    ∀ (n : Nat) (jd D0 : ℚ), ∃ k : Nat, k ≤ n ∧ (1 ≤ n → 1 ≤ k)
      ∧ backward_loop eld n jd D0 = jd - (k : ℚ) := by
  intro n
  induction n with
  | zero => intro jd D0; exact ⟨0, le_refl 0, by omega, by simp [backward_loop]⟩
  | succ n ih =>
    intro jd D0
    unfold backward_loop
    simp only []
    by_cases h : eld (jd - 1) > D0
    · rw [if_pos h]
      exact ⟨1, by omega, by omega, by push_cast; ring⟩
    · rw [if_neg h]
      obtain ⟨k, hk, _, he⟩ := ih (jd - 1) (eld (jd - 1))
      exact ⟨k + 1, by omega, by omega, by rw [he]; push_cast; ring⟩

theorem walk_forward_stops (eld : ℚ → ℚ) (D0 : ℚ) :
    ∀ (j : Nat) (x : ℚ), (∀ i < j, eld (x + ((i : ℚ) + 1)) > D0) →
      ¬ eld (x + ((j : ℚ) + 1)) > D0 →
      ∀ n : Nat, walk_forward eld D0 n x = if n ≤ j then none else some (x + (j : ℚ)) := by
  intro j
  induction j with
  | zero =>
    intro x _ hstop n
    cases n with
    | zero => rfl
    | succ n =>
      unfold walk_forward
      simp only []
      have hs : ¬ eld (x + 1) > D0 := by simpa using hstop
      rw [if_neg hs, if_neg (by omega)]
      simp
  | succ j ih =>
    intro x hgo hstop n
    cases n with
    | zero => rfl
    | succ n =>
      unfold walk_forward
      simp only []
      have h0 : eld (x + 1) > D0 := by simpa using hgo 0 (Nat.succ_pos j)
      rw [if_pos h0]
      have hgo' : ∀ i < j, eld (x + 1 + ((i : ℚ) + 1)) > D0 := by
        intro i hi
        have := hgo (i + 1) (by omega)
        have e : x + 1 + ((i : ℚ) + 1) = x + (((i + 1 : Nat) : ℚ) + 1) := by push_cast; ring
        rw [e]; exact this
      have hstop' : ¬ eld (x + 1 + ((j : ℚ) + 1)) > D0 := by
        have e : x + 1 + ((j : ℚ) + 1) = x + (((j + 1 : Nat) : ℚ) + 1) := by push_cast; ring
        rw [e]; exact hstop
      rw [ih (x + 1) hgo' hstop' n]
      by_cases hn : n ≤ j
      · rw [if_pos hn, if_pos (by omega)]
      · rw [if_neg hn, if_neg (by omega)]
        congr 1
        push_cast; ring

theorem walk_forward_never (eld : ℚ → ℚ) (D0 : ℚ) :
    ∀ (n : Nat) (x : ℚ), (∀ i : Nat, eld (x + ((i : ℚ) + 1)) > D0) →
      walk_forward eld D0 n x = none := by
  intro n
  induction n with
  | zero => intro x _; rfl
  | succ n ih =>
    intro x h
    unfold walk_forward
    simp only []
    have h0 : eld (x + 1) > D0 := by simpa using h 0
    rw [if_pos h0]
    apply ih
    intro i
    have := h (i + 1)
    have e : x + 1 + ((i : ℚ) + 1) = x + (((i + 1 : Nat) : ℚ) + 1) := by push_cast; ring
    rw [e]; exact this

theorem walk_backward_stops (eld : ℚ → ℚ) (D0 : ℚ) :
    ∀ (j : Nat) (x : ℚ), (∀ i < j, eld (x - ((i : ℚ) + 1)) < D0) →
      ¬ eld (x - ((j : ℚ) + 1)) < D0 →
      ∀ n : Nat, walk_backward eld D0 n x
        = if n ≤ j then none else some (x - ((j : ℚ) + 1)) := by
  intro j
  induction j with
  | zero =>
    intro x _ hstop n
    cases n with
    | zero => rfl
    | succ n =>
      unfold walk_backward
      simp only []
      have hs : ¬ eld (x - 1) < D0 := by simpa using hstop
      rw [if_neg hs, if_neg (by omega)]
      simp
  | succ j ih =>
    intro x hgo hstop n
    cases n with
    | zero => rfl
    | succ n =>
      unfold walk_backward
      simp only []
      have h0 : eld (x - 1) < D0 := by simpa using hgo 0 (Nat.succ_pos j)
      rw [if_pos h0]
      have hgo' : ∀ i < j, eld (x - 1 - ((i : ℚ) + 1)) < D0 := by
        intro i hi
        have := hgo (i + 1) (by omega)
        have e : x - 1 - ((i : ℚ) + 1) = x - (((i + 1 : Nat) : ℚ) + 1) := by push_cast; ring
        rw [e]; exact this
      have hstop' : ¬ eld (x - 1 - ((j : ℚ) + 1)) < D0 := by
        have e : x - 1 - ((j : ℚ) + 1) = x - (((j + 1 : Nat) : ℚ) + 1) := by push_cast; ring
        rw [e]; exact hstop
      rw [ih (x - 1) hgo' hstop' n]
      by_cases hn : n ≤ j
      · rw [if_pos hn, if_pos (by omega)]
      · rw [if_neg hn, if_neg (by omega)]
        congr 1
        push_cast; ring

theorem walk_backward_never (eld : ℚ → ℚ) (D0 : ℚ) :
    ∀ (n : Nat) (x : ℚ), (∀ i : Nat, eld (x - ((i : ℚ) + 1)) < D0) →
      walk_backward eld D0 n x = none := by
  intro n
  induction n with
  | zero => intro x _; rfl
  | succ n ih =>
    intro x h
    unfold walk_backward
    simp only []
    have h0 : eld (x - 1) < D0 := by simpa using h 0
    rw [if_pos h0]
    apply ih
    intro i
    have := h (i + 1)
    have e : x - 1 - ((i : ℚ) + 1) = x - (((i + 1 : Nat) : ℚ) + 1) := by push_cast; ring
    rw [e]; exact this

end calendar

namespace calendar
open astronomy

theorem backward_search_unbounded (eld : ℚ → ℚ) (h0 : eld 0 = 100)
    (hx : ∀ x : ℚ, x ≠ 0 → eld x = 200) :
    ∀ n : Nat, estimate_new_moon_backward eld n 0 = none := by
  have h1 : (100 : ℚ) > ONE_DAY := by unfold ONE_DAY; norm_num
  have h2 : (0 : ℚ) - 100 * ONE_DAY_RVS = -(2953 / 360) := by
    unfold ONE_DAY_RVS ONE_DAY; norm_num
  have hne : ∀ i : Nat, (-(2953 / 360) : ℚ) + ((i : ℚ) + 1) ≠ 0 := by
    intro i h
    have h' : (360 : ℚ) * ((i : ℚ) + 1) = 2953 := by linarith
    have h'' : 360 * (i + 1) = 2953 := by exact_mod_cast h'
    omega
  intro n
  unfold estimate_new_moon_backward
  simp only []
  rw [h0, if_pos h1, h2, hx _ (by norm_num), if_pos (by norm_num)]
  apply walk_forward_never
  intro i
  rw [hx _ (hne i)]
  norm_num

/-- C20 (as stated, refuted): for the elongation that is 100 at `jd = 0` and 200
elsewhere, `estimate_new_moon_backward` from `jd = 0` takes the rate jump to
`-2953/360` and then walks forward one day at a time without ever stopping: it
has returned nothing after any number of steps. -/
theorem backward_search_never_stops :
    ((fun x : ℚ => if x = 0 then (100 : ℚ) else 200) 0 = 100 ∧ (100 : ℚ) > ONE_DAY
      ∧ (0 : ℚ) - 100 * ONE_DAY_RVS = -(2953 / 360))
    ∧ ∀ n : Nat,
        estimate_new_moon_backward (fun x : ℚ => if x = 0 then (100 : ℚ) else 200) n 0 = none := by
  have h1 : (100 : ℚ) > ONE_DAY := by unfold ONE_DAY; norm_num
  have h2 : (0 : ℚ) - 100 * ONE_DAY_RVS = -(2953 / 360) := by
    unfold ONE_DAY_RVS ONE_DAY; norm_num
  refine ⟨⟨by simp, h1, h2⟩, ?_⟩
  exact backward_search_unbounded _ (by simp) (fun x hx => by simp [hx])

/-- C20 (amended): for every elongation function and every starting `jd`,
`estimate_new_moon_forward` returns `jd + k` with `0 ≤ k ≤ 29`, and
`estimate_new_moon_backward` returns `jd - k` with `1 ≤ k ≤ 29` when the starting
elongation is at most `360 / 29.53`. When it is larger the rate jump to
`x = jd - D0 * ONE_DAY_RVS` is taken and the day-by-day walks have no step limit:
the walk stops after `j + 1` one-day steps exactly at the first step at which the
elongation no longer exceeds `D0` (walking forward, result `x + j`) or is no
longer below the elongation at `x` (walking backward, result `x - (j + 1)`), and
it never stops when there is no such step. -/
theorem coarse_search_windows (eld : ℚ → ℚ) (jd : ℚ) :
    (∃ k : Nat, k ≤ 29 ∧ estimate_new_moon_forward eld jd = jd + (k : ℚ))
    ∧ (¬ eld jd > ONE_DAY → ∀ n : Nat, ∃ k : Nat, 1 ≤ k ∧ k ≤ 29
        ∧ estimate_new_moon_backward eld n jd = some (jd - (k : ℚ)))
    ∧ (eld jd > ONE_DAY →
        (eld (jd - eld jd * ONE_DAY_RVS) = eld jd →
          ∀ n : Nat, estimate_new_moon_backward eld n jd = some (jd - eld jd * ONE_DAY_RVS))
        ∧ (eld (jd - eld jd * ONE_DAY_RVS) > eld jd →
          (∀ j : Nat, (∀ i < j, eld (jd - eld jd * ONE_DAY_RVS + ((i : ℚ) + 1)) > eld jd) →
            ¬ eld (jd - eld jd * ONE_DAY_RVS + ((j : ℚ) + 1)) > eld jd →
            ∀ n : Nat, estimate_new_moon_backward eld n jd
              = if n ≤ j then none else some (jd - eld jd * ONE_DAY_RVS + (j : ℚ)))
          ∧ ((∀ i : Nat, eld (jd - eld jd * ONE_DAY_RVS + ((i : ℚ) + 1)) > eld jd) →
            ∀ n : Nat, estimate_new_moon_backward eld n jd = none))
        ∧ (eld (jd - eld jd * ONE_DAY_RVS) < eld jd →
          (∀ j : Nat,
            (∀ i < j, eld (jd - eld jd * ONE_DAY_RVS - ((i : ℚ) + 1))
              < eld (jd - eld jd * ONE_DAY_RVS)) →
            ¬ eld (jd - eld jd * ONE_DAY_RVS - ((j : ℚ) + 1)) < eld (jd - eld jd * ONE_DAY_RVS) →
            ∀ n : Nat, estimate_new_moon_backward eld n jd
              = if n ≤ j then none else some (jd - eld jd * ONE_DAY_RVS - ((j : ℚ) + 1)))
          ∧ ((∀ i : Nat, eld (jd - eld jd * ONE_DAY_RVS - ((i : ℚ) + 1))
                < eld (jd - eld jd * ONE_DAY_RVS)) →
            ∀ n : Nat, estimate_new_moon_backward eld n jd = none))) := by
  refine ⟨?_, ?_, ?_⟩
  · unfold estimate_new_moon_forward
    obtain ⟨k, hk, he⟩ := forward_loop_range eld 29 jd (eld jd)
    exact ⟨k, hk, he⟩
  · intro h n
    unfold estimate_new_moon_backward
    simp only []
    rw [if_neg h]
    obtain ⟨k, hk, hk1, he⟩ := backward_loop_range eld 29 jd (eld jd)
    exact ⟨k, hk1 (by norm_num), hk, by rw [he]⟩
  · intro h
    refine ⟨?_, ?_, ?_⟩
    · intro he n
      unfold estimate_new_moon_backward
      simp only []
      rw [if_pos h, if_neg (by rw [he]; exact lt_irrefl _), if_neg (by rw [he]; exact lt_irrefl _)]
    · intro hgt
      refine ⟨?_, ?_⟩
      · intro j hgo hstop n
        unfold estimate_new_moon_backward
        simp only []
        rw [if_pos h, if_pos hgt]
        exact walk_forward_stops eld (eld jd) j _ hgo hstop n
      · intro hall n
        unfold estimate_new_moon_backward
        simp only []
        rw [if_pos h, if_pos hgt]
        exact walk_forward_never eld (eld jd) n _ hall
    · intro hlt
      refine ⟨?_, ?_⟩
      · intro j hgo hstop n
        unfold estimate_new_moon_backward
        simp only []
        rw [if_pos h, if_neg (not_lt.mpr (le_of_lt hlt)), if_pos hlt]
        exact walk_backward_stops eld _ j _ hgo hstop n
      · intro hall n
        unfold estimate_new_moon_backward
        simp only []
        rw [if_pos h, if_neg (not_lt.mpr (le_of_lt hlt)), if_pos hlt]
        exact walk_backward_never eld _ n _ hall

/-- Instance of C20 (amended) for the elongation `12 (x - 10)` wrapped at a new
moon at `x = 10`: the forward search from `jd = 0` returns `0 + 9`, the backward
search from `jd = 10.5` (elongation 6, below `360 / 29.53`) returns `10.5 - 1`. -/
theorem coarse_search_windows_witness :
    (estimate_new_moon_forward (fun x => if x < 10 then 12 * (x - 10) + 360 else 12 * (x - 10)) 0
        = 0 + ((9 : Nat) : ℚ)
      ∧ estimate_new_moon_backward
          (fun x => if x < 10 then 12 * (x - 10) + 360 else 12 * (x - 10)) 5 (21 / 2)
        = some (21 / 2 - ((1 : Nat) : ℚ)))
    ∧ (∃ k : Nat, k ≤ 29
        ∧ estimate_new_moon_forward
            (fun x => if x < 10 then 12 * (x - 10) + 360 else 12 * (x - 10)) 0 = 0 + (k : ℚ))
    ∧ (∃ k : Nat, 1 ≤ k ∧ k ≤ 29
        ∧ estimate_new_moon_backward
            (fun x => if x < 10 then 12 * (x - 10) + 360 else 12 * (x - 10)) 5 (21 / 2)
          = some (21 / 2 - (k : ℚ))) :=
  ⟨by decide!,
   (coarse_search_windows (fun x => if x < 10 then 12 * (x - 10) + 360 else 12 * (x - 10)) 0).1,
   (coarse_search_windows (fun x => if x < 10 then 12 * (x - 10) + 360 else 12 * (x - 10))
      (21 / 2)).2.1 (by decide!) 5⟩

end calendar

/-! ### Claims on the agreement of the day counts and on the cycle of sixty -/

namespace astronomy
open Gregorian

/-- C24: for every valid Gregorian civil date-time from 1582-10-16 00:00:00
through 9999-12-31 23:59:59 with a whole number of seconds, each of the six
fields of `daytime_from_julian_day (make_julian_day y m d h min s)` is the field
given: year, month, day, hour, minute and second. -/
theorem roundtrip_fields_1582_to_9999 (y m d h mi s : ℤ) (hv : valid_date y m d)
    (ht : valid_time h mi s) (h16 : from_1582_10_16 y m d) (_hy : y ≤ 9999) :
    (daytime_from_julian_day (make_julian_day y m d h mi (s : ℚ))).year = y
      ∧ (daytime_from_julian_day (make_julian_day y m d h mi (s : ℚ))).month = m
      ∧ (daytime_from_julian_day (make_julian_day y m d h mi (s : ℚ))).day = d
      ∧ (daytime_from_julian_day (make_julian_day y m d h mi (s : ℚ))).hour = h
      ∧ (daytime_from_julian_day (make_julian_day y m d h mi (s : ℚ))).minute = mi
      ∧ (daytime_from_julian_day (make_julian_day y m d h mi (s : ℚ))).second = (s : ℚ) := by
  rw [roundtrip_from_civil y m d h mi s hv ht h16]
  exact ⟨rfl, rfl, rfl, rfl, rfl, rfl⟩

/-- Witness of C24 at the two ends of the range, 1582-10-16 00:00:00 and
9999-12-31 23:59:59. -/
theorem roundtrip_fields_1582_to_9999_witness :
    ((valid_date 1582 10 16 ∧ valid_time 0 0 0 ∧ from_1582_10_16 1582 10 16
        ∧ (1582 : ℤ) ≤ 9999)
      ∧ (daytime_from_julian_day (make_julian_day 1582 10 16 0 0 ((0 : ℤ) : ℚ))).day = 16)
    ∧ ((valid_date 9999 12 31 ∧ valid_time 23 59 59 ∧ from_1582_10_16 9999 12 31
        ∧ (9999 : ℤ) ≤ 9999)
      ∧ (daytime_from_julian_day (make_julian_day 9999 12 31 23 59 ((59 : ℤ) : ℚ))).second
          = ((59 : ℤ) : ℚ)) :=
  ⟨⟨by decide, (roundtrip_fields_1582_to_9999 1582 10 16 0 0 0 (by decide) (by decide)
      (by decide) (by decide)).2.2.1⟩,
   ⟨by decide, (roundtrip_fields_1582_to_9999 9999 12 31 23 59 59 (by decide) (by decide)
      (by decide) (by decide)).2.2.2.2.2⟩⟩

end astronomy

namespace calendar
open astronomy Gregorian

/-- C25: the two day counts agree. For every valid Gregorian date with
`year ≥ 1`, `make_julian_day y m d 0 0 0 = days_offset {y, m, d} + 1721118.5`. -/
theorem make_julian_day_eq_days_offset (y m d : ℤ) (hv : valid_date y m d) (hy : 1 ≤ y) :
    make_julian_day y m d 0 0 0 = (days_offset (civil_date y m d) : ℚ) + 1721118.5 := by
  have hY : 0 ≤ march_year y m := by unfold march_year; split <;> omega
  have h := days_offset_eq_day_number y m d hv.1 hv.2.1 hy
  rw [make_julian_day_eq y m d 0 0 0 hY, ← h]
  push_cast
  ring

/-- Witness of C25 at 2000-01-01, Julian Day 2451544.5, day offset 730426. -/
theorem make_julian_day_eq_days_offset_witness :
    (valid_date 2000 1 1 ∧ (1 : ℤ) ≤ 2000 ∧ days_offset (civil_date 2000 1 1) = 730426)
    ∧ make_julian_day 2000 1 1 0 0 0 = (days_offset (civil_date 2000 1 1) : ℚ) + 1721118.5 :=
  ⟨by decide, make_julian_day_eq_days_offset 2000 1 1 (by decide) (by decide)⟩

theorem land_one_march_month (M : ℤ) (h3 : 3 ≤ M) (h14 : M ≤ 14) :
    Int.land (M - 1) 1 = (M - 1) % 2 := by
  interval_cases M <;> decide

theorem cstb_index_eq (y m d : ℤ) (hv : valid_date y m d) (hy : 1 ≤ y) :
    cstb_index (civil_date y m d) = (days_offset (civil_date y m d) + 8) % 60 := by
  obtain ⟨hm1, hm2, hd1, _⟩ := hv
  have e1 : (if m = 1 ∨ m = 2 then y - 1 else y) = (if m < 3 then y - 1 else y) := by
    split <;> split <;> omega
  have e2 : (if m = 1 ∨ m = 2 then m + 12 else m) = (if m < 3 then m + 12 else m) := by
    split <;> split <;> omega
  unfold cstb_index days_offset civil_date
  simp only []
  rw [e1, e2]
  generalize hY : (if m < 3 then y - 1 else y) = Y
  generalize hM : (if m < 3 then m + 12 else m) = M
  have hY0 : 0 ≤ Y := by rw [← hY]; split <;> omega
  have hM3 : 3 ≤ M := by rw [← hM]; split <;> omega
  have hM14 : M ≤ 14 := by rw [← hM]; split <;> omega
  rw [land_one_march_month M hM3 hM14, shift_right_two, shift_right_five,
    Int.tdiv_eq_ediv hY0 (by norm_num), Int.tdiv_eq_ediv hY0 (by norm_num)]
  have hpos : 0 ≤ Y * 5 + Y / 4 - Y / 100 + Y / 400 + (M - 1) % 2 * 30
      + (M - 2) * 19 / 32 + d + 8 := by omega
  rw [Int.tmod_eq_emod hpos (by norm_num)]
  omega

/-- C30: for every valid Gregorian date with `year ≥ 1` the index `n` of
`print_daytime_cstb` into the cycle of sixty equals `(days_offset dt + 8) mod 60`,
lies in `0..59`, so that `n % 10` is below 10 and `n % 12` below 12, and the
index of the next civil day is `(n + 1) mod 60`; for 2000-01-01 it is 54. -/
theorem cstb_index_spec (y m d : ℤ) (hv : valid_date y m d) (hy : 1 ≤ y) :
    cstb_index (civil_date y m d) = (days_offset (civil_date y m d) + 8) % 60
      ∧ (0 ≤ cstb_index (civil_date y m d) ∧ cstb_index (civil_date y m d) ≤ 59)
      ∧ (0 ≤ Int.tmod (cstb_index (civil_date y m d)) 10
          ∧ Int.tmod (cstb_index (civil_date y m d)) 10 < 10)
      ∧ (0 ≤ Int.tmod (cstb_index (civil_date y m d)) 12
          ∧ Int.tmod (cstb_index (civil_date y m d)) 12 < 12)
      ∧ cstb_index (civil_date (next_day y m d).1 (next_day y m d).2.1 (next_day y m d).2.2)
          = (cstb_index (civil_date y m d) + 1) % 60
      ∧ cstb_index (civil_date 2000 1 1) = 54 := by
  have h1 := cstb_index_eq y m d hv hy
  obtain ⟨hv', hy'⟩ := next_day_valid y m d hv hy
  have h2 := cstb_index_eq _ _ _ hv' hy'
  have a := days_offset_eq_day_number _ _ (next_day y m d).2.2 hv'.1 hv'.2.1 hy'
  have b := days_offset_eq_day_number y m d hv.1 hv.2.1 hy
  have c := day_number_next_day y m d hv
  have hn0 : 0 ≤ cstb_index (civil_date y m d) := by rw [h1]; omega
  have hn59 : cstb_index (civil_date y m d) ≤ 59 := by rw [h1]; omega
  refine ⟨h1, ⟨hn0, hn59⟩, ?_, ?_, ?_, by decide⟩
  · rw [Int.tmod_eq_emod hn0 (by norm_num)]; omega
  · rw [Int.tmod_eq_emod hn0 (by norm_num)]; omega
  · rw [h2, h1]; omega

/-- Witness of C30 at 2024-02-29 (index 59) followed by 2024-03-01 (index 0). -/
theorem cstb_index_spec_witness :
    (valid_date 2024 2 29 ∧ (1 : ℤ) ≤ 2024 ∧ next_day 2024 2 29 = (2024, 3, 1))
    ∧ cstb_index (civil_date 2024 2 29) = 59
    ∧ cstb_index (civil_date (next_day 2024 2 29).1 (next_day 2024 2 29).2.1
        (next_day 2024 2 29).2.2) = (cstb_index (civil_date 2024 2 29) + 1) % 60 :=
  ⟨by decide, by decide, (cstb_index_spec 2024 2 29 (by decide) (by decide)).2.2.2.2.1⟩

end calendar

/-! ### Claims on the forward search, the leap month and the display window -/

namespace calendar
open astronomy

theorem forward_loop_spec (eld : ℚ → ℚ) :
    ∀ (n : Nat) (jd : ℚ), ∃ k : Nat, k ≤ n
      ∧ forward_loop eld n jd (eld jd) = jd + (k : ℚ)
      ∧ (∀ i : Nat, i < k → eld (jd + (i : ℚ)) ≤ eld (jd + (i : ℚ) + 1))
      ∧ (k < n → eld (jd + (k : ℚ) + 1) < eld (jd + (k : ℚ))) := by
  intro n
  induction n with
  | zero =>
    intro jd
    exact ⟨0, le_refl 0, by simp [forward_loop], fun i hi => absurd hi (Nat.not_lt_zero i),
      fun h => absurd h (Nat.lt_irrefl 0)⟩
  | succ n ih =>
    intro jd
    unfold forward_loop
    simp only []
    by_cases h : eld (jd + 1) < eld jd
    · rw [if_pos h]
      refine ⟨0, Nat.zero_le _, by push_cast; ring, fun i hi => absurd hi (Nat.not_lt_zero i), ?_⟩
      intro _
      simpa using h
    · rw [if_neg h]
      obtain ⟨k, hk, he, hinc, hstop⟩ := ih (jd + 1)
      refine ⟨k + 1, by omega, by rw [he]; push_cast; ring, ?_, ?_⟩
      · intro i hi
        cases i with
        | zero => simpa using not_lt.mp h
        | succ i =>
          have := hinc i (by omega)
          have e : jd + ((i + 1 : Nat) : ℚ) = jd + 1 + (i : ℚ) := by push_cast; ring
          rw [e]; exact this
      · intro hlt
        have := hstop (by omega)
        have e : jd + ((k + 1 : Nat) : ℚ) = jd + 1 + (k : ℚ) := by push_cast; ring
        rw [e]; exact this

/-- C21 (as stated, refuted): for the elongation `100 - x`, which decreases from
every day to the next, `estimate_new_moon_forward` does not advance at all and
returns the starting day; for the elongation `x`, which never decreases, it
does not stop at the first day but advances through all 29 steps. -/
theorem forward_search_stops_on_decrease :
    ((fun x : ℚ => 100 - x) (0 + 1) < (fun x : ℚ => 100 - x) 0
      ∧ estimate_new_moon_forward (fun x => 100 - x) 0 = 0)
    ∧ (¬ (fun x : ℚ => x) (0 + 1) < (fun x : ℚ => x) 0
      ∧ estimate_new_moon_forward (fun x => x) 0 = 29) := by
  decide!

/-- C21 (amended): `estimate_new_moon_forward` advances one whole day at a time
while the elongation does not decrease from one day to the next
(`eld (jd + i + 1) ≥ eld (jd + i)`), for at most 29 days; it returns the first
day `jd + k` whose next day has a smaller elongation
(`eld (jd + k + 1) < eld (jd + k)`), or `jd + 29` when there is none among the
first 29. -/
theorem estimate_new_moon_forward_spec (eld : ℚ → ℚ) (jd : ℚ) :
    ∃ k : Nat, k ≤ 29
      ∧ estimate_new_moon_forward eld jd = jd + (k : ℚ)
      ∧ (∀ i : Nat, i < k → eld (jd + (i : ℚ)) ≤ eld (jd + (i : ℚ) + 1))
      ∧ (k < 29 → eld (jd + (k : ℚ) + 1) < eld (jd + (k : ℚ))) :=
  forward_loop_spec eld 29 jd

theorem no_even_slot_between (st : Nat → Int) (lo hi : Int) (a : Nat)
    (hmono : ∀ s t : Nat, s ≤ t → st s ≤ st t)
    (hbelow : st a < lo) (habove : hi ≤ st (a + 2)) :
    ¬ ∃ s : Nat, s ≤ 50 ∧ s % 2 = 0 ∧ a % 2 = 0 ∧ lo ≤ st s ∧ st s < hi := by
  rintro ⟨s, _, hs, ha, h1, h2⟩
  rcases Nat.lt_or_ge a s with hlt | hge
  · have : a + 2 ≤ s := by omega
    have := hmono _ _ this
    omega
  · have := hmono _ _ hge
    omega

/-- C26: let the solar-term offsets be non-decreasing in their index. If the
leap search flags the month `L = nm_idx + i` with `i ≥ 1` (found at the iteration
`i` of the first branch, or at the iteration `i - 12` of the second branch, which
never breaks at its iteration 0), then the flagged month contains no principal
term: no even slot `s` in `0..50` has
`new_moons[L].ofst ≤ solar_terms[s].ofst < new_moons[L+1].ofst`. -/
theorem flagged_month_has_no_principal_term (solar_terms new_moons : Nat → Int)
    (nm_idx i : Nat) (hmono : ∀ s t : Nat, s ≤ t → solar_terms s ≤ solar_terms t)
    (hi : 1 ≤ i) (hflag : leap_search solar_terms new_moons nm_idx = nm_idx + i) :
    ¬ ∃ s : Nat, s ≤ 50 ∧ s % 2 = 0
        ∧ new_moons (nm_idx + i) ≤ solar_terms s
        ∧ solar_terms s < new_moons (nm_idx + i + 1) := by
  unfold leap_search at hflag
  by_cases h1 : solar_terms 26 ≥ new_moons (nm_idx + 13)
  · rw [if_pos h1] at hflag
    rcases leap_loop_first_spec solar_terms new_moons nm_idx 13 0 2 with
      ⟨h0, _⟩ | ⟨j, _, hval, hcond, hmin⟩
    · omega
    · have hj : j = i := by omega
      subst hj
      have hprev := hmin (j - 1) (by omega)
      have e1 : nm_idx + (0 + (j - 1)) + 1 = nm_idx + j := by omega
      have e2 : nm_idx + (0 + j) + 1 = nm_idx + j + 1 := by omega
      have e3 : 2 + 2 * j = 2 + 2 * (j - 1) + 2 := by omega
      rw [e1] at hprev
      rw [e2, e3] at hcond
      intro ⟨s, hs50, hs2, hlo, hhi⟩
      exact no_even_slot_between solar_terms _ _ (2 + 2 * (j - 1)) hmono (not_le.mp hprev) hcond
        ⟨s, hs50, hs2, by omega, hlo, hhi⟩
  · rw [if_neg h1] at hflag
    by_cases h2 : solar_terms 50 ≥ new_moons (nm_idx + 25)
    · rw [if_pos h2] at hflag
      rcases leap_loop_second_spec solar_terms new_moons nm_idx 13 0 26 with
        ⟨h0, _⟩ | ⟨j, _, hval, hcond, hmin⟩
      · omega
      · have hj1 : 1 ≤ j := by
          rcases Nat.eq_zero_or_pos j with hz | hp
          · subst hz
            exact absurd hcond h1
          · exact hp
        have hj : i = j + 12 := by omega
        subst hj
        have hprev := hmin (j - 1) (by omega)
        have e1 : nm_idx + (0 + (j - 1)) + 13 = nm_idx + (j + 12) := by omega
        have e2 : nm_idx + (0 + j) + 13 = nm_idx + (j + 12) + 1 := by omega
        have e3 : 26 + 2 * j = 26 + 2 * (j - 1) + 2 := by omega
        rw [e1] at hprev
        rw [e2, e3] at hcond
        intro ⟨s, hs50, hs2, hlo, hhi⟩
        exact no_even_slot_between solar_terms _ _ (26 + 2 * (j - 1)) hmono (not_le.mp hprev)
          hcond ⟨s, hs50, hs2, by omega, hlo, hhi⟩
    · rw [if_neg h2] at hflag
      omega

/-- Witness of C26: offsets `solar_terms[s] = 15 s + 20`, `new_moons[i] = 29 i`
with `nm_idx = 1`; the search flags the month `9 = 1 + 8`, from day 261 to day
290, and the slots 16 and 18 fall on the days 260 and 290. -/
theorem flagged_month_has_no_principal_term_witness :
    ((∀ s t : Nat, s ≤ t → (fun s : Nat => 15 * (s : Int) + 20) s
          ≤ (fun s : Nat => 15 * (s : Int) + 20) t)
      ∧ 1 ≤ 8
      ∧ leap_search (fun s => 15 * (s : Int) + 20) (fun i => 29 * (i : Int)) 1 = 1 + 8)
    ∧ ¬ ∃ s : Nat, s ≤ 50 ∧ s % 2 = 0
        ∧ (fun i : Nat => 29 * (i : Int)) (1 + 8) ≤ (fun s : Nat => 15 * (s : Int) + 20) s
        ∧ (fun s : Nat => 15 * (s : Int) + 20) s < (fun i : Nat => 29 * (i : Int)) (1 + 8 + 1) :=
  ⟨⟨fun s t h => by simp only []; omega, by decide, by decide⟩,
    flagged_month_has_no_principal_term (fun s => 15 * (s : Int) + 20) (fun i => 29 * (i : Int))
      1 8 (fun s t h => by simp only []; omega) (by decide) (by decide)⟩

/-- C27: display window of `calc_chn_cal` ("by year"). For `leap = 0` or
`1 ≤ leap ≤ 25` and a starting `nm_idx` of 0 or 1, the indices printed are the
contiguous range from `first` to `first + count - 1`, with `first = 4` for
`1 ≤ leap ≤ 3` and `first = 3` otherwise; the first printed month has ordinal 1
and is not flagged leap, the last has ordinal 12, and `count` is 13 when the
leap month lies in the range and 12 otherwise. -/
theorem display_window (leap nm_idx : Nat) (hleap : leap ≤ 25) (hnm : nm_idx ≤ 1) :
    ∃ first count : Nat,
      printed_months leap nm_idx = List.range' first count
        ∧ first = (if 1 ≤ leap ∧ leap ≤ 3 then 4 else 3)
        ∧ readable leap first = 1
        ∧ ¬ is_flagged_leap leap first
        ∧ readable leap (first + count - 1) = 12
        ∧ count = (if leap ≠ 0 ∧ first ≤ leap ∧ leap ≤ first + count - 1 then 13 else 12) := by
  have key : ∀ l < 26, ∀ k < 2,
      printed_months l k = List.range' (if 1 ≤ l ∧ l ≤ 3 then 4 else 3)
          (if 4 ≤ l ∧ l ≤ 15 then 13 else 12)
        ∧ readable l (if 1 ≤ l ∧ l ≤ 3 then 4 else 3) = 1
        ∧ ¬ is_flagged_leap l (if 1 ≤ l ∧ l ≤ 3 then 4 else 3)
        ∧ readable l ((if 1 ≤ l ∧ l ≤ 3 then 4 else 3)
            + (if 4 ≤ l ∧ l ≤ 15 then 13 else 12) - 1) = 12
        ∧ (if 4 ≤ l ∧ l ≤ 15 then 13 else 12)
            = (if l ≠ 0 ∧ (if 1 ≤ l ∧ l ≤ 3 then 4 else 3) ≤ l
                ∧ l ≤ (if 1 ≤ l ∧ l ≤ 3 then 4 else 3)
                    + (if 4 ≤ l ∧ l ≤ 15 then 13 else 12) - 1 then 13 else 12) := by
    decide
  obtain ⟨h1, h2, h3, h4, h5⟩ := key leap (by omega) nm_idx (by omega)
  exact ⟨_, _, h1, rfl, h2, h3, h4, h5⟩

/-- Witness of C27 for `leap = 9` from `nm_idx = 1`: thirteen months, the
indices 3 to 15. -/
theorem display_window_witness :
    ((9 : Nat) ≤ 25 ∧ (1 : Nat) ≤ 1
      ∧ printed_months 9 1 = [3, 4, 5, 6, 7, 8, 9, 10, 11, 12, 13, 14, 15])
    ∧ ∃ first count : Nat,
      printed_months 9 1 = List.range' first count
        ∧ first = (if 1 ≤ 9 ∧ 9 ≤ 3 then 4 else 3)
        ∧ readable 9 first = 1
        ∧ ¬ is_flagged_leap 9 first
        ∧ readable 9 (first + count - 1) = 12
        ∧ count = (if 9 ≠ 0 ∧ first ≤ 9 ∧ 9 ≤ first + count - 1 then 13 else 12) :=
  ⟨by decide, display_window 9 1 (by decide) (by decide)⟩

end calendar

/-! ### Claims on the angle wrapping -/

namespace astronomy
namespace detail

theorem add_while_negative_spec (P : ℚ) (N : Nat) :
    ∀ a : ℚ, -a ≤ (N : ℚ) * P →
      ∃ r : ℚ, (∀ n : Nat, N + 1 ≤ n → add_while_negative P n a = some r)
        ∧ 0 ≤ r ∧ (0 ≤ a → r = a) ∧ (a < 0 → r < P) ∧ ∃ k : Nat, r = a + (k : ℚ) * P := by
  induction N with
  | zero =>
    intro a ha
    have ha0 : 0 ≤ a := by simpa using ha
    refine ⟨a, ?_, ha0, fun _ => rfl, fun h => absurd ha0 (not_le.mpr h), 0, by simp⟩
    intro n hn
    obtain ⟨n', rfl⟩ : ∃ n', n = n' + 1 := ⟨n - 1, by omega⟩
    unfold add_while_negative
    rw [if_neg (not_lt.mpr ha0)]
  | succ N ih =>
    intro a ha
    by_cases ha0 : 0 ≤ a
    · refine ⟨a, ?_, ha0, fun _ => rfl, fun h => absurd ha0 (not_le.mpr h), 0, by simp⟩
      intro n hn
      obtain ⟨n', rfl⟩ : ∃ n', n = n' + 1 := ⟨n - 1, by omega⟩
      unfold add_while_negative
      rw [if_neg (not_lt.mpr ha0)]
    · have hneg : a < 0 := not_le.mp ha0
      have ha' : -(a + P) ≤ (N : ℚ) * P := by
        push_cast at ha
        linarith
      obtain ⟨r, hr, hr0, hrfix, hrlt, k, hk⟩ := ih (a + P) ha'
      refine ⟨r, ?_, hr0, fun h => absurd h ha0, ?_, k + 1, by rw [hk]; push_cast; ring⟩
      · intro n hn
        obtain ⟨n', rfl⟩ : ∃ n', n = n' + 1 := ⟨n - 1, by omega⟩
        unfold add_while_negative
        rw [if_pos hneg]
        exact hr n' (by omega)
      · intro _
        by_cases h : 0 ≤ a + P
        · rw [hrfix h]; linarith
        · exact hrlt (not_le.mp h)

theorem sub_while_above_spec (P : ℚ) (N : Nat) :
    ∀ a : ℚ, 0 ≤ a → a ≤ ((N : ℚ) + 1) * P →
      ∃ r : ℚ, (∀ n : Nat, N + 1 ≤ n → sub_while_above P n a = some r)
        ∧ 0 ≤ r ∧ r ≤ P ∧ (a ≤ P → r = a) ∧ ∃ k : Nat, r = a - (k : ℚ) * P := by
  induction N with
  | zero =>
    intro a ha0 ha
    have haP : a ≤ P := by simpa using ha
    refine ⟨a, ?_, ha0, haP, fun _ => rfl, 0, by simp⟩
    intro n hn
    obtain ⟨n', rfl⟩ : ∃ n', n = n' + 1 := ⟨n - 1, by omega⟩
    unfold sub_while_above
    rw [if_neg (not_lt.mpr haP)]
  | succ N ih =>
    intro a ha0 ha
    by_cases haP : a ≤ P
    · refine ⟨a, ?_, ha0, haP, fun _ => rfl, 0, by simp⟩
      intro n hn
      obtain ⟨n', rfl⟩ : ∃ n', n = n' + 1 := ⟨n - 1, by omega⟩
      unfold sub_while_above
      rw [if_neg (not_lt.mpr haP)]
    · have hgt : a > P := not_le.mp haP
      have ha' : a - P ≤ ((N : ℚ) + 1) * P := by
        push_cast at ha
        linarith
      obtain ⟨r, hr, hr0, hrP, _, k, hk⟩ := ih (a - P) (by linarith) ha'
      refine ⟨r, ?_, hr0, hrP, fun h => absurd h haP, k + 1, by rw [hk]; push_cast; ring⟩
      intro n hn
      obtain ⟨n', rfl⟩ : ∃ n', n = n' + 1 := ⟨n - 1, by omega⟩
      unfold sub_while_above
      rw [if_pos hgt]
      exact hr n' (by omega)

theorem wrap_loops_spec (P : ℚ) (hP : 0 < P) (a : ℚ) :
    ∃ (n0 : Nat) (r : ℚ),
      (∀ n : Nat, n0 ≤ n → (add_while_negative P n a).bind (sub_while_above P n) = some r)
        ∧ 0 ≤ r ∧ r ≤ P ∧ (0 ≤ a → a ≤ P → r = a) ∧ ∃ k : ℤ, r = a + (k : ℚ) * P := by
  obtain ⟨N1, hN1⟩ := exists_nat_ge (-a / P)
  have h1 : -a ≤ (N1 : ℚ) * P := by
    rw [div_le_iff₀ hP] at hN1; exact hN1
  obtain ⟨r1, hr1, hr10, hr1fix, _, k1, hk1⟩ := add_while_negative_spec P N1 a h1
  obtain ⟨N2, hN2⟩ := exists_nat_ge (r1 / P)
  have h2 : r1 ≤ ((N2 : ℚ) + 1) * P := by
    rw [div_le_iff₀ hP] at hN2; nlinarith
  obtain ⟨r, hr, hr0, hrP, hrfix, k2, hk2⟩ := sub_while_above_spec P N2 r1 hr10 h2
  refine ⟨max (N1 + 1) (N2 + 1), r, ?_, hr0, hrP, ?_, (k1 : ℤ) - (k2 : ℤ), ?_⟩
  · intro n hn
    rw [hr1 n (le_trans (le_max_left _ _) hn)]
    exact hr n (le_trans (le_max_right _ _) hn)
  · intro ha0 haP
    rw [hrfix (by rw [hr1fix ha0]; exact haP), hr1fix ha0]
  · rw [hk2, hk1]; push_cast; ring

end detail
end astronomy

namespace calendar
open astronomy

/-- C22 (as stated, refuted): the value 360 is not below 360, and `clamp_degrees`
returns 360 for 360 and for 720; with `M_PI = 3` the bound `PI_2` is 6 and
`clamp_randians` returns 6 for 6, which is not below `PI_2`. -/
theorem clamp_returns_upper_bound :
    (clamp_degrees 1 360 = some 360 ∧ clamp_degrees 2 720 = some 360 ∧ ¬ (360 : ℚ) < 360)
    ∧ (detail.clamp_randians ⟨fun _ => 1, fun _ => 0, 3⟩ 1 6 = some 6
      ∧ ¬ (6 : ℚ) < detail.PI_2 ⟨fun _ => 1, fun _ => 0, 3⟩) := by
  decide!

/-- C22 (amended): for a positive `M_PI` and every `a`, the two loops of
`clamp_randians a` end, after a number of tests that depends on `a`, and the
value returned lies in the closed interval `[0, PI_2]` and differs from `a` by a
whole multiple of `PI_2`; a value already in `[0, PI_2]`, `PI_2` itself included,
is returned unchanged. The same holds for `clamp_degrees d` with 360. -/
theorem clamp_closed_interval (m : cmath) (hpi : 0 < m.M_PI) :
    (∀ a : ℚ, ∃ (n0 : Nat) (r : ℚ),
      (∀ n : Nat, n0 ≤ n → detail.clamp_randians m n a = some r)
        ∧ 0 ≤ r ∧ r ≤ detail.PI_2 m ∧ (0 ≤ a → a ≤ detail.PI_2 m → r = a)
        ∧ ∃ k : ℤ, r = a + (k : ℚ) * detail.PI_2 m)
    ∧ (∀ d : ℚ, ∃ (n0 : Nat) (r : ℚ),
      (∀ n : Nat, n0 ≤ n → clamp_degrees n d = some r)
        ∧ 0 ≤ r ∧ r ≤ 360 ∧ (0 ≤ d → d ≤ 360 → r = d)
        ∧ ∃ k : ℤ, r = d + (k : ℚ) * 360) := by
  have hP : 0 < detail.PI_2 m := by unfold detail.PI_2; linarith
  exact ⟨fun a => detail.wrap_loops_spec (detail.PI_2 m) hP a,
    fun d => detail.wrap_loops_spec 360 (by norm_num) d⟩

/-- Witness of C22 (amended) with `M_PI = 3`: `clamp_randians (-7) = 5` and
`clamp_degrees (-725) = 355`. -/
theorem clamp_closed_interval_witness :
    ((0 : ℚ) < (⟨fun _ => 1, fun _ => 0, 3⟩ : cmath).M_PI
      ∧ detail.clamp_randians ⟨fun _ => 1, fun _ => 0, 3⟩ 3 (-7) = some 5
      ∧ clamp_degrees 4 (-725) = some 355)
    ∧ (∃ (n0 : Nat) (r : ℚ),
      (∀ n : Nat, n0 ≤ n → detail.clamp_randians ⟨fun _ => 1, fun _ => 0, 3⟩ n (-7) = some r)
        ∧ 0 ≤ r ∧ r ≤ detail.PI_2 ⟨fun _ => 1, fun _ => 0, 3⟩
        ∧ (0 ≤ (-7 : ℚ) → (-7 : ℚ) ≤ detail.PI_2 ⟨fun _ => 1, fun _ => 0, 3⟩ → r = -7)
        ∧ ∃ k : ℤ, r = -7 + (k : ℚ) * detail.PI_2 ⟨fun _ => 1, fun _ => 0, 3⟩) :=
  ⟨by decide!, (clamp_closed_interval ⟨fun _ => 1, fun _ => 0, 3⟩ (by decide!)).1 (-7)⟩

end calendar

/-! ### Claims on the nutation and on the latitude of the Sun -/

namespace astronomy
namespace impl

/-- C23 (as stated, refuted): no two positions receive different nutation
increments at the same time `t`; for instance, with `sin x = x` and `t = 36525`,
the longitudes 1 and 2 receive the same increment, which is not zero. -/
theorem nutation_same_for_all_longitudes :
    (¬ ∃ (m : cmath) (t : REAL) (p q : ecliptic_position_t),
        nutation_longitude m t p ≠ nutation_longitude m t q)
    ∧ nutation_longitude ⟨fun _ => 1, fun x => x, 3⟩ 36525 ⟨1, 0⟩
        = nutation_longitude ⟨fun _ => 1, fun x => x, 3⟩ 36525 ⟨2, 0⟩
    ∧ nutation_longitude ⟨fun _ => 1, fun x => x, 3⟩ 36525 ⟨1, 0⟩ ≠ 0 := by
  refine ⟨?_, rfl, by decide!⟩
  rintro ⟨m, t, p, q, h⟩
  exact h rfl

/-- C23 (amended): in `adjust_sun_aberration_and_nutation` the nutation
increment is a function of the time `t` alone. Whenever the function returns,
the aberration-corrected longitude was wrapped to some `lon1`, the longitude
returned is the wrapped sum of `lon1` and the increment, the increment is the
one any other position `q` receives at the same `t`, and the latitude is left
as it was. -/
theorem nutation_increment_of_time_only :
    (∀ (m : cmath) (n : Nat) (t : REAL) (pos q r : ecliptic_position_t),
      adjust_sun_aberration_and_nutation m n t pos = some r →
        ∃ lon1 : REAL, detail.clamp_randians m n (aberration_longitude m t pos) = some lon1
          ∧ detail.clamp_randians m n (lon1 + nutation_longitude m t q) = some r.longitude
          ∧ r.latitude = pos.latitude)
    ∧ adjust_sun_aberration_and_nutation ⟨fun _ => 1, fun x => x, 3⟩ 3 36525 ⟨1, 0⟩
        = some ⟨1 + nutation_longitude ⟨fun _ => 1, fun x => x, 3⟩ 36525 ⟨2, 0⟩
            - 20.49552 * (3 / 180) / 3600 * (1 - (0.016708634 - 0.000042037 - 0.0000001267)), 0⟩ := by
  refine ⟨?_, by decide!⟩
  intro m n t pos q r h
  unfold adjust_sun_aberration_and_nutation at h
  cases h1 : detail.clamp_randians m n (aberration_longitude m t pos) with
  | none => rw [h1] at h; simp at h
  | some lon1 =>
    rw [h1] at h
    simp only [Option.some_bind, Option.map_eq_some'] at h
    obtain ⟨lon2, h2, hr⟩ := h
    refine ⟨lon1, rfl, ?_, ?_⟩
    · rw [← hr]; exact h2
    · rw [← hr]

end impl
end astronomy

namespace astronomy
namespace impl

theorem vsop87_fold_abs_le (m : cmath) (hcos : ∀ x : ℚ, |m.cos x| ≤ 1) (t : ℚ)
    (c : List vsop87_coefficient_t) :
    ∀ v : ℚ, |c.foldl (fun v e => v + e.a * m.cos (e.b + e.c * t)) v| ≤ |v| + amplitude_sum c := by
  induction c with
  | nil => intro v; simp [amplitude_sum]
  | cons e c ih =>
    intro v
    rw [List.foldl_cons]
    have h1 := ih (v + e.a * m.cos (e.b + e.c * t))
    have h2 : |v + e.a * m.cos (e.b + e.c * t)| ≤ |v| + |e.a| := by
      have h3 : |e.a * m.cos (e.b + e.c * t)| ≤ |e.a| := by
        rw [abs_mul]
        exact mul_le_of_le_one_right (abs_nonneg _) (hcos _)
      exact le_trans (abs_add _ _) (by linarith)
    have h4 : amplitude_sum (e :: c) = |e.a| + amplitude_sum c := by
      simp [amplitude_sum]
    rw [h4]
    unfold amplitude_sum at h1 ⊢
    linarith

theorem vsop87_abs_le (m : cmath) (hcos : ∀ x : ℚ, |m.cos x| ≤ 1) (t : ℚ)
    (c : List vsop87_coefficient_t) :
    |detail.vsop87_periodic_terms m c t| ≤ amplitude_sum c := by
  have := vsop87_fold_abs_le m hcos t c 0
  simpa [detail.vsop87_periodic_terms] using this

theorem amplitude_sum_E20 : amplitude_sum E20 = 623451 := by decide!

theorem amplitude_sum_E21 : amplitude_sum E21 = 15207 := by decide!

/-- C29: let `cos` be bounded by 1 in absolute value and bounded below by
`1 - x^2 / 2`, as the cosine is. For every `t` with `|t| ≤ 10`,
`|calc_earth_latitude t|` is at most the sum of the amplitudes of `E20` plus ten
times that of `E21`, divided by `1e11`, which is `7.75521e-6 ≤ 1e-5`; hence the
cosine of the latitude `-calc_earth_latitude t` that `calc_sun_position` passes
to `adjust_sun_aberration_and_nutation`, the divisor of the aberration
correction, is strictly positive. -/
theorem earth_latitude_bound (m : cmath) (hcos : ∀ x : ℚ, |m.cos x| ≤ 1)
    (hlow : ∀ x : ℚ, 1 - x ^ 2 / 2 ≤ m.cos x) (t : ℚ) (ht : |t| ≤ 10) :
    |calc_earth_latitude m t| ≤ (amplitude_sum E20 + 10 * amplitude_sum E21) / 1e11
      ∧ (amplitude_sum E20 + 10 * amplitude_sum E21) / 1e11 = 7.75521e-6
      ∧ |calc_earth_latitude m t| ≤ 1e-5
      ∧ ∀ jd : ℚ, jd / 365250.0 = t → 0 < m.cos (sun_position_latitude m jd) := by
  have h20 := vsop87_abs_le m hcos t E20
  have h21 := vsop87_abs_le m hcos t E21
  have hs21 : 0 ≤ amplitude_sum E21 := by rw [amplitude_sum_E21]; norm_num
  have hnum : |detail.vsop87_periodic_terms m E20 t + detail.vsop87_periodic_terms m E21 t * t|
      ≤ amplitude_sum E20 + 10 * amplitude_sum E21 := by
    have h3 : |detail.vsop87_periodic_terms m E21 t * t| ≤ 10 * amplitude_sum E21 := by
      rw [abs_mul, mul_comm]
      exact mul_le_mul ht h21 (abs_nonneg _) (by norm_num)
    exact le_trans (abs_add _ _) (by linarith)
  have hb : |calc_earth_latitude m t| ≤ (amplitude_sum E20 + 10 * amplitude_sum E21) / 1e11 := by
    unfold calc_earth_latitude
    simp only []
    rw [abs_div, abs_of_pos (by norm_num : (0 : ℚ) < 1e11)]
    exact div_le_div_of_nonneg_right hnum (by norm_num)
  have hv : (amplitude_sum E20 + 10 * amplitude_sum E21) / 1e11 = 7.75521e-6 := by
    rw [amplitude_sum_E20, amplitude_sum_E21]; norm_num
  have hs : |calc_earth_latitude m t| ≤ 1e-5 := by
    rw [hv] at hb
    exact le_trans hb (by norm_num)
  refine ⟨hb, hv, hs, ?_⟩
  intro jd hjd
  unfold sun_position_latitude
  rw [hjd]
  have hl := hlow (-calc_earth_latitude m t)
  have hsq : (-calc_earth_latitude m t) ^ 2 ≤ 1 := by
    rw [neg_sq, ← sq_abs]
    have h0 := abs_nonneg (calc_earth_latitude m t)
    have h1 : |calc_earth_latitude m t| ≤ 1 := le_trans hs (by norm_num)
    nlinarith
  linarith

/-- Witness of C29 with the constant function 1 in the place of the cosine, at
`t = 10`, where the bound is reached. -/
theorem earth_latitude_bound_witness :
    ((∀ x : ℚ, |(⟨fun _ => 1, fun _ => 0, 3⟩ : cmath).cos x| ≤ 1)
      ∧ (∀ x : ℚ, 1 - x ^ 2 / 2 ≤ (⟨fun _ => 1, fun _ => 0, 3⟩ : cmath).cos x)
      ∧ |(10 : ℚ)| ≤ 10
      ∧ calc_earth_latitude ⟨fun _ => 1, fun _ => 0, 3⟩ 10 = 7.75521e-6)
    ∧ |calc_earth_latitude ⟨fun _ => 1, fun _ => 0, 3⟩ 10| ≤ 1e-5 :=
  ⟨⟨fun _ => by simp, fun x => by simp only []; nlinarith [sq_nonneg x], by decide!, by decide!⟩,
    (earth_latitude_bound ⟨fun _ => 1, fun _ => 0, 3⟩ (fun _ => by simp)
      (fun x => by simp only []; nlinarith [sq_nonneg x]) 10 (by decide!)).2.2.1⟩

end impl
end astronomy

/-! ### Claims on the bounds of the table accesses -/

namespace calendar
open astronomy

end calendar
